import Mathlib

/-!
Hyrise server: wire codec, query response builders, server tasks and session

A shallow embedding of `src/lib/server/postgres_wire_handler.cpp`, of
`src/lib/server/query_response_builder.cpp` and of the server tasks
`src/lib/tasks/server/send_query_response_task.cpp` and
`src/lib/tasks/server/load_server_file_task.cpp`, together with the session state
machine of section 4.4 of the specification, and the properties of the specification
that concern them.

Conventions of the embedding:
* a `char` of a `ByteBuffer` is a `Byte` (a number below 256);
* `uint32_t`, `unsigned int` and `size_t` values are natural numbers, reduced modulo
  `2^32` and `2^64` wherever the C++ arithmetic can wrap;
* an iterator into a buffer is the index it points at;
* a function that reads from a packet returns `none` when the buffer holds too few
  bytes (the C++ read is then out of bounds), and otherwise its result together with
  the packet after the read, since `InputPacket::offset` is `mutable`;
* a function that can fail returns an `Except Failure`; a `boost::future` is given by
  what it resolves to, and a function with an effect on a connection takes the state of
  the connection and returns the state afterwards;
* a recursion that the source does not bound by a loop is bounded by `fuel`, and the
  properties state how much fuel suffices.
-/

namespace opossum

/-! ## Bytes, machine integers, byte order -/

/-- One `char` of a `ByteBuffer`. -/
abbrev Byte := Fin 256

/-- The type `ByteBuffer = std::vector<char>` of `client_connection.hpp`. -/
abbrev ByteBuffer := List Byte

/-- Number of values of a `uint32_t`. -/
def UINT32_MOD : Nat := 2 ^ 32

/-- Number of values of a `size_t` (64-bit target). -/
def SIZE_T_MOD : Nat := 2 ^ 64

/-- The constant `sizeof(uint32_t)`. -/
def sizeof_uint32_t : Nat := 4

/-- Subtraction of two `size_t` values: it wraps modulo `2^64`. -/
def size_t_sub (a b : Nat) : Nat := (a % SIZE_T_MOD + SIZE_T_MOD - b % SIZE_T_MOD) % SIZE_T_MOD

/-- Conversion of an unsigned value to `uint32_t`: truncation modulo `2^32`. -/
def to_uint32_t (a : Nat) : Nat := a % UINT32_MOD

/-- Byte order of the host the server runs on. -/
inductive Endianness where
  | little
  | big
  deriving DecidableEq, Repr

/-- The `uint32_t` whose object representation is the four bytes `b0 b1 b2 b3`, in
memory order, on a host of the given byte order. -/
def uint32_of_memory (e : Endianness) (b0 b1 b2 b3 : Byte) : Nat :=
  match e with
  | Endianness.little => b0.val + b1.val * 2 ^ 8 + b2.val * 2 ^ 16 + b3.val * 2 ^ 24
  | Endianness.big => b3.val + b2.val * 2 ^ 8 + b1.val * 2 ^ 16 + b0.val * 2 ^ 24

/-- Reversal of the four bytes of a `uint32_t`. -/
def bswap32 (x : Nat) : Nat :=
  (x % 256) * 2 ^ 24 + (x / 2 ^ 8 % 256) * 2 ^ 16 + (x / 2 ^ 16 % 256) * 2 ^ 8 + x / 2 ^ 24 % 256

/-- The libc function `ntohl` (network to host long): the identity on a big-endian
host, a byte swap on a little-endian one. -/
def ntohl (e : Endianness) (x : Nat) : Nat :=
  match e with
  | Endianness.little => bswap32 x
  | Endianness.big => x

/-- The number that four bytes denote when read as a big-endian (network order)
unsigned 32-bit integer. -/
def big_endian_uint32 (b0 b1 b2 b3 : Byte) : Nat :=
  b0.val * 2 ^ 24 + b1.val * 2 ^ 16 + b2.val * 2 ^ 8 + b3.val

/-- The byte number `k` (0 is the most significant) of the big-endian encoding of a
32-bit number. -/
def big_endian_byte (x : Nat) (k : Nat) : Byte :=
  ⟨x / 2 ^ (8 * (3 - k)) % 256, Nat.mod_lt _ (by decide)⟩

/-- The four bytes of the big-endian encoding of a 32-bit number. -/
def big_endian_bytes (x : Nat) : ByteBuffer :=
  [big_endian_byte x 0, big_endian_byte x 1, big_endian_byte x 2, big_endian_byte x 3]

/-! ## Packets -/

/-- The type `enum class NetworkMessageType : unsigned char`: a message tag is one
byte, and every byte value can be read from the wire. -/
abbrev NetworkMessageType := Byte

/-- Modelled from the spec: the enumerators of `NetworkMessageType` are declared in
`postgres_wire_handler.hpp`, which is not among the sources; section 6 gives the tag
of a simple query as the character Q. -/
def NetworkMessageType.SimpleQueryCommand : NetworkMessageType := 81

/-- Modelled from the spec: see `NetworkMessageType.SimpleQueryCommand`; section 6
gives the tag of a termination as the character X. -/
def NetworkMessageType.TerminateCommand : NetworkMessageType := 88

/-- The struct `InputPacket`: a byte buffer and a read cursor into it. -/
structure InputPacket where
  data : ByteBuffer
  offset : Nat
  deriving DecidableEq, Repr

/-- The struct `OutputPacket`: a byte buffer under construction. -/
structure OutputPacket where
  data : ByteBuffer
  deriving DecidableEq, Repr

/-- The struct `RequestHeader`, as the tests construct it:
`RequestHeader{message_type, payload_length}`. -/
structure RequestHeader where
  message_type : NetworkMessageType
  payload_length : Nat
  deriving DecidableEq, Repr

/-- Modelled from the spec: the template `PostgresWireHandler::read_values<char>` is
defined in `postgres_wire_handler.hpp`, which is not among the sources. Following
section 3 (a buffer with a read cursor, consumed strictly forward) it takes the next
`num_values` bytes at the cursor and advances the cursor past them. -/
def read_values (packet : InputPacket) (num_values : Nat) : Option (ByteBuffer × InputPacket) :=
  if packet.offset + num_values ≤ packet.data.length then
    some ((packet.data.drop packet.offset).take num_values,
      { packet with offset := packet.offset + num_values })
  else
    none

/-- Modelled from the spec: the template `PostgresWireHandler::read_value<T>` (see
`read_values`), at `T = uint32_t`: the next four bytes become the object
representation of the result, in host byte order. -/
def read_value_uint32_t (e : Endianness) (packet : InputPacket) : Option (Nat × InputPacket) :=
  match read_values packet sizeof_uint32_t with
  | some ([b0, b1, b2, b3], packet') => some (uint32_of_memory e b0 b1 b2 b3, packet')
  | _ => none

/-- Modelled from the spec: the template `PostgresWireHandler::read_value<T>` (see
`read_values`), at `T = NetworkMessageType`: the next byte is the tag. -/
def read_value_NetworkMessageType (packet : InputPacket) :
    Option (NetworkMessageType × InputPacket) :=
  match read_values packet 1 with
  | some ([tag], packet') => some (tag, packet')
  | _ => none

/-! ## `PostgresWireHandler` -/

/-- The function `PostgresWireHandler::handle_startup_package`. -/
def handle_startup_package (e : Endianness) (packet : InputPacket) : Option (Nat × InputPacket) :=
  match read_value_uint32_t e packet with
  | none => none
  | some (n_length, packet) =>
    let length := ntohl e n_length
    match read_value_uint32_t e packet with
    | none => none
    | some (n_version, packet) =>
      let version := ntohl e n_version
      -- Reset data buffer
      let packet := { packet with offset := 0 }
      -- Special SSL version number
      if version = 80877103 then
        some (0, packet)
      else
        -- Subtract read bytes from total length
        some (to_uint32_t (size_t_sub length (2 * sizeof_uint32_t)), packet)

/-- The function `PostgresWireHandler::handle_startup_package_content`: the content is
read and ignored. -/
def handle_startup_package_content (packet : InputPacket) (length : Nat) : Option InputPacket :=
  match read_values packet length with
  | none => none
  | some (_, packet) => some packet

/-- The function `PostgresWireHandler::handle_header`. -/
def handle_header (e : Endianness) (packet : InputPacket) : Option (RequestHeader × InputPacket) :=
  match read_value_NetworkMessageType packet with
  | none => none
  | some (tag, packet) =>
    match read_value_uint32_t e packet with
    | none => none
    | some (n_length, packet) =>
      let length := ntohl e n_length
      let packet := { packet with offset := 0 }
      -- Return length minus the already read bytes
      some ({ message_type := tag,
              payload_length := to_uint32_t (size_t_sub length sizeof_uint32_t) }, packet)

/-- The function `PostgresWireHandler::handle_query_packet`: the bytes read become a
`std::string` of the same bytes. -/
def handle_query_packet (packet : InputPacket) (length : Nat) : Option (ByteBuffer × InputPacket) :=
  match read_values packet length with
  | none => none
  | some (buffer, packet) => some (buffer, packet)

/-- The function `PostgresWireHandler::write_string`; a `std::string` is the list of
its bytes. `reserve` changes the capacity only, not the contents. -/
def write_string (packet : OutputPacket) (value : ByteBuffer) (terminate : Bool) : OutputPacket :=
  let data := packet.data
  let data := data ++ value
  if terminate then
    -- 0-terminate the string
    { data := data ++ [0] }
  else
    { data := data }

/-! ## Failures -/

/-- The ways a server function can end without a result. -/
inductive Failure where
  /-- the call `Fail(msg)` -/
  | fatal (msg : String)
  /-- the statement `throw std::logic_error(msg)` -/
  | logic_error (msg : String)
  /-- an access to a vector element outside its bounds -/
  | out_of_bounds
  /-- an exception object of the class `std::exception` itself, which carries no
  message of the program -/
  | std_exception
  deriving DecidableEq, Repr

deriving instance DecidableEq for Except

/-- Modelled from the spec: the function `Fail` is declared in `utils/assert.hpp`, which
is not among the sources. Sections 4.5 and 7 make it a fatal internal error: an
unconditional abort of the running work, distinct from the errors of one command. -/
def Fail {α : Type} (msg : String) : Except Failure α :=
  Except.error (Failure.fatal msg)

/-- Element `i` of a `std::vector`, read with `operator[]`. -/
def vector_at {α : Type} (v : List α) (i : Nat) : Except Failure α :=
  match v[i]? with
  | some x => Except.ok x
  | none => Except.error Failure.out_of_bounds

/-! ## Row descriptions -/

/-- Modelled from the spec: the enumeration `DataType` is declared in `types.hpp`,
which is not among the sources. Section 4.5 names the five logical types that have
wire metadata; `Unrecognized` stands for every other enumerator, the ones the
`default:` label of the two builders receives. -/
inductive DataType where
  | Int
  | Long
  | Float
  | Double
  | String
  | Unrecognized (value : Nat)
  deriving DecidableEq, Repr

/-- The struct `ColumnDescription`, as the builders construct it:
`ColumnDescription{name, object_id, type_id}` (section 3: name, type_oid, type_size). -/
structure ColumnDescription where
  name : String
  type_oid : Int
  type_size : Int
  deriving DecidableEq, Repr

/-- Modelled from the spec: the class `Table` is not among the sources. Section 6 gives
what the builders use of it: `column_names`, `column_types` and `column_count`. -/
structure Table where
  column_names : List String
  column_types : List DataType
  deriving DecidableEq, Repr

/-- Modelled from the spec: the method `Table::column_count` (see `Table`), the number of
columns the table has a type for. -/
def Table.column_count (table : Table) : Nat := table.column_types.length

/-- The invariant of the class `Table`: every column has a name and a type. -/
def Table.consistent (table : Table) : Prop :=
  table.column_names.length = table.column_types.length

instance (table : Table) : Decidable table.consistent := by
  unfold Table.consistent; infer_instance

/-- One iteration of the loop of `QueryResponseBuilder::build_row_description`: the
`switch` sets `object_id` and `type_id`, then the description is appended. -/
def QueryResponseBuilder.build_row_description_step (table : Table)
    (result : List ColumnDescription) (column_id : Nat) :
    Except Failure (List ColumnDescription) := do
  let column_type ← vector_at table.column_types column_id
  let (object_id, type_id) ← (match column_type with
    | DataType.Int => pure (23, 4)
    | DataType.Long => pure (20, 8)
    | DataType.Float => pure (700, 4)
    | DataType.Double => pure (701, 8)
    | DataType.String => pure (25, -1)
    | _ => Fail "Bad DataType" : Except Failure (Int × Int))
  let column_name ← vector_at table.column_names column_id
  pure (result ++ [{ name := column_name, type_oid := object_id, type_size := type_id }])

/-- The function `QueryResponseBuilder::build_row_description`: the loop over
`column_id` from 0 up to `column_count`. -/
def QueryResponseBuilder.build_row_description (table : Table) :
    Except Failure (List ColumnDescription) :=
  (List.range table.column_count).foldlM (QueryResponseBuilder.build_row_description_step table) []

/-- One iteration of the loop of `SendQueryResponseTask::build_row_description`: each
`case` appends its own description. -/
def SendQueryResponseTask.build_row_description_step (table : Table)
    (result : List ColumnDescription) (column_id : Nat) :
    Except Failure (List ColumnDescription) := do
  let column_type ← vector_at table.column_types column_id
  match column_type with
  | DataType.Int => do
    let column_name ← vector_at table.column_names column_id
    pure (result ++ [{ name := column_name, type_oid := 23, type_size := 4 }])
  | DataType.Long => do
    let column_name ← vector_at table.column_names column_id
    pure (result ++ [{ name := column_name, type_oid := 20, type_size := 8 }])
  | DataType.Float => do
    let column_name ← vector_at table.column_names column_id
    pure (result ++ [{ name := column_name, type_oid := 700, type_size := 4 }])
  | DataType.Double => do
    let column_name ← vector_at table.column_names column_id
    pure (result ++ [{ name := column_name, type_oid := 701, type_size := 8 }])
  | DataType.String => do
    let column_name ← vector_at table.column_names column_id
    pure (result ++ [{ name := column_name, type_oid := 25, type_size := -1 }])
  | _ => Fail "Bad DataType"

/-- The function `SendQueryResponseTask::build_row_description`. -/
def SendQueryResponseTask.build_row_description (table : Table) :
    Except Failure (List ColumnDescription) :=
  (List.range table.column_count).foldlM (SendQueryResponseTask.build_row_description_step table) []

/-! ## The tables of the specification -/

/-- The type mapping of section 4.5 of the specification, row by row: the pair
(type_oid, type_size) of a logical type, and nothing for a type the table lacks. -/
def spec_type_mapping : DataType → Option (Int × Int)
  | DataType.Int => some (23, 4)
  | DataType.Long => some (20, 8)
  | DataType.Float => some (700, 4)
  | DataType.Double => some (701, 8)
  | DataType.String => some (25, -1)
  | DataType.Unrecognized _ => none

/-- The header encoding of section 6 of the specification: the tag byte, then the
big-endian `int32 length`, where `length` counts itself (four bytes) and the payload,
but not the tag. -/
def spec_encode_header (message_type : NetworkMessageType) (payload_length : Nat) : ByteBuffer :=
  message_type :: big_endian_bytes ((payload_length + 4) % UINT32_MOD)

/-- The SSL-negotiation sentinel of section 4.1 of the specification. -/
def SSL_REQUEST_VERSION : Nat := 80877103

/-! ## Command-complete messages -/

/-- The enumeration `hsql::StatementType` of the SQL parser library: the five
statement kinds the builders have a `case` for, and `kStmtOther` for every other
enumerator, the ones their `default:` label receives. -/
inductive StatementType where
  | kStmtSelect
  | kStmtInsert
  | kStmtUpdate
  | kStmtDelete
  | kStmtCreate
  | kStmtOther (value : Nat)
  deriving DecidableEq, Repr

/-- The standard function `std::to_string` on an unsigned integer: its decimal digits,
most significant first. -/
def std_to_string (value : Nat) : String :=
  String.mk (Nat.toDigits 10 value)

/-- The function `QueryResponseBuilder::build_command_complete_message`. -/
def QueryResponseBuilder.build_command_complete_message (statement_type : StatementType)
    (row_count : Nat) : Except Failure String :=
  match statement_type with
  | StatementType.kStmtSelect => pure ("SELECT " ++ std_to_string row_count)
  -- 0 is ignored OID and 1 inserted row
  | StatementType.kStmtInsert => pure "INSERT 0 1"
  -- We do not return how many rows are affected, because we don't track this information
  | StatementType.kStmtUpdate => pure "UPDATE -1"
  | StatementType.kStmtDelete => pure "DELETE -1"
  -- 0 rows retrieved (Postgres requires a CREATE TABLE statement to return SELECT)
  | StatementType.kStmtCreate => pure "SELECT 0"
  | _ => Except.error
      (Failure.logic_error "Unknown statement type. Server doesn't know how to complete query.")

/-- The function `SendQueryResponseTask::build_command_complete_message`. -/
def SendQueryResponseTask.build_command_complete_message (statement_type : StatementType)
    (row_count : Nat) : Except Failure String :=
  match statement_type with
  | StatementType.kStmtSelect => pure ("SELECT " ++ std_to_string row_count)
  -- 0 is ignored OID and 1 inserted row
  | StatementType.kStmtInsert => pure "INSERT 0 1"
  -- We do not return how many rows are affected
  | StatementType.kStmtUpdate => pure "UPDATE 0"
  | StatementType.kStmtDelete => pure "DELETE 0"
  -- 0 rows retrieved (Postgres requires a CREATE TABLE statement to return SELECT)
  | StatementType.kStmtCreate => pure "SELECT 0"
  | _ => Except.error
      (Failure.logic_error "Unknown statement type. Server doesn't know how to complete query.")

/-- The number a list of characters denotes when it is read as decimal digits, most
significant first. -/
def decimal_value (digits : List Char) : Nat :=
  digits.foldl (fun value digit => 10 * value + (digit.toNat - 48)) 0

/-- The characters 0 to 9. -/
def is_decimal_digit (c : Char) : Bool :=
  decide (48 ≤ c.toNat) && decide (c.toNat ≤ 57)

/-! ## Result tables and the row walk of `QueryResponseBuilder` -/

/-- Modelled from the spec: the class `Chunk` is not among the sources. The row walk
uses its `size()`, its `get_column(column_id)` and the cells of a column by chunk
offset (section 6: row iteration in chunk-then-offset order); `Cell` is the type of a
cell value. -/
structure Chunk (Cell : Type) where
  columns : List (List Cell)
  size : Nat
  deriving DecidableEq, Repr

/-- The invariant of the class `Chunk` inside a table of `column_count` columns: it has
that many columns, and every column has `size` cells. -/
def Chunk.consistent {Cell : Type} (chunk : Chunk Cell) (column_count : Nat) : Prop :=
  chunk.columns.length = column_count ∧ ∀ column, column ∈ chunk.columns → column.length = chunk.size

instance {Cell : Type} (chunk : Chunk Cell) (column_count : Nat) :
    Decidable (chunk.consistent column_count) := by
  unfold Chunk.consistent; infer_instance

/-- Modelled from the spec: the class `Table` (see `Table`) together with its chunks,
the part of it that the row walk uses (section 6: `result_table`). -/
structure ResultTable (Cell : Type) extends Table where
  chunks : List (Chunk Cell)
  deriving DecidableEq, Repr

/-- Modelled from the spec: the method `Table::chunk_count` (see `ResultTable`). -/
def ResultTable.chunk_count {Cell : Type} (table : ResultTable Cell) : Nat :=
  table.chunks.length

/-- Modelled from the spec: the method `Table::row_count` (see `ResultTable`), the
rows of all chunks together. -/
def ResultTable.row_count {Cell : Type} (table : ResultTable Cell) : Nat :=
  (table.chunks.map (fun chunk => chunk.size)).sum

/-- The invariant of a table with chunks: every chunk is consistent with the number of
columns of the table. -/
def ResultTable.consistent {Cell : Type} (table : ResultTable Cell) : Prop :=
  ∀ chunk, chunk ∈ table.chunks → chunk.consistent table.column_count

instance {Cell : Type} (table : ResultTable Cell) : Decidable table.consistent := by
  unfold ResultTable.consistent; infer_instance

/-- The type `send_row_t`, a function that is given a row and returns a
`boost::future<void>`: on a connection in state `σ` it yields what the future resolves
to (a value or a failure) and the state of the connection afterwards. -/
abbrev send_row_t (σ : Type) := List String → σ → Except Failure Unit × σ

/-- The `for` loop over `column_id` of `send_query_response_rows`: entry `column_id` of
`row_strings` becomes the string of the cell of column `column_id` at the offset;
`type_cast` is `type_cast<std::string>`. -/
def fill_row_strings {Cell : Type} (type_cast : Cell → String) (chunk : Chunk Cell)
    (current_chunk_offset : Nat) (row_strings : List String) : Except Failure (List String) :=
  (List.range row_strings.length).foldlM (fun row_strings column_id => do
    let column ← vector_at chunk.columns column_id
    let value ← vector_at column current_chunk_offset
    pure (row_strings.set column_id (type_cast value))) row_strings

/-- The function `QueryResponseBuilder::send_query_response_rows`. The recursion of the
continuation is bounded by `fuel` (`none`: the bound was reached); a result is what
the returned future resolves to, `row_strings` (passed by reference) and the state of
the connection. A continuation behind `then` runs only when the future before it
resolved to a value; a failure passes through to the returned future. -/
def send_query_response_rows {σ Cell : Type} (send_row : send_row_t σ) (type_cast : Cell → String)
    (chunk : Chunk Cell) :
    Nat → Nat → List String → σ → Option (Except Failure Unit × List String × σ)
  | 0, _, _, _ => none
  | fuel + 1, current_chunk_offset, row_strings, s =>
    if current_chunk_offset = chunk.size then
      some (Except.ok (), row_strings, s)
    else
      match fill_row_strings type_cast chunk current_chunk_offset row_strings with
      | Except.error failure => some (Except.error failure, row_strings, s)
      | Except.ok row_strings =>
        match send_row row_strings s with
        | (Except.ok (), s) =>
          send_query_response_rows send_row type_cast chunk fuel (current_chunk_offset + 1)
            row_strings s
        | (Except.error failure, s) => some (Except.error failure, row_strings, s)

/-- The function `QueryResponseBuilder::send_query_response_chunks`, bounded by `fuel`
like `send_query_response_rows`. -/
def send_query_response_chunks {σ Cell : Type} (send_row : send_row_t σ) (type_cast : Cell → String)
    (table : ResultTable Cell) :
    Nat → Nat → List String → σ → Option (Except Failure Unit × List String × σ)
  | 0, _, _, _ => none
  | fuel + 1, current_chunk_id, row_strings, s =>
    if current_chunk_id = table.chunk_count then
      some (Except.ok (), row_strings, s)
    else
      match vector_at table.chunks current_chunk_id with
      | Except.error failure => some (Except.error failure, row_strings, s)
      | Except.ok chunk =>
        match send_query_response_rows send_row type_cast chunk fuel 0 row_strings s with
        | none => none
        | some (Except.ok (), row_strings, s) =>
          send_query_response_chunks send_row type_cast table fuel (current_chunk_id + 1)
            row_strings s
        | some (Except.error failure, row_strings, s) =>
          some (Except.error failure, row_strings, s)

/-- The function `QueryResponseBuilder::send_query_response`: `row_strings` starts as
`num_columns` empty strings, and the row count is returned when the walk over the
chunks resolved to a value. -/
def send_query_response {σ Cell : Type} (send_row : send_row_t σ) (type_cast : Cell → String)
    (table : ResultTable Cell) (fuel : Nat) (s : σ) : Option (Except Failure Nat × σ) :=
  let num_columns := table.column_count
  let row_strings := List.replicate num_columns ""
  match send_query_response_chunks send_row type_cast table fuel 0 row_strings s with
  | none => none
  | some (Except.ok (), _, s) => some (Except.ok table.row_count, s)
  | some (Except.error failure, _, s) => some (Except.error failure, s)

/-- A `send_row` that keeps a record: every call appends the row it was given and what
its future resolved to, then behaves as `send_row`. -/
def recording_send_row {σ : Type} (send_row : send_row_t σ) :
    send_row_t (σ × List (List String × Except Failure Unit)) :=
  fun row state =>
    match send_row row state.1 with
    | (outcome, s) => (outcome, (s, state.2 ++ [(row, outcome)]))

/-- The row of a chunk at an offset as section 6 describes it: the cells of the
columns at that offset, in column order, each one stringified. -/
def stringified_row {Cell : Type} (type_cast : Cell → String) (chunk : Chunk Cell)
    (chunk_offset : Nat) : List String :=
  chunk.columns.map (fun column =>
    match column[chunk_offset]? with
    | some value => type_cast value
    | none => "")

/-- The rows of a table in the storage order of section 4.4: chunk order, then
ascending offset inside a chunk. -/
def stringified_rows {Cell : Type} (type_cast : Cell → String) (table : ResultTable Cell) :
    List (List String) :=
  table.chunks.flatMap (fun chunk =>
    (List.range chunk.size).map (stringified_row type_cast chunk))

/-- Rows sent one after the other with `send_row`, up to the first one whose send
fails. -/
def send_all {σ : Type} (send_row : send_row_t σ) : List (List String) → σ → Except Failure Unit × σ
  | [], s => (Except.ok (), s)
  | row :: rest, s =>
    match send_row row s with
    | (Except.ok (), s) => send_all send_row rest s
    | (Except.error failure, s) => (Except.error failure, s)

/-- A result table of two columns and three chunks, the second chunk empty; its rows
in storage order are (1, 3), (2, 4) and (5, 6). -/
def example_result_table : ResultTable Nat :=
  { column_names := ["a", "b"], column_types := [DataType.Int, DataType.Int],
    chunks := [⟨[[1, 2], [3, 4]], 2⟩, ⟨[[], []], 0⟩, ⟨[[5], [6]], 1⟩] }

/-- A `send_row` that always succeeds, on a connection that counts the calls. -/
def send_row_counting : send_row_t Nat :=
  fun _ calls => (Except.ok (), calls + 1)

/-- A `send_row` whose second call fails, on a connection that counts the calls. -/
def send_row_failing_second : send_row_t Nat :=
  fun _ calls =>
    (if calls = 1 then Except.error (Failure.logic_error "connection closed") else Except.ok (),
      calls + 1)

/-! ## Server tasks -/

/-- The message `what()` of a failure that is an exception; an object of the class
`std::exception` itself answers with a fixed text of the standard library. -/
def Failure.what : Failure → String
  | Failure.fatal msg => msg
  | Failure.logic_error msg => msg
  | Failure.out_of_bounds => ""
  | Failure.std_exception => "std::exception"

/-- The failures that a handler `catch (std::exception&)` receives: the exceptions.
A fatal `Fail` and an access out of bounds are not exceptions. -/
def Failure.is_std_exception : Failure → Bool
  | Failure.logic_error _ => true
  | Failure.std_exception => true
  | Failure.fatal _ => false
  | Failure.out_of_bounds => false

/-- A call on the promise of a server task. -/
inductive PromiseCall (α : Type) where
  | set_value (value : α)
  | set_exception (failure : Failure)
  deriving DecidableEq, Repr

/-- One run of `_on_execute`: the calls it made on `_promise`, in order, a failure
that left it uncaught, and the state of what it worked on afterwards. -/
structure TaskRun (α σ : Type) where
  promise : List (PromiseCall α)
  escaped : Option Failure
  state : σ
  deriving DecidableEq, Repr

/-- The call `_promise.set_exception(boost::current_exception())`: the exception in
flight is stored as it is. -/
def set_exception_current {α : Type} (failure : Failure) : PromiseCall α :=
  PromiseCall.set_exception failure

/-- The call `_promise.set_exception(exception)` on a reference of static type
`const std::exception&`: the template `set_exception(E ex)` takes its argument by
value with `E = std::exception`, so what is stored is a copy of the `std::exception`
part of the exception caught, an object of the class `std::exception` itself. -/
def set_exception_by_value {α : Type} (_exception : Failure) : PromiseCall α :=
  PromiseCall.set_exception Failure.std_exception

/-- A method of the connection such as `send_data_row`, which returns a
`boost::future<void>`: on a connection in state `σ` the call either raises a failure
or returns a future, given by what it resolves to (a value or a failure). -/
abbrev send_data_row_t (σ : Type) := List String → σ → Except Failure (Except Failure Unit) × σ

/-- The `for` loop over `column_id` of `SendQueryResponseTask::_on_execute`: the
strings of the cells at the offset are appended to the empty `row_strings`. -/
def SendQueryResponseTask.build_row_strings {Cell : Type} (type_cast : Cell → String)
    (num_columns : Nat) (chunk : Chunk Cell) (chunk_offset : Nat) : Except Failure (List String) :=
  (List.range num_columns).foldlM (fun row_strings column_id => do
    let column ← vector_at chunk.columns column_id
    let value ← vector_at column chunk_offset
    pure (row_strings ++ [type_cast value])) []

/-- The `for` loop over `chunk_offset` of `SendQueryResponseTask::_on_execute`, over the
offsets still to visit; `row_count` is an `unsigned int`. The future that
`send_data_row` returns is dropped; a failure the call raises ends the loop. -/
def SendQueryResponseTask.chunk_offset_loop {σ Cell : Type} (send_data_row : send_data_row_t σ)
    (type_cast : Cell → String) (num_columns : Nat) (chunk : Chunk Cell) :
    List Nat → Nat → σ → Except Failure Nat × σ
  | [], row_count, s => (Except.ok row_count, s)
  | chunk_offset :: offsets, row_count, s =>
    match SendQueryResponseTask.build_row_strings type_cast num_columns chunk chunk_offset with
    | Except.error failure => (Except.error failure, s)
    | Except.ok row_strings =>
      let row_count := (row_count + 1) % UINT32_MOD
      -- The result of this call (and thus possible exceptions) are ignored
      match send_data_row row_strings s with
      | (Except.error failure, s) => (Except.error failure, s)
      | (Except.ok _, s) =>
        SendQueryResponseTask.chunk_offset_loop send_data_row type_cast num_columns chunk
          offsets row_count s

/-- The `for` loop over `chunk_id` of `SendQueryResponseTask::_on_execute`, over the
chunk ids still to visit. -/
def SendQueryResponseTask.chunk_id_loop {σ Cell : Type} (send_data_row : send_data_row_t σ)
    (type_cast : Cell → String) (num_columns : Nat) (table : ResultTable Cell) :
    List Nat → Nat → σ → Except Failure Nat × σ
  | [], row_count, s => (Except.ok row_count, s)
  | chunk_id :: chunk_ids, row_count, s =>
    match vector_at table.chunks chunk_id with
    | Except.error failure => (Except.error failure, s)
    | Except.ok chunk =>
      match SendQueryResponseTask.chunk_offset_loop send_data_row type_cast num_columns chunk
          (List.range chunk.size) row_count s with
      | (Except.error failure, s) => (Except.error failure, s)
      | (Except.ok row_count, s) =>
        SendQueryResponseTask.chunk_id_loop send_data_row type_cast num_columns table
          chunk_ids row_count s

/-- The `try` block of `SendQueryResponseTask::_on_execute` up to the call of
`set_value`: the walk over the result table, which yields `row_count`. -/
def SendQueryResponseTask.try_block {σ Cell : Type} (send_data_row : send_data_row_t σ)
    (type_cast : Cell → String) (result_table : ResultTable Cell) (s : σ) :
    Except Failure Nat × σ :=
  let row_count := 0
  let num_columns := result_table.column_count
  SendQueryResponseTask.chunk_id_loop send_data_row type_cast num_columns result_table
    (List.range result_table.chunk_count) row_count s

/-- The function `SendQueryResponseTask::_on_execute`: the `try` block ends with
`_promise.set_value(row_count)`, and the handler `catch (std::exception&)` calls
`_promise.set_exception(boost::current_exception())`. -/
def SendQueryResponseTask._on_execute {σ Cell : Type} (send_data_row : send_data_row_t σ)
    (type_cast : Cell → String) (result_table : ResultTable Cell) (s : σ) : TaskRun Nat σ :=
  match SendQueryResponseTask.try_block send_data_row type_cast result_table s with
  | (Except.ok row_count, s) =>
    { promise := [PromiseCall.set_value row_count], escaped := none, state := s }
  | (Except.error failure, s) =>
    if failure.is_std_exception then
      { promise := [set_exception_current failure], escaped := none, state := s }
    else
      { promise := [], escaped := some failure, state := s }

/-- The `try` block of `LoadServerFileTask::_on_execute` up to the call of
`set_value`. The functions `load_table` and `StorageManager::add_table` are not among
the sources and are parameters: `load_table` reads a file and either raises or
returns a table, `add_table` acts on the storage manager in state `σ`. -/
def LoadServerFileTask.try_block {σ T : Type} (load_table : String → Nat → Except Failure T)
    (add_table : String → T → σ → Except Failure Unit × σ) (MAX_SIZE : Nat)
    (file_name table_name : String) (storage : σ) : Except Failure Unit × σ :=
  match load_table file_name MAX_SIZE with
  | Except.error failure => (Except.error failure, storage)
  | Except.ok table => add_table table_name table storage

/-- The function `LoadServerFileTask::_on_execute`: the `try` block ends with
`_promise.set_value()`, and the handler `catch (const std::exception& exception)`
calls `_promise.set_exception(exception)`. -/
def LoadServerFileTask._on_execute {σ T : Type} (load_table : String → Nat → Except Failure T)
    (add_table : String → T → σ → Except Failure Unit × σ) (MAX_SIZE : Nat)
    (file_name table_name : String) (storage : σ) : TaskRun Unit σ :=
  match LoadServerFileTask.try_block load_table add_table MAX_SIZE file_name table_name
      storage with
  | (Except.ok (), storage) =>
    { promise := [PromiseCall.set_value ()], escaped := none, state := storage }
  | (Except.error failure, storage) =>
    if failure.is_std_exception then
      { promise := [set_exception_by_value failure], escaped := none, state := storage }
    else
      { promise := [], escaped := some failure, state := storage }

/-- A `send_data_row` that keeps a record: every call appends the row it was given,
then behaves as `send_data_row`. -/
def recording_send_data_row {σ : Type} (send_data_row : send_data_row_t σ) :
    send_data_row_t (σ × List (List String)) :=
  fun row state =>
    match send_data_row row state.1 with
    | (outcome, s) => (outcome, (s, state.2 ++ [row]))

/-- A `send_data_row` that never raises and whose futures all resolve to a failure. -/
def send_data_row_failing_future : send_data_row_t Unit :=
  fun _ s => (Except.ok (Except.error (Failure.logic_error "connection closed")), s)

/-- A `send_data_row` whose second call raises, on a connection that counts the calls. -/
def send_data_row_raising_second : send_data_row_t Nat :=
  fun _ calls =>
    (if calls = 1 then Except.error (Failure.logic_error "connection closed")
      else Except.ok (Except.ok ()), calls + 1)

/-- A `load_table` for which no file exists. -/
def load_table_no_file : String → Nat → Except Failure Table :=
  fun file_name _ => Except.error (Failure.logic_error ("Could not find file " ++ file_name))

/-- A `load_table` that reads a table of one integer column from every file. -/
def load_table_one_column : String → Nat → Except Failure Table :=
  fun _ _ => Except.ok { column_names := ["a"], column_types := [DataType.Int] }

/-- A storage manager as the list of its tables by name; `add_table` raises when the
name is taken. -/
def add_table_by_name : String → Table → List (String × Table) → Except Failure Unit × List (String × Table) :=
  fun name table storage =>
    if storage.any (fun entry => entry.1 == name) then
      (Except.error (Failure.logic_error ("A table with the name " ++ name ++ " already exists")),
        storage)
    else
      (Except.ok (), storage ++ [(name, table)])

/-- Rows passed one after the other to `send_data_row`, up to the first call that
raises; the futures the calls return are dropped, and the rows are counted in an
`unsigned int`. -/
def send_data_row_all {σ : Type} (send_data_row : send_data_row_t σ) :
    List (List String) → Nat → σ → Except Failure Nat × σ
  | [], row_count, s => (Except.ok row_count, s)
  | row :: rest, row_count, s =>
    match send_data_row row s with
    | (Except.error failure, s) => (Except.error failure, s)
    | (Except.ok _, s) => send_data_row_all send_data_row rest ((row_count + 1) % UINT32_MOD) s

/-! ## The session state machine -/

/-- A call of the session on its connection or on its task runner, with the arguments
the tests of the session check (`server_session_test.cpp`). -/
inductive SessionCall where
  | receive_startup_packet_header
  | receive_startup_packet_contents (size : Nat)
  | receive_packet_header
  | receive_packet_contents (size : Nat)
  | send_ssl_denied
  | send_auth
  | send_ready_for_query
  | send_error (message : String)
  | send_row_description (row_description : List ColumnDescription)
  | send_command_complete (message : String)
  | dispatch_create_pipeline (query : ByteBuffer)
  | dispatch_execute_server_query
  | dispatch_send_query_response
  deriving DecidableEq, Repr

/-- Modelled from the spec: the connection and the task runner of a session (the mocks
`MockConnection` and `MockTaskRunner` of the tests are not among the sources), seen
from the session. Each field gives what the future of a call resolves to, as a
function of the calls made so far, that call included. The sends of section 4.4 for
which the specification states no failure transition (SSL denial, authentication-ok,
ready-for-query, error response) have no outcome here. -/
structure SessionEnvironment (Cell : Type) where
  receive_startup_packet_header : List SessionCall → Except Failure Nat
  receive_startup_packet_contents : List SessionCall → Except Failure Unit
  receive_packet_header : List SessionCall → Except Failure RequestHeader
  receive_packet_contents : List SessionCall → Except Failure InputPacket
  create_pipeline : List SessionCall → Except Failure StatementType
  execute_server_query : List SessionCall → Except Failure (ResultTable Cell)
  send_row_description : List SessionCall → Except Failure Unit
  send_query_response : List SessionCall → Except Failure Nat
  send_command_complete : List SessionCall → Except Failure Unit

/-- Modelled from the spec: the states of the session of section 4.4 (the file
`server_session.cpp` is not among the sources). `Aborted` is the unconditional abort
of section 7 after a fatal internal error; `Unspecified` stands for the situations for
which section 4.4 states no transition (a message type other than SimpleQuery and
Terminate, a packet shorter than its header announced). -/
inductive SessionState (Cell : Type) where
  | Start
  | AwaitingStartupHeader
  | SslDenied
  | AwaitingStartupContents (remaining_length : Nat)
  | CommandLoop
  | AwaitingCommandHeader
  | AwaitingCommandContents (payload_length : Nat)
  | Executing (query : ByteBuffer)
  | Responding (statement_type : StatementType) (result_table : ResultTable Cell)
  | Closed
  | Aborted (failure : Failure)
  | Unspecified

/-- Modelled from the spec: the failure path of step 4 of section 4.4: an error response
with the message text of the failure, then ready-for-query, and the command loop goes
on at the next command header. -/
def session_error_path {Cell : Type} (failure : Failure) (trace : List SessionCall) :
    SessionState Cell × List SessionCall :=
  (SessionState.AwaitingCommandHeader,
    trace ++ [SessionCall.send_error failure.what, SessionCall.send_ready_for_query])

/-- Modelled from the spec: one transition of the session of section 4.4 (see
`SessionState`), from a state and the calls made so far to the next state and the calls
made then. -/
def session_step {Cell : Type} (env : SessionEnvironment Cell) :
    SessionState Cell × List SessionCall → SessionState Cell × List SessionCall
  | (SessionState.Start, trace) => (SessionState.AwaitingStartupHeader, trace)
  | (SessionState.AwaitingStartupHeader, trace) =>
    let trace := trace ++ [SessionCall.receive_startup_packet_header]
    match env.receive_startup_packet_header trace with
    | Except.error _ => (SessionState.Closed, trace)
    | Except.ok remaining_length =>
      if remaining_length = 0 then (SessionState.SslDenied, trace)
      else (SessionState.AwaitingStartupContents remaining_length, trace)
  | (SessionState.SslDenied, trace) =>
    (SessionState.AwaitingStartupHeader, trace ++ [SessionCall.send_ssl_denied])
  | (SessionState.AwaitingStartupContents remaining_length, trace) =>
    let trace := trace ++ [SessionCall.receive_startup_packet_contents remaining_length]
    match env.receive_startup_packet_contents trace with
    | Except.error _ => (SessionState.Closed, trace)
    | Except.ok () =>
      (SessionState.CommandLoop,
        trace ++ [SessionCall.send_auth, SessionCall.send_ready_for_query])
  | (SessionState.CommandLoop, trace) => (SessionState.AwaitingCommandHeader, trace)
  | (SessionState.AwaitingCommandHeader, trace) =>
    let trace := trace ++ [SessionCall.receive_packet_header]
    match env.receive_packet_header trace with
    | Except.error _ => (SessionState.Closed, trace)
    | Except.ok header =>
      if header.message_type = NetworkMessageType.TerminateCommand then
        (SessionState.Closed, trace)
      else if header.message_type = NetworkMessageType.SimpleQueryCommand then
        (SessionState.AwaitingCommandContents header.payload_length, trace)
      else (SessionState.Unspecified, trace)
  | (SessionState.AwaitingCommandContents payload_length, trace) =>
    let trace := trace ++ [SessionCall.receive_packet_contents payload_length]
    match env.receive_packet_contents trace with
    | Except.error failure => session_error_path failure trace
    | Except.ok packet =>
      match handle_query_packet packet payload_length with
      | none => (SessionState.Unspecified, trace)
      | some (query, _) => (SessionState.Executing query, trace)
  | (SessionState.Executing query, trace) =>
    let trace := trace ++ [SessionCall.dispatch_create_pipeline query]
    match env.create_pipeline trace with
    | Except.error failure => session_error_path failure trace
    | Except.ok statement_type =>
      let trace := trace ++ [SessionCall.dispatch_execute_server_query]
      match env.execute_server_query trace with
      | Except.error failure => session_error_path failure trace
      | Except.ok result_table => (SessionState.Responding statement_type result_table, trace)
  | (SessionState.Responding statement_type result_table, trace) =>
    match QueryResponseBuilder.build_row_description result_table.toTable with
    | Except.error failure =>
      if failure.is_std_exception then session_error_path failure trace
      else (SessionState.Aborted failure, trace)
    | Except.ok row_description =>
      let trace := trace ++ [SessionCall.send_row_description row_description]
      match env.send_row_description trace with
      | Except.error failure => session_error_path failure trace
      | Except.ok () =>
        let trace := trace ++ [SessionCall.dispatch_send_query_response]
        match env.send_query_response trace with
        | Except.error failure => session_error_path failure trace
        | Except.ok row_count =>
          match QueryResponseBuilder.build_command_complete_message statement_type row_count with
          | Except.error failure => session_error_path failure trace
          | Except.ok message =>
            let trace := trace ++ [SessionCall.send_command_complete message]
            match env.send_command_complete trace with
            | Except.error failure => session_error_path failure trace
            | Except.ok () =>
              (SessionState.AwaitingCommandHeader, trace ++ [SessionCall.send_ready_for_query])
  | (SessionState.Closed, trace) => (SessionState.Closed, trace)
  | (SessionState.Aborted failure, trace) => (SessionState.Aborted failure, trace)
  | (SessionState.Unspecified, trace) => (SessionState.Unspecified, trace)

/-- Modelled from the spec: the session run for `fuel` transitions from a state and the
calls made so far (see `session_step`). -/
def session_run {Cell : Type} (env : SessionEnvironment Cell) :
    Nat → SessionState Cell × List SessionCall → SessionState Cell × List SessionCall
  | 0, configuration => configuration
  | fuel + 1, configuration => session_run env fuel (session_step env configuration)

/-- Modelled from the spec: the method `start()` of the session, run for `fuel`
transitions from the initial state **Start** with no call made. -/
def session_start {Cell : Type} (env : SessionEnvironment Cell) (fuel : Nat) :
    SessionState Cell × List SessionCall :=
  session_run env fuel (SessionState.Start, [])

/-- The environment of the test `SessionPerformsStartup`: the startup header announces
42 bytes, every other receive yields a termination header, every task succeeds. -/
def example_session_environment : SessionEnvironment Nat where
  receive_startup_packet_header := fun _ => Except.ok 42
  receive_startup_packet_contents := fun _ => Except.ok ()
  receive_packet_header := fun _ =>
    Except.ok { message_type := NetworkMessageType.TerminateCommand, payload_length := 0 }
  receive_packet_contents := fun _ => Except.ok { data := [], offset := 0 }
  create_pipeline := fun _ => Except.ok StatementType.kStmtSelect
  execute_server_query := fun _ => Except.ok example_result_table
  send_row_description := fun _ => Except.ok ()
  send_query_response := fun _ => Except.ok 3
  send_command_complete := fun _ => Except.ok ()

/-- The property of the calls of a session that every authentication-ok directly
follows a read of a startup header that resolved to a positive length `n` and a read
of `n` bytes of startup contents that succeeded. -/
def auth_follows_startup {Cell : Type} (env : SessionEnvironment Cell)
    (trace : List SessionCall) : Prop :=
  ∀ pre post, trace = pre ++ SessionCall.send_auth :: post →
    ∃ pre' n, n ≠ 0 ∧
      pre = pre' ++ [SessionCall.receive_startup_packet_header,
        SessionCall.receive_startup_packet_contents n] ∧
      env.receive_startup_packet_header (pre' ++ [SessionCall.receive_startup_packet_header]) =
        Except.ok n ∧
      env.receive_startup_packet_contents (pre' ++ [SessionCall.receive_startup_packet_header,
        SessionCall.receive_startup_packet_contents n]) = Except.ok ()

/-- The property of the calls of a session that every read of a command header directly
follows a ready-for-query. -/
def ready_before_command_header (trace : List SessionCall) : Prop :=
  ∀ pre post, trace = pre ++ SessionCall.receive_packet_header :: post →
    ∃ pre', pre = pre' ++ [SessionCall.send_ready_for_query]

/-- An environment in the manner of the mocks of `server_session_test.cpp`, by what its
receives and its compile and execute tasks resolve to; the sends and the row-streaming
task succeed, the latter with 3 rows. -/
def test_session_environment (startup_header : List SessionCall → Except Failure Nat)
    (startup_contents : Except Failure Unit)
    (command_header : List SessionCall → Except Failure RequestHeader)
    (command_contents : Except Failure InputPacket)
    (compile : Except Failure StatementType)
    (execute : Except Failure (ResultTable Nat)) : SessionEnvironment Nat where
  receive_startup_packet_header := startup_header
  receive_startup_packet_contents := fun _ => startup_contents
  receive_packet_header := command_header
  receive_packet_contents := fun _ => command_contents
  create_pipeline := fun _ => compile
  execute_server_query := fun _ => execute
  send_row_description := fun _ => Except.ok ()
  send_query_response := fun _ => Except.ok 3
  send_command_complete := fun _ => Except.ok ()

/-- A startup header read that resolves to 0 (an SSL request) the first time and to 32
afterwards, as in the test `SessionDeniesSslRequestDuringStartup`. -/
def startup_header_ssl_first (trace : List SessionCall) : Except Failure Nat :=
  if trace.length = 1 then Except.ok 0 else Except.ok 32

/-- A command header read that resolves to a simple query with a payload of 4 bytes the
first time and to a termination afterwards. -/
def command_header_query_first (trace : List SessionCall) : Except Failure RequestHeader :=
  if trace.count SessionCall.receive_packet_header = 1 then
    Except.ok { message_type := NetworkMessageType.SimpleQueryCommand, payload_length := 4 }
  else
    Except.ok { message_type := NetworkMessageType.TerminateCommand, payload_length := 0 }

/-- The failure of the tests of the session: `std::logic_error("Some connection problem")`. -/
def some_connection_problem : Failure := Failure.logic_error "Some connection problem"

/-- A packet with the four bytes of a query text. -/
def example_query_packet : InputPacket := { data := [83, 81, 76, 59], offset := 0 }

/-- A `send_data_row` that never raises and whose futures all resolve to a value, on a
connection that counts the calls. -/
def send_data_row_counting : send_data_row_t Nat :=
  fun _ calls => (Except.ok (Except.ok ()), calls + 1)

/-! ## Dictionary columns (`new_dictionary_column.cpp`) -/

/-- The names that `new_dictionary_column.cpp` takes from `types.hpp` and from
`utils/assert.hpp`, which are not among the sources, as parameters: the value ids
`NULL_VALUE_ID` and `INVALID_VALUE_ID`, the chunk offset `INVALID_CHUNK_OFFSET`, and
whether the build is a debug build, in which `DebugAssert` checks its condition. -/
structure StorageConstants where
  NULL_VALUE_ID : Nat
  INVALID_VALUE_ID : Nat
  INVALID_CHUNK_OFFSET : Nat
  IS_DEBUG : Bool
  deriving DecidableEq, Repr

/-- The macro `DebugAssert(expr, msg)`, which `utils/assert.hpp` defines (not among the
sources): a debug build ends in `Fail(msg)` when `expr` is false, a release build
does not evaluate the check. -/
def DebugAssert (c : StorageConstants) (expr : Bool) (msg : String) : Except Failure Unit :=
  if c.IS_DEBUG && !expr then Fail msg else pure ()

/-- The type `AllTypeVariant` (`all_type_variant.hpp`, not among the sources), as far as
a column of type `T` uses it: the value `NULL_VALUE`, or a value of `T`. -/
inductive AllTypeVariant (T : Type) where
  | NULL_VALUE
  | value (v : T)
  deriving DecidableEq, Repr

/-- The attribute vector of a dictionary column, a `BaseNsVector`
(`base_ns_vector.hpp`): a compressed sequence of `uint32_t` value ids. It is held as
the sequence that `decode()` returns. -/
abbrev BaseNsVector := List Nat

/-- The method `BaseNsVector::size`. -/
def BaseNsVector.size (attribute_vector : BaseNsVector) : Nat :=
  attribute_vector.length

/-- The call `_attribute_vector->get(chunk_offset)`. The header `base_ns_vector.hpp`
declares `size()` and `decode()` and no `get`; the call is read as the entry of the
decoded sequence at that position, the value id of the chunk offset. A position outside
the sequence is an access out of bounds. -/
def BaseNsVector.get (attribute_vector : BaseNsVector) (chunk_offset : Nat) :
    Except Failure Nat :=
  vector_at attribute_vector chunk_offset

/-- Element `i` of a `std::vector`, read with `at`: a position out of range raises
`std::out_of_range`, which is a `std::logic_error`. -/
def vector_checked_at {α : Type} (v : List α) (i : Nat) : Except Failure α :=
  match v[i]? with
  | some x => Except.ok x
  | none => Except.error (Failure.logic_error "std::out_of_range")

/-- The class `DictionaryColumn<T>`, by the members its constructor initialises:
`_dictionary`, `_attribute_vector` and `_null_value_id`. -/
structure DictionaryColumn (T : Type) where
  _dictionary : List T
  _attribute_vector : BaseNsVector
  _null_value_id : Nat
  deriving DecidableEq, Repr

/-- The method `DictionaryColumn::operator[]`. The call of `PerformanceWarning` only
logs. -/
def DictionaryColumn.subscript {T : Type} (c : StorageConstants) (column : DictionaryColumn T)
    (chunk_offset : Nat) : Except Failure (AllTypeVariant T) := do
  DebugAssert c (chunk_offset != c.INVALID_CHUNK_OFFSET) "Passed chunk offset must be valid."
  let value_id ← column._attribute_vector.get chunk_offset
  if value_id = c.NULL_VALUE_ID then
    pure AllTypeVariant.NULL_VALUE
  else do
    let value ← vector_at column._dictionary value_id
    pure (AllTypeVariant.value value)

/-- The method `DictionaryColumn::is_null`. -/
def DictionaryColumn.is_null {T : Type} (c : StorageConstants) (column : DictionaryColumn T)
    (chunk_offset : Nat) : Except Failure Bool := do
  let value_id ← column._attribute_vector.get chunk_offset
  pure (value_id == c.NULL_VALUE_ID)

/-- The method `DictionaryColumn::get`. -/
def DictionaryColumn.get {T : Type} (c : StorageConstants) (column : DictionaryColumn T)
    (chunk_offset : Nat) : Except Failure T := do
  DebugAssert c (chunk_offset != c.INVALID_CHUNK_OFFSET) "Passed chunk offset must be valid."
  let value_id ← column._attribute_vector.get chunk_offset
  DebugAssert c (value_id != c.NULL_VALUE_ID)
    ("Value at index " ++ std_to_string chunk_offset ++ " is null.")
  vector_at column._dictionary value_id

/-- The method `DictionaryColumn::append`. -/
def DictionaryColumn.append {T : Type} (_column : DictionaryColumn T)
    (_value : AllTypeVariant T) : Except Failure Unit :=
  Fail "DictionaryColumn is immutable"

/-- The method `DictionaryColumn::size`. -/
def DictionaryColumn.size {T : Type} (column : DictionaryColumn T) : Nat :=
  column._attribute_vector.size

/-- The method `DictionaryColumn::unique_values_count`. -/
def DictionaryColumn.unique_values_count {T : Type} (column : DictionaryColumn T) : Nat :=
  column._dictionary.length

/-- The method `DictionaryColumn::null_value_id`. -/
def DictionaryColumn.null_value_id {T : Type} (column : DictionaryColumn T) : Nat :=
  column._null_value_id

/-- One iteration of the loop of `DictionaryColumn::materialize_values`: a NULL
position is skipped (`continue`), any other position of `values` is assigned the
dictionary entry of its value id. -/
def DictionaryColumn.materialize_values_step {T : Type} (c : StorageConstants)
    (column : DictionaryColumn T) (values : List (Option T)) (chunk_offset : Nat) :
    Except Failure (List (Option T)) := do
  if (← column.is_null c chunk_offset) then
    pure values
  else do
    let value_id ← column._attribute_vector.get chunk_offset
    let value ← vector_at column._dictionary value_id
    if chunk_offset < values.length then
      pure (values.set chunk_offset (some value))
    else
      Except.error Failure.out_of_bounds

/-- The method `DictionaryColumn::materialize_values`: `values` starts as `size()`
entries `std::nullopt`, and the loop runs over the chunk offsets from 0 up to `size()`
(the counter is a `ChunkOffset`, and an attribute vector has fewer entries than a
`ChunkOffset` has values). -/
def DictionaryColumn.materialize_values {T : Type} (c : StorageConstants)
    (column : DictionaryColumn T) : Except Failure (List (Option T)) :=
  let values := List.replicate column._attribute_vector.size none
  (List.range column._attribute_vector.size).foldlM (column.materialize_values_step c) values

/-- The method `DictionaryColumn::value_by_value_id`. -/
def DictionaryColumn.value_by_value_id {T : Type} (c : StorageConstants)
    (column : DictionaryColumn T) (value_id : Nat) : Except Failure T := do
  DebugAssert c (value_id != c.NULL_VALUE_ID) "Null value id passed."
  vector_checked_at column._dictionary value_id


/-- The binary search that the algorithms `std::lower_bound` and `std::upper_bound` of
the standard library share: of the `len` positions from `first` on, the half up to the
middle is dropped when the entry in the middle passes `test`, the half from the middle
on otherwise, until no position is left (`fuel` bounds the number of rounds). -/
def std_binary_search {T : Type} (test : T → Bool) (range : List T) : Nat → Nat → Nat → Nat
  | 0, first, _ => first
  | fuel + 1, first, len =>
    if len = 0 then
      first
    else
      let half := len / 2
      let middle := first + half
      match range[middle]? with
      | some entry =>
        if test entry then
          std_binary_search test range fuel (middle + 1) (len - half - 1)
        else
          std_binary_search test range fuel first half
      | none => first

/-- The algorithm `std::lower_bound(first, last, value)`: the search goes right of an
entry that is less than `value`. The result is the distance from `first`. -/
def std_lower_bound {T : Type} [LT T] [DecidableRel (fun a b : T => a < b)] (range : List T)
    (value : T) : Nat :=
  std_binary_search (fun entry => decide (entry < value)) range range.length 0 range.length

/-- The algorithm `std::upper_bound(first, last, value)`: the search goes right of an
entry that `value` is not less than. The result is the distance from `first`. -/
def std_upper_bound {T : Type} [LT T] [DecidableRel (fun a b : T => a < b)] (range : List T)
    (value : T) : Nat :=
  std_binary_search (fun entry => !decide (value < entry)) range range.length 0 range.length

/-- The method `DictionaryColumn::lower_bound(T value)`; `ValueID` is a `uint32_t`. -/
def DictionaryColumn.lower_bound {T : Type} [LT T] [DecidableRel (fun a b : T => a < b)]
    (c : StorageConstants) (column : DictionaryColumn T) (value : T) : Nat :=
  let it := std_lower_bound column._dictionary value
  if it = column._dictionary.length then
    c.INVALID_VALUE_ID
  else
    to_uint32_t it

/-- The method `DictionaryColumn::upper_bound(T value)`. -/
def DictionaryColumn.upper_bound {T : Type} [LT T] [DecidableRel (fun a b : T => a < b)]
    (c : StorageConstants) (column : DictionaryColumn T) (value : T) : Nat :=
  let it := std_upper_bound column._dictionary value
  if it = column._dictionary.length then
    c.INVALID_VALUE_ID
  else
    to_uint32_t it

/-- The class `ValueColumn<T>` (`value_column.hpp`, not among the sources), by what
`copy_value_to_value_column` uses of it: `values()`, and `null_values()`, which only a
nullable column has (`is_nullable()`). -/
structure ValueColumn (T : Type) where
  _values : List T
  _null_values : Option (List Bool)
  deriving DecidableEq, Repr

/-- The method `ValueColumn::is_nullable`. -/
def ValueColumn.is_nullable {T : Type} (column : ValueColumn T) : Bool :=
  column._null_values.isSome

/-- The method `DictionaryColumn::copy_value_to_value_column`, with the target column
as it is afterwards: the flag is pushed to `null_values()` before the value is looked
up and pushed to `values()`. `T{}` is the default value of `T`. -/
def DictionaryColumn.copy_value_to_value_column {T : Type} [Inhabited T] (c : StorageConstants)
    (column : DictionaryColumn T) (value_column : ValueColumn T) (chunk_offset : Nat) :
    Except Failure Unit × ValueColumn T :=
  let output_column := value_column
  match column._attribute_vector.get chunk_offset with
  | Except.error failure => (Except.error failure, output_column)
  | Except.ok value_id =>
    match output_column._null_values with
    | some null_values =>
      let output_column : ValueColumn T :=
        { output_column with _null_values := some (null_values ++ [value_id == c.NULL_VALUE_ID]) }
      if value_id = c.NULL_VALUE_ID then
        (Except.ok (), { output_column with _values := output_column._values ++ [default] })
      else
        match column.value_by_value_id c value_id with
        | Except.error failure => (Except.error failure, output_column)
        | Except.ok value =>
          (Except.ok (), { output_column with _values := output_column._values ++ [value] })
    | none =>
      match DebugAssert c (value_id != c.NULL_VALUE_ID) "Target column needs to be nullable" with
      | Except.error failure => (Except.error failure, output_column)
      | Except.ok () =>
        match column.value_by_value_id c value_id with
        | Except.error failure => (Except.error failure, output_column)
        | Except.ok value =>
          (Except.ok (), { output_column with _values := output_column._values ++ [value] })

/-- The invariant of a dictionary column: every value id of the attribute vector is
`NULL_VALUE_ID` or a position of the dictionary. -/
def DictionaryColumn.value_ids_valid {T : Type} (c : StorageConstants)
    (column : DictionaryColumn T) : Prop :=
  ∀ value_id, value_id ∈ column._attribute_vector →
    value_id = c.NULL_VALUE_ID ∨ value_id < column._dictionary.length

instance {T : Type} (c : StorageConstants) (column : DictionaryColumn T) :
    Decidable (column.value_ids_valid c) := by
  unfold DictionaryColumn.value_ids_valid; infer_instance

/-- The constants of a release build in which the three names are the largest
`uint32_t`. -/
def example_storage_constants : StorageConstants :=
  { NULL_VALUE_ID := 4294967295, INVALID_VALUE_ID := 4294967295,
    INVALID_CHUNK_OFFSET := 4294967295, IS_DEBUG := false }

/-- A dictionary column of four positions over the dictionary 10, 20, 30: the values
20, NULL, 10, 30. -/
def example_dictionary_column : DictionaryColumn Int :=
  { _dictionary := [10, 20, 30], _attribute_vector := [1, 4294967295, 0, 2],
    _null_value_id := 4294967295 }

/-- The entry of a chunk offset in the materialised values as the members of the
column determine it: `std::nullopt` at a position whose value id is `NULL_VALUE_ID`,
the dictionary entry at the value id otherwise. -/
def spec_materialized_entry {T : Type} (c : StorageConstants) (column : DictionaryColumn T)
    (chunk_offset : Nat) : Option T :=
  match column._attribute_vector[chunk_offset]? with
  | some value_id => if value_id = c.NULL_VALUE_ID then none else column._dictionary[value_id]?
  | none => none

/-- A dictionary column constructed with the null value id 2 over the dictionary 10,
20: the attribute vector stores the value ids 0, 2, 1. -/
def example_dictionary_column_own_null_value_id : DictionaryColumn Int :=
  { _dictionary := [10, 20], _attribute_vector := [0, 2, 1], _null_value_id := 2 }

/-- A `load_table` that ends in `Fail` on every file. -/
def load_table_fatal : String → Nat → Except Failure Table :=
  fun file_name _ => Fail ("Cannot read " ++ file_name)

/-- A `send_data_row` whose second call ends in `Fail`, on a connection that counts
the calls. -/
def send_data_row_fatal_second : send_data_row_t Nat :=
  fun _ calls => (if calls = 1 then Fail "Connection is gone" else Except.ok (Except.ok ()),
    calls + 1)

end opossum

namespace opossum

/-! ## Byte order -/

/-- A value read from memory and passed through `ntohl` is the big-endian reading of
its four bytes, whatever the byte order of the host. -/
theorem ntohl_uint32_of_memory (e : Endianness) (b0 b1 b2 b3 : Byte) :
    ntohl e (uint32_of_memory e b0 b1 b2 b3) = big_endian_uint32 b0 b1 b2 b3 := by
  have h0 := b0.isLt
  have h1 := b1.isLt
  have h2 := b2.isLt
  have h3 := b3.isLt
  cases e <;> simp only [ntohl, uint32_of_memory, bswap32, big_endian_uint32] <;> omega

/-- The big-endian reading of four bytes is a 32-bit number. -/
theorem big_endian_uint32_lt (b0 b1 b2 b3 : Byte) :
    big_endian_uint32 b0 b1 b2 b3 < 2 ^ 32 := by
  have h0 := b0.isLt
  have h1 := b1.isLt
  have h2 := b2.isLt
  have h3 := b3.isLt
  simp only [big_endian_uint32]
  omega

/-- Reading the big-endian encoding of a 32-bit number gives the number back. -/
theorem big_endian_uint32_bytes (x : Nat) (hx : x < 2 ^ 32) :
    big_endian_uint32 (big_endian_byte x 0) (big_endian_byte x 1) (big_endian_byte x 2)
      (big_endian_byte x 3) = x := by
  simp only [big_endian_uint32, big_endian_byte]
  norm_num
  omega

/-- The `size_t` subtraction of a constant from a 32-bit value, truncated to
`uint32_t`, is the subtraction modulo `2^32`. -/
theorem to_uint32_t_size_t_sub (a b : Nat) (ha : a < 2 ^ 32) (hb : b < 2 ^ 32) :
    to_uint32_t (size_t_sub a b) = (a + (2 ^ 32 - b)) % 2 ^ 32 := by
  simp only [to_uint32_t, size_t_sub, UINT32_MOD, SIZE_T_MOD]
  omega

/-! ## Reads -/

/-- A read of `n` bytes succeeds when `n` bytes are left, returns them and moves the
cursor past them. -/
theorem read_values_of_le (packet : InputPacket) (n : Nat)
    (h : packet.offset + n ≤ packet.data.length) :
    read_values packet n =
      some ((packet.data.drop packet.offset).take n, ⟨packet.data, packet.offset + n⟩) := by
  simp [read_values, h]

/-- A read that succeeds leaves the buffer as it is and moves the cursor forward by the
number of bytes read. -/
theorem read_values_some (packet packet' : InputPacket) (n : Nat) (bytes : ByteBuffer)
    (h : read_values packet n = some (bytes, packet')) :
    packet' = ⟨packet.data, packet.offset + n⟩ ∧ packet.offset + n ≤ packet.data.length := by
  unfold read_values at h
  split at h
  · simp only [Option.some.injEq, Prod.mk.injEq] at h
    rename_i hle
    exact ⟨h.2.symm, hle⟩
  · simp at h

/-- A read of a `uint32_t` at the cursor, when its four bytes are spelled out. -/
theorem read_value_uint32_t_append (e : Endianness) (pre rest : ByteBuffer) (b0 b1 b2 b3 : Byte) :
    read_value_uint32_t e ⟨pre ++ b0 :: b1 :: b2 :: b3 :: rest, pre.length⟩ =
      some (uint32_of_memory e b0 b1 b2 b3,
        ⟨pre ++ b0 :: b1 :: b2 :: b3 :: rest, pre.length + 4⟩) := by
  simp [read_value_uint32_t, read_values, sizeof_uint32_t]

/-- A read of a `uint32_t` that succeeds leaves the buffer as it is and moves the cursor
four bytes forward. -/
theorem read_value_uint32_t_some (e : Endianness) (packet packet' : InputPacket) (v : Nat)
    (h : read_value_uint32_t e packet = some (v, packet')) :
    packet' = ⟨packet.data, packet.offset + 4⟩ := by
  unfold read_value_uint32_t at h
  split at h
  · rename_i b0 b1 b2 b3 q hq
    simp only [Option.some.injEq, Prod.mk.injEq] at h
    rw [← h.2]
    exact (read_values_some _ _ _ _ hq).1
  · simp at h

/-- A read of a `uint32_t` succeeds when four bytes are left. -/
theorem read_value_uint32_t_isSome (e : Endianness) (packet : InputPacket)
    (h : packet.offset + 4 ≤ packet.data.length) :
    (read_value_uint32_t e packet).isSome = true := by
  have hlen : ((packet.data.drop packet.offset).take 4).length = 4 := by
    simp only [List.length_take, List.length_drop]
    omega
  obtain ⟨b0, b1, b2, b3, hb⟩ : ∃ b0 b1 b2 b3,
      (packet.data.drop packet.offset).take 4 = [b0, b1, b2, b3] := by
    match hl : (packet.data.drop packet.offset).take 4, hlen with
    | [b0, b1, b2, b3], _ => exact ⟨b0, b1, b2, b3, rfl⟩
  simp [read_value_uint32_t, sizeof_uint32_t, read_values_of_le packet 4 h, hb]

/-- A read of a tag that succeeds leaves the buffer as it is and moves the cursor one
byte forward. -/
theorem read_value_NetworkMessageType_some (packet packet' : InputPacket)
    (tag : NetworkMessageType) (h : read_value_NetworkMessageType packet = some (tag, packet')) :
    packet' = ⟨packet.data, packet.offset + 1⟩ := by
  unfold read_value_NetworkMessageType at h
  split at h
  · rename_i b q hq
    simp only [Option.some.injEq, Prod.mk.injEq] at h
    rw [← h.2]
    exact (read_values_some _ _ _ _ hq).1
  · simp at h

/-- A read of a tag succeeds when one byte is left. -/
theorem read_value_NetworkMessageType_isSome (packet : InputPacket)
    (h : packet.offset + 1 ≤ packet.data.length) :
    (read_value_NetworkMessageType packet).isSome = true := by
  have hlen : ((packet.data.drop packet.offset).take 1).length = 1 := by
    simp only [List.length_take, List.length_drop]
    omega
  obtain ⟨b, hb⟩ : ∃ b, (packet.data.drop packet.offset).take 1 = [b] := by
    match hl : (packet.data.drop packet.offset).take 1, hlen with
    | [b], _ => exact ⟨b, rfl⟩
  simp [read_value_NetworkMessageType, read_values_of_le packet 1 h, hb]

/-! ## Decoders on a fresh packet -/

/-- The function `handle_header` on a packet that starts with a tag and four length
bytes, its cursor at the start. -/
theorem handle_header_cons (e : Endianness) (t b0 b1 b2 b3 : Byte) (rest : ByteBuffer) :
    handle_header e ⟨t :: b0 :: b1 :: b2 :: b3 :: rest, 0⟩ =
      some (⟨t, (big_endian_uint32 b0 b1 b2 b3 + (2 ^ 32 - 4)) % 2 ^ 32⟩,
        ⟨t :: b0 :: b1 :: b2 :: b3 :: rest, 0⟩) := by
  have hread := read_value_uint32_t_append e [t] rest b0 b1 b2 b3
  simp only [List.singleton_append, List.length_singleton] at hread
  have htag : read_value_NetworkMessageType ⟨t :: b0 :: b1 :: b2 :: b3 :: rest, 0⟩ =
      some (t, ⟨t :: b0 :: b1 :: b2 :: b3 :: rest, 1⟩) := by
    simp [read_value_NetworkMessageType, read_values]
  simp only [handle_header, htag, hread, ntohl_uint32_of_memory, sizeof_uint32_t]
  rw [to_uint32_t_size_t_sub _ _ (big_endian_uint32_lt b0 b1 b2 b3) (by norm_num)]

/-- The function `handle_startup_package` on a packet that starts with two 32-bit
fields, its cursor at the start. -/
theorem handle_startup_package_cons (e : Endianness) (b0 b1 b2 b3 b4 b5 b6 b7 : Byte)
    (rest : ByteBuffer) :
    handle_startup_package e ⟨b0 :: b1 :: b2 :: b3 :: b4 :: b5 :: b6 :: b7 :: rest, 0⟩ =
      some (if big_endian_uint32 b4 b5 b6 b7 = 80877103 then 0
          else (big_endian_uint32 b0 b1 b2 b3 + (2 ^ 32 - 8)) % 2 ^ 32,
        ⟨b0 :: b1 :: b2 :: b3 :: b4 :: b5 :: b6 :: b7 :: rest, 0⟩) := by
  have hlength := read_value_uint32_t_append e [] (b4 :: b5 :: b6 :: b7 :: rest) b0 b1 b2 b3
  have hversion := read_value_uint32_t_append e [b0, b1, b2, b3] rest b4 b5 b6 b7
  simp only [List.nil_append, List.length_nil, List.cons_append, List.length_cons,
    Nat.zero_add, Nat.reduceAdd] at hlength hversion
  simp only [handle_startup_package, hlength, hversion, ntohl_uint32_of_memory, sizeof_uint32_t]
  rw [to_uint32_t_size_t_sub _ _ (big_endian_uint32_lt b0 b1 b2 b3) (by norm_num)]
  split <;> rfl

/-! ## Claims on the wire codec -/

/-- C1: for every input buffer whose first byte is a tag `t` and whose next four bytes
are the big-endian encoding of a 32-bit length `L`, `handle_header` returns a header
with `message_type = t` and `payload_length = L - 4`, the subtraction being the one of
`uint32_t` (modulo `2^32`), which is the plain `L - 4` as soon as `4 ≤ L`: only the
four bytes of the length field are subtracted, not the tag. -/
theorem handle_header_tag_and_payload_length (e : Endianness) (t b0 b1 b2 b3 : Byte)
    (rest : ByteBuffer) :
    ∃ header packet',
      handle_header e ⟨t :: b0 :: b1 :: b2 :: b3 :: rest, 0⟩ = some (header, packet') ∧
      header.message_type = t ∧
      (header.payload_length : Int) = ((big_endian_uint32 b0 b1 b2 b3 : Int) - 4) % 2 ^ 32 ∧
      (4 ≤ big_endian_uint32 b0 b1 b2 b3 →
        header.payload_length = big_endian_uint32 b0 b1 b2 b3 - 4) := by
  refine ⟨_, _, handle_header_cons e t b0 b1 b2 b3 rest, rfl, ?_, ?_⟩
  · have hlt := big_endian_uint32_lt b0 b1 b2 b3
    simp only
    omega
  · intro h4
    have hlt := big_endian_uint32_lt b0 b1 b2 b3
    simp only
    omega

/-- Witness for C1: the header of a simple query with length field 10 has payload
length 6; a NUL-terminated query of five characters follows it. -/
theorem handle_header_tag_and_payload_length_witness :
    handle_header Endianness.little ⟨[81, 0, 0, 0, 10, 1, 2], 0⟩ =
      some (⟨NetworkMessageType.SimpleQueryCommand, 6⟩, ⟨[81, 0, 0, 0, 10, 1, 2], 0⟩) ∧
    ∃ header packet',
      handle_header Endianness.little ⟨[81, 0, 0, 0, 10, 1, 2], 0⟩ = some (header, packet') ∧
      header.message_type = 81 ∧
      (header.payload_length : Int) = ((big_endian_uint32 0 0 0 10 : Int) - 4) % 2 ^ 32 ∧
      (4 ≤ big_endian_uint32 0 0 0 10 → header.payload_length = big_endian_uint32 0 0 0 10 - 4) :=
  ⟨by decide, handle_header_tag_and_payload_length Endianness.little 81 0 0 0 10 [1, 2]⟩

/-- C2: header round trip. For every message type `t` and every 32-bit payload length
`p`, the five bytes `t`, big-endian `p + 4` decode with `handle_header` to exactly
`message_type = t` and `payload_length = p`. -/
theorem handle_header_round_trip (e : Endianness) (t : NetworkMessageType) (p : Nat)
    (hp : p < 2 ^ 32) :
    handle_header e ⟨spec_encode_header t p, 0⟩ =
      some ({ message_type := t, payload_length := p }, ⟨spec_encode_header t p, 0⟩) := by
  have hx : (p + 4) % UINT32_MOD < 2 ^ 32 := Nat.mod_lt _ (by decide)
  simp only [spec_encode_header, big_endian_bytes]
  rw [handle_header_cons, big_endian_uint32_bytes _ hx]
  have hp' : ((p + 4) % UINT32_MOD + (2 ^ 32 - 4)) % 2 ^ 32 = p := by
    simp only [UINT32_MOD]
    omega
  rw [hp']

/-- Witness for C2: the termination header with the largest payload length, where
`p + 4` wraps. -/
theorem handle_header_round_trip_witness :
    spec_encode_header NetworkMessageType.TerminateCommand 4294967295 = [88, 0, 0, 0, 3] ∧
    handle_header Endianness.little ⟨spec_encode_header 88 4294967295, 0⟩ =
      some ({ message_type := 88, payload_length := 4294967295 },
        ⟨spec_encode_header 88 4294967295, 0⟩) :=
  ⟨by decide, handle_header_round_trip Endianness.little 88 4294967295 (by norm_num)⟩

/-- C3: for every startup buffer of eight bytes (and any bytes after them) whose
second big-endian `uint32` is 80877103, `handle_startup_package` returns 0, whatever
the first four bytes declare. -/
theorem handle_startup_package_ssl (e : Endianness) (b0 b1 b2 b3 b4 b5 b6 b7 : Byte)
    (rest : ByteBuffer) (hversion : big_endian_uint32 b4 b5 b6 b7 = SSL_REQUEST_VERSION) :
    handle_startup_package e ⟨b0 :: b1 :: b2 :: b3 :: b4 :: b5 :: b6 :: b7 :: rest, 0⟩ =
      some (0, ⟨b0 :: b1 :: b2 :: b3 :: b4 :: b5 :: b6 :: b7 :: rest, 0⟩) := by
  rw [handle_startup_package_cons]
  rw [if_pos (by rw [hversion]; rfl)]

/-- Witness for C3: the SSL request of a Postgres client, with a declared length
of 8, and one with a declared length of 300. -/
theorem handle_startup_package_ssl_witness :
    big_endian_uint32 4 210 22 47 = SSL_REQUEST_VERSION ∧
    handle_startup_package Endianness.little ⟨[0, 0, 1, 44, 4, 210, 22, 47], 0⟩ =
      some (0, ⟨[0, 0, 1, 44, 4, 210, 22, 47], 0⟩) :=
  ⟨by decide, handle_startup_package_ssl Endianness.little 0 0 1 44 4 210 22 47 [] (by decide)⟩

/-- C4: for every startup buffer of eight bytes (and any bytes after them) whose
version field is not 80877103, `handle_startup_package` returns `length - 8`, where
`length` is the first four bytes read as a big-endian `uint32` and the subtraction is
the one of `uint32_t` (modulo `2^32`), the plain `length - 8` as soon as `8 ≤ length`. -/
theorem handle_startup_package_clear_text (e : Endianness) (b0 b1 b2 b3 b4 b5 b6 b7 : Byte)
    (rest : ByteBuffer) (hversion : big_endian_uint32 b4 b5 b6 b7 ≠ SSL_REQUEST_VERSION) :
    ∃ remaining packet',
      handle_startup_package e ⟨b0 :: b1 :: b2 :: b3 :: b4 :: b5 :: b6 :: b7 :: rest, 0⟩ =
        some (remaining, packet') ∧
      (remaining : Int) = ((big_endian_uint32 b0 b1 b2 b3 : Int) - 8) % 2 ^ 32 ∧
      (8 ≤ big_endian_uint32 b0 b1 b2 b3 → remaining = big_endian_uint32 b0 b1 b2 b3 - 8) := by
  have hlt := big_endian_uint32_lt b0 b1 b2 b3
  refine ⟨_, _, handle_startup_package_cons e b0 b1 b2 b3 b4 b5 b6 b7 rest, ?_, ?_⟩
  · rw [if_neg (by intro h; exact hversion h)]
    omega
  · intro h8
    rw [if_neg (by intro h; exact hversion h)]
    omega

/-- Witness for C4: a startup packet of protocol 3.0 with a declared length of 40
leaves 32 bytes to read. -/
theorem handle_startup_package_clear_text_witness :
    handle_startup_package Endianness.little ⟨[0, 0, 0, 40, 0, 3, 0, 0], 0⟩ =
      some (32, ⟨[0, 0, 0, 40, 0, 3, 0, 0], 0⟩) ∧
    ∃ remaining packet',
      handle_startup_package Endianness.little ⟨[0, 0, 0, 40, 0, 3, 0, 0], 0⟩ =
        some (remaining, packet') ∧
      (remaining : Int) = ((big_endian_uint32 0 0 0 40 : Int) - 8) % 2 ^ 32 ∧
      (8 ≤ big_endian_uint32 0 0 0 40 → remaining = big_endian_uint32 0 0 0 40 - 8) :=
  ⟨by decide,
    handle_startup_package_clear_text Endianness.little 0 0 0 40 0 3 0 0 [] (by decide)⟩

/-- C5 (the code at the failing input): a clear-text startup packet of protocol 3.0
(version 196608, not the SSL sentinel) that declares a length of 8 makes
`handle_startup_package` return 0, on either host byte order. -/
theorem handle_startup_package_zero_without_ssl :
    big_endian_uint32 0 3 0 0 ≠ SSL_REQUEST_VERSION ∧
    handle_startup_package Endianness.little ⟨[0, 0, 0, 8, 0, 3, 0, 0], 0⟩ =
      some (0, ⟨[0, 0, 0, 8, 0, 3, 0, 0], 0⟩) ∧
    handle_startup_package Endianness.big ⟨[0, 0, 0, 8, 0, 3, 0, 0], 0⟩ =
      some (0, ⟨[0, 0, 0, 8, 0, 3, 0, 0], 0⟩) := by
  decide

/-- C6: for every packet that holds at least `n` unread bytes,
`handle_query_packet packet n` returns a string of exactly `n` bytes whose byte `i` is
the packet's byte `offset + i`, for every `i < n`: the next `n` bytes, in order, none
stripped or interpreted. The cursor moves past them and the buffer is unchanged. -/
theorem handle_query_packet_next_bytes (packet : InputPacket) (n : Nat)
    (h : packet.offset + n ≤ packet.data.length) :
    ∃ query,
      handle_query_packet packet n = some (query, ⟨packet.data, packet.offset + n⟩) ∧
      query = (packet.data.drop packet.offset).take n ∧
      query.length = n ∧
      ∀ i, i < n → query[i]? = packet.data[packet.offset + i]? := by
  refine ⟨(packet.data.drop packet.offset).take n, ?_, rfl, ?_, ?_⟩
  · simp only [handle_query_packet, read_values_of_le packet n h]
  · simp only [List.length_take, List.length_drop]
    omega
  · intro i hi
    rw [List.getElem?_take_of_lt hi, List.getElem?_drop]

/-- Witness for C6: a query text with an embedded and a trailing NUL byte, read from a
cursor that is not at the start; both NUL bytes are kept. -/
theorem handle_query_packet_next_bytes_witness :
    handle_query_packet ⟨[9, 83, 0, 59, 0, 7], 1⟩ 4 = some ([83, 0, 59, 0], ⟨[9, 83, 0, 59, 0, 7], 5⟩) ∧
    ∃ query,
      handle_query_packet ⟨[9, 83, 0, 59, 0, 7], 1⟩ 4 =
        some (query, ⟨(⟨[9, 83, 0, 59, 0, 7], 1⟩ : InputPacket).data,
          (⟨[9, 83, 0, 59, 0, 7], 1⟩ : InputPacket).offset + 4⟩) ∧
      query = (List.drop (⟨[9, 83, 0, 59, 0, 7], 1⟩ : InputPacket).offset
        (⟨[9, 83, 0, 59, 0, 7], 1⟩ : InputPacket).data).take 4 ∧
      query.length = 4 ∧
      ∀ i, i < 4 → query[i]? =
        (⟨[9, 83, 0, 59, 0, 7], 1⟩ : InputPacket).data[
          (⟨[9, 83, 0, 59, 0, 7], 1⟩ : InputPacket).offset + i]? :=
  ⟨by decide, handle_query_packet_next_bytes ⟨[9, 83, 0, 59, 0, 7], 1⟩ 4 (by decide)⟩

/-- C7: for every output packet with contents `d`, every string `v` and every flag
`terminate`, `write_string` leaves the contents equal to `d`, then the bytes of `v`,
then exactly one NUL byte if `terminate` holds and nothing otherwise; the bytes
already in the packet are unchanged and the size grows by
`len(v) + (1 if terminate else 0)`. -/
theorem write_string_appends (packet : OutputPacket) (value : ByteBuffer) (terminate : Bool) :
    (write_string packet value terminate).data =
      packet.data ++ value ++ (if terminate then [0] else []) ∧
    (write_string packet value terminate).data.take packet.data.length = packet.data ∧
    (write_string packet value terminate).data.length =
      packet.data.length + (value.length + (if terminate then 1 else 0)) := by
  cases terminate <;> simp [write_string]

/-- C8: whenever `handle_startup_package` or `handle_header` returns, the packet it
leaves has its cursor at the start of the buffer and the same bytes, wherever the
cursor was before; and each does return as soon as the bytes it reads (eight, five) are
left in the buffer. -/
theorem decoders_reset_cursor (e : Endianness) (packet : InputPacket) :
    (∀ remaining packet', handle_startup_package e packet = some (remaining, packet') →
      packet' = ⟨packet.data, 0⟩) ∧
    (∀ header packet', handle_header e packet = some (header, packet') →
      packet' = ⟨packet.data, 0⟩) ∧
    (packet.offset + 8 ≤ packet.data.length →
      (handle_startup_package e packet).isSome = true) ∧
    (packet.offset + 5 ≤ packet.data.length → (handle_header e packet).isSome = true) := by
  refine ⟨?_, ?_, ?_, ?_⟩
  · intro remaining packet' h
    unfold handle_startup_package at h
    split at h
    · simp at h
    · rename_i n_length p1 h1
      have hp1 := read_value_uint32_t_some e _ _ _ h1
      split at h
      · simp at h
      · rename_i n_version p2 h2
        have hp2 := read_value_uint32_t_some e _ _ _ h2
        subst hp1 hp2
        simp only at h
        split at h <;>
          · simp only [Option.some.injEq, Prod.mk.injEq] at h
            exact h.2.symm
  · intro header packet' h
    unfold handle_header at h
    split at h
    · simp at h
    · rename_i tag p1 h1
      have hp1 := read_value_NetworkMessageType_some _ _ _ h1
      split at h
      · simp at h
      · rename_i n_length p2 h2
        have hp2 := read_value_uint32_t_some e _ _ _ h2
        subst hp1 hp2
        simp only [Option.some.injEq, Prod.mk.injEq] at h
        exact h.2.symm
  · intro hlen
    have h1 := read_value_uint32_t_isSome e packet (by omega)
    obtain ⟨⟨n_length, p1⟩, hr1⟩ := Option.isSome_iff_exists.mp h1
    have hp1 := read_value_uint32_t_some e _ _ _ hr1
    have h2 := read_value_uint32_t_isSome e p1 (by subst hp1; simp only; omega)
    obtain ⟨⟨n_version, p2⟩, hr2⟩ := Option.isSome_iff_exists.mp h2
    simp only [handle_startup_package, hr1, hr2]
    split <;> rfl
  · intro hlen
    have h1 := read_value_NetworkMessageType_isSome packet (by omega)
    obtain ⟨⟨tag, p1⟩, hr1⟩ := Option.isSome_iff_exists.mp h1
    have hp1 := read_value_NetworkMessageType_some _ _ _ hr1
    have h2 := read_value_uint32_t_isSome e p1 (by subst hp1; simp only; omega)
    obtain ⟨⟨n_length, p2⟩, hr2⟩ := Option.isSome_iff_exists.mp h2
    simp only [handle_header, hr1, hr2]
    rfl

/-- Witness for C8: a startup packet and a header packet whose cursors start at 2; both
decoders return and leave the cursor at 0. -/
theorem decoders_reset_cursor_witness :
    handle_startup_package Endianness.little ⟨[7, 7, 0, 0, 0, 40, 0, 3, 0, 0], 2⟩ =
      some (32, ⟨[7, 7, 0, 0, 0, 40, 0, 3, 0, 0], 0⟩) ∧
    handle_header Endianness.little ⟨[7, 7, 88, 0, 0, 0, 4], 2⟩ =
      some (⟨NetworkMessageType.TerminateCommand, 0⟩, ⟨[7, 7, 88, 0, 0, 0, 4], 0⟩) ∧
    (handle_startup_package Endianness.little ⟨[7, 7, 0, 0, 0, 40, 0, 3, 0, 0], 2⟩).isSome = true ∧
    (handle_header Endianness.little ⟨[7, 7, 0, 0, 0, 40, 0, 3, 0, 0], 2⟩).isSome = true :=
  ⟨by decide, by decide,
    (decoders_reset_cursor Endianness.little ⟨[7, 7, 0, 0, 0, 40, 0, 3, 0, 0], 2⟩).2.2.1
      (by decide),
    (decoders_reset_cursor Endianness.little ⟨[7, 7, 0, 0, 0, 40, 0, 3, 0, 0], 2⟩).2.2.2
      (by decide)⟩

/-! ## Row descriptions -/

/-- The five logical types of section 4.5. -/
theorem spec_type_mapping_isSome_iff (ty : DataType) :
    (∃ m, spec_type_mapping ty = some m) ↔
      ty ∈ [DataType.Int, DataType.Long, DataType.Float, DataType.Double, DataType.String] := by
  cases ty <;> simp [spec_type_mapping]

/-- One iteration of the loop of `QueryResponseBuilder::build_row_description`, on a
column that has a name and a type. -/
theorem query_response_builder_step_eq (table : Table)
    (result : List ColumnDescription) (i : Nat) (name : String) (ty : DataType)
    (hname : table.column_names[i]? = some name) (hty : table.column_types[i]? = some ty) :
    QueryResponseBuilder.build_row_description_step table result i =
      match spec_type_mapping ty with
      | some m => Except.ok (result ++ [⟨name, m.1, m.2⟩])
      | none => Except.error (Failure.fatal "Bad DataType") := by
  cases ty <;>
    simp [QueryResponseBuilder.build_row_description_step, vector_at, hname, hty,
      spec_type_mapping, Fail, bind, Except.bind, pure, Except.pure]

/-- One iteration of the loop of `SendQueryResponseTask::build_row_description`, on a
column that has a name and a type. -/
theorem send_query_response_task_step_eq (table : Table)
    (result : List ColumnDescription) (i : Nat) (name : String) (ty : DataType)
    (hname : table.column_names[i]? = some name) (hty : table.column_types[i]? = some ty) :
    SendQueryResponseTask.build_row_description_step table result i =
      match spec_type_mapping ty with
      | some m => Except.ok (result ++ [⟨name, m.1, m.2⟩])
      | none => Except.error (Failure.fatal "Bad DataType") := by
  cases ty <;>
    simp [SendQueryResponseTask.build_row_description_step, vector_at, hname, hty,
      spec_type_mapping, Fail, bind, Except.bind, pure, Except.pure]

/-- The loop of a row-description builder over the first `k` columns of a consistent
table: either every one of them has a mapped type and the loop has built their
descriptions, in column order, or one of them has an unmapped type and the loop has
ended in `Fail("Bad DataType")`. -/
theorem row_description_loop (table : Table)
    (step : List ColumnDescription → Nat → Except Failure (List ColumnDescription))
    (hstep : ∀ result i name ty, table.column_names[i]? = some name →
      table.column_types[i]? = some ty →
      step result i = match spec_type_mapping ty with
        | some m => Except.ok (result ++ [⟨name, m.1, m.2⟩])
        | none => Except.error (Failure.fatal "Bad DataType"))
    (hc : table.consistent) (k : Nat) (hk : k ≤ table.column_count) :
    (∃ r, (List.range k).foldlM step [] = Except.ok r ∧ r.length = k ∧
      ∀ i, i < k → ∃ name ty m, table.column_names[i]? = some name ∧
        table.column_types[i]? = some ty ∧ spec_type_mapping ty = some m ∧
        r[i]? = some ⟨name, m.1, m.2⟩) ∨
    ((List.range k).foldlM step [] = Except.error (Failure.fatal "Bad DataType") ∧
      ∃ i ty, i < k ∧ table.column_types[i]? = some ty ∧ spec_type_mapping ty = none) := by
  induction k with
  | zero =>
    left
    exact ⟨[], rfl, rfl, fun i hi => absurd hi (Nat.not_lt_zero i)⟩
  | succ k ih =>
    have hkt : k < table.column_types.length := hk
    have hkn : k < table.column_names.length := by
      rw [hc]
      exact hkt
    rw [List.range_succ, List.foldlM_append]
    rcases ih (Nat.le_of_succ_le hk) with ⟨r, hr, hlen, hall⟩ | ⟨herr, i, ty, hi, hty, hnone⟩
    · rw [hr]
      have hname : table.column_names[k]? = some table.column_names[k] :=
        List.getElem?_eq_getElem hkn
      have hty : table.column_types[k]? = some table.column_types[k] :=
        List.getElem?_eq_getElem hkt
      have hs := hstep r k _ _ hname hty
      cases hm : spec_type_mapping table.column_types[k] with
      | none =>
        right
        rw [hm] at hs
        refine ⟨?_, k, _, Nat.lt_succ_self k, hty, hm⟩
        simp [bind, Except.bind, hs, pure, Except.pure]
      | some m =>
        left
        rw [hm] at hs
        refine ⟨r ++ [⟨table.column_names[k], m.1, m.2⟩], ?_, ?_, ?_⟩
        · simp [bind, Except.bind, hs, pure, Except.pure]
        · simp [hlen]
        · intro i hi
          rcases Nat.lt_succ_iff_lt_or_eq.mp hi with hlt | heq
          · obtain ⟨name, ty, m', h1, h2, h3, h4⟩ := hall i hlt
            refine ⟨name, ty, m', h1, h2, h3, ?_⟩
            rw [List.getElem?_append_left (by rw [hlen]; exact hlt)]
            exact h4
          · subst heq
            refine ⟨_, _, m, hname, hty, hm, ?_⟩
            rw [List.getElem?_append_right (by rw [hlen])]
            simp [hlen]
    · right
      refine ⟨?_, i, ty, Nat.lt_succ_of_lt hi, hty, hnone⟩
      rw [herr]
      rfl

/-- C9: for every table whose column types are all among Int, Long, Float, Double and
String, `QueryResponseBuilder::build_row_description` returns a list with exactly
`column_count` entries in column order, where entry `i` has the name
`column_names[i]` and the pair (type_oid, type_size) that the fixed table
Int -> (23, 4), Long -> (20, 8), Float -> (700, 4), Double -> (701, 8),
String -> (25, -1) gives for `column_types[i]`. -/
theorem build_row_description_of_mapped_types (table : Table) (hc : table.consistent)
    (hall : ∀ ty, ty ∈ table.column_types →
      ty ∈ [DataType.Int, DataType.Long, DataType.Float, DataType.Double, DataType.String]) :
    ∃ result,
      QueryResponseBuilder.build_row_description table = Except.ok result ∧
      result.length = table.column_count ∧
      ∀ i, i < table.column_count → ∃ name ty oid size,
        table.column_names[i]? = some name ∧ table.column_types[i]? = some ty ∧
        spec_type_mapping ty = some (oid, size) ∧
        result[i]? = some { name := name, type_oid := oid, type_size := size } := by
  rcases row_description_loop table (QueryResponseBuilder.build_row_description_step table)
      (query_response_builder_step_eq table) hc table.column_count
      (Nat.le_refl _) with ⟨r, hr, hlen, hcols⟩ | ⟨_, i, ty, _, hty, hnone⟩
  · refine ⟨r, hr, hlen, ?_⟩
    intro i hi
    obtain ⟨name, ty, m, h1, h2, h3, h4⟩ := hcols i hi
    exact ⟨name, ty, m.1, m.2, h1, h2, h3, h4⟩
  · exfalso
    obtain ⟨m, hm⟩ := (spec_type_mapping_isSome_iff ty).mpr
      (hall ty (List.getElem?_mem hty))
    rw [hm] at hnone
    exact Option.noConfusion hnone

/-- Witness for C9: a table with one column of each mapped type. -/
theorem build_row_description_of_mapped_types_witness :
    QueryResponseBuilder.build_row_description
        ⟨["a", "b", "c", "d", "e"],
          [DataType.Int, DataType.Long, DataType.Float, DataType.Double, DataType.String]⟩ =
      Except.ok [⟨"a", 23, 4⟩, ⟨"b", 20, 8⟩, ⟨"c", 700, 4⟩, ⟨"d", 701, 8⟩, ⟨"e", 25, -1⟩] ∧
    ∃ result,
      QueryResponseBuilder.build_row_description
        ⟨["a", "b", "c", "d", "e"],
          [DataType.Int, DataType.Long, DataType.Float, DataType.Double, DataType.String]⟩ =
        Except.ok result ∧
      result.length = Table.column_count
        ⟨["a", "b", "c", "d", "e"],
          [DataType.Int, DataType.Long, DataType.Float, DataType.Double, DataType.String]⟩ ∧
      ∀ i, i < Table.column_count
          ⟨["a", "b", "c", "d", "e"],
            [DataType.Int, DataType.Long, DataType.Float, DataType.Double, DataType.String]⟩ →
        ∃ name ty oid size,
          (["a", "b", "c", "d", "e"] : List String)[i]? = some name ∧
          ([DataType.Int, DataType.Long, DataType.Float, DataType.Double,
            DataType.String] : List DataType)[i]? = some ty ∧
          spec_type_mapping ty = some (oid, size) ∧
          result[i]? = some { name := name, type_oid := oid, type_size := size } :=
  ⟨by decide,
    build_row_description_of_mapped_types
      ⟨["a", "b", "c", "d", "e"],
        [DataType.Int, DataType.Long, DataType.Float, DataType.Double, DataType.String]⟩
      (by decide) (by decide)⟩

/-- C10: for every table that has at least one column whose data type is not one of
Int, Long, Float, Double, String, `build_row_description` (of
`QueryResponseBuilder` and of `SendQueryResponseTask`) ends in the fatal
`Fail("Bad DataType")` and returns no description list; this failure is not the
`std::logic_error` exception of a per-command error, whatever its message. -/
theorem build_row_description_of_unmapped_type (table : Table) (hc : table.consistent)
    (hbad : ∃ ty, ty ∈ table.column_types ∧
      ty ∉ [DataType.Int, DataType.Long, DataType.Float, DataType.Double, DataType.String]) :
    QueryResponseBuilder.build_row_description table =
      Except.error (Failure.fatal "Bad DataType") ∧
    SendQueryResponseTask.build_row_description table =
      Except.error (Failure.fatal "Bad DataType") ∧
    (∀ result, QueryResponseBuilder.build_row_description table ≠ Except.ok result) ∧
    (∀ result, SendQueryResponseTask.build_row_description table ≠ Except.ok result) ∧
    (∀ msg, QueryResponseBuilder.build_row_description table ≠
      Except.error (Failure.logic_error msg)) ∧
    (∀ msg, SendQueryResponseTask.build_row_description table ≠
      Except.error (Failure.logic_error msg)) := by
  obtain ⟨bad, hmem, hnot⟩ := hbad
  have hfail : ∀ step : List ColumnDescription → Nat → Except Failure (List ColumnDescription),
      (∀ result i name ty, table.column_names[i]? = some name →
        table.column_types[i]? = some ty →
        step result i = match spec_type_mapping ty with
          | some m => Except.ok (result ++ [⟨name, m.1, m.2⟩])
          | none => Except.error (Failure.fatal "Bad DataType")) →
      (List.range table.column_count).foldlM step [] =
        Except.error (Failure.fatal "Bad DataType") := by
    intro step hstep
    rcases row_description_loop table step hstep hc table.column_count (Nat.le_refl _) with
      ⟨r, _, _, hcols⟩ | ⟨herr, _⟩
    · exfalso
      obtain ⟨j, hj, hjbad⟩ := List.getElem_of_mem hmem
      obtain ⟨name, ty, m, _, h2, h3, _⟩ := hcols j hj
      rw [List.getElem?_eq_getElem hj, hjbad] at h2
      have hty : bad = ty := Option.some.inj h2
      exact hnot ((spec_type_mapping_isSome_iff bad).mp ⟨m, by rw [hty]; exact h3⟩)
    · exact herr
  have h1 : QueryResponseBuilder.build_row_description table =
      Except.error (Failure.fatal "Bad DataType") :=
    hfail _ (query_response_builder_step_eq table)
  have h2 : SendQueryResponseTask.build_row_description table =
      Except.error (Failure.fatal "Bad DataType") :=
    hfail _ (send_query_response_task_step_eq table)
  refine ⟨h1, h2, ?_, ?_, ?_, ?_⟩
  · intro result h
    rw [h1] at h
    exact Except.noConfusion h
  · intro result h
    rw [h2] at h
    exact Except.noConfusion h
  · intro msg h
    rw [h1] at h
    exact Failure.noConfusion (Except.error.inj h)
  · intro msg h
    rw [h2] at h
    exact Failure.noConfusion (Except.error.inj h)

/-- Witness for C10: a table whose second of three columns has a type outside the
mapping; both builders end in `Fail("Bad DataType")`. -/
theorem build_row_description_of_unmapped_type_witness :
    QueryResponseBuilder.build_row_description
        ⟨["a", "b", "c"], [DataType.Int, DataType.Unrecognized 0, DataType.String]⟩ =
      Except.error (Failure.fatal "Bad DataType") ∧
    SendQueryResponseTask.build_row_description
        ⟨["a", "b", "c"], [DataType.Int, DataType.Unrecognized 0, DataType.String]⟩ =
      Except.error (Failure.fatal "Bad DataType") :=
  ⟨(build_row_description_of_unmapped_type
      ⟨["a", "b", "c"], [DataType.Int, DataType.Unrecognized 0, DataType.String]⟩
      (by decide) ⟨DataType.Unrecognized 0, by decide, by decide⟩).1,
    by decide⟩

end opossum

namespace opossum

/-! ## Decimal representation -/

/-- The character of a digit below ten: it is one of 0 to 9, denotes the digit, and is
the character 0 only for the digit zero. -/
theorem digitChar_decimal (m : Nat) (hm : m < 10) :
    is_decimal_digit (Nat.digitChar m) = true ∧ (Nat.digitChar m).toNat - 48 = m ∧
      (Nat.digitChar m = '0' → m = 0) := by
  interval_cases m <;> decide

/-- The digits that `Nat.toDigitsCore` produces are put in front of its accumulator. -/
theorem toDigitsCore_append (fuel : Nat) : ∀ (n : Nat) (ds : List Char),
    Nat.toDigitsCore 10 fuel n ds = Nat.toDigitsCore 10 fuel n [] ++ ds := by
  induction fuel with
  | zero => intro n ds; rfl
  | succ fuel ih =>
    intro n ds
    simp only [Nat.toDigitsCore]
    split
    · rfl
    · rw [ih (n / 10) (Nat.digitChar (n % 10) :: ds), ih (n / 10) [Nat.digitChar (n % 10)]]
      simp

/-- One more digit at the end of a decimal numeral. -/
theorem decimal_value_append_singleton (digits : List Char) (c : Char) :
    decimal_value (digits ++ [c]) = 10 * decimal_value digits + (c.toNat - 48) := by
  simp [decimal_value, List.foldl_append]

/-- With enough fuel, `Nat.toDigitsCore` produces the decimal numeral of `n`: only
digits, which denote `n`, and no leading zero unless `n = 0`. -/
theorem toDigitsCore_decimal (fuel : Nat) : ∀ n : Nat, n < fuel →
    (∀ c, c ∈ Nat.toDigitsCore 10 fuel n [] → is_decimal_digit c = true) ∧
    decimal_value (Nat.toDigitsCore 10 fuel n []) = n ∧
    (n ≠ 0 → (Nat.toDigitsCore 10 fuel n []).head? ≠ some '0') ∧
    Nat.toDigitsCore 10 fuel n [] ≠ [] := by
  induction fuel with
  | zero => intro n hn; exact absurd hn (Nat.not_lt_zero n)
  | succ fuel ih =>
    intro n hn
    have hd := digitChar_decimal (n % 10) (Nat.mod_lt n (by decide))
    simp only [Nat.toDigitsCore]
    split
    · rename_i hzero
      have hsmall : n % 10 = n := by omega
      refine ⟨?_, ?_, ?_, ?_⟩
      · intro c hc
        rw [List.mem_singleton] at hc
        rw [hc]
        exact hd.1
      · simp only [decimal_value, List.foldl_cons, List.foldl_nil]
        omega
      · intro hn0 hhead
        simp only [List.head?_cons, Option.some.injEq] at hhead
        have := hd.2.2 hhead
        omega
      · simp
    · rename_i hpos
      have hlt : n / 10 < fuel := by omega
      obtain ⟨h1, h2, h3, h4⟩ := ih (n / 10) hlt
      rw [toDigitsCore_append]
      refine ⟨?_, ?_, ?_, ?_⟩
      · intro c hc
        rcases List.mem_append.mp hc with hc | hc
        · exact h1 c hc
        · rw [List.mem_singleton] at hc
          rw [hc]
          exact hd.1
      · rw [decimal_value_append_singleton, h2]
        omega
      · intro _
        rw [List.head?_append_of_ne_nil _ h4]
        exact h3 hpos
      · simp

end opossum

namespace opossum

/-! ## Claims on the command-complete message -/

/-- C11: for every row count `n`, `QueryResponseBuilder::build_command_complete_message`
for a SELECT statement returns the text `SELECT ` followed by the decimal
representation of `n`: a non-empty run of the digits 0 to 9 (so no sign), which
denotes `n`, with no leading zero unless `n = 0` (so no padding). -/
theorem build_command_complete_message_select (n : Nat) :
    QueryResponseBuilder.build_command_complete_message StatementType.kStmtSelect n =
      Except.ok ("SELECT " ++ std_to_string n) ∧
    (∀ c, c ∈ (std_to_string n).data → is_decimal_digit c = true) ∧
    decimal_value (std_to_string n).data = n ∧
    (n ≠ 0 → (std_to_string n).data.head? ≠ some '0') ∧
    (std_to_string n).data ≠ [] := by
  obtain ⟨h1, h2, h3, h4⟩ := toDigitsCore_decimal (n + 1) n (Nat.lt_succ_self n)
  exact ⟨rfl, h1, h2, h3, h4⟩

/-- Witness for C11: the row count 3 gives `SELECT 3`, and the largest unsigned 64-bit
row count gives its twenty digits. -/
theorem build_command_complete_message_select_witness :
    QueryResponseBuilder.build_command_complete_message StatementType.kStmtSelect 3 =
      Except.ok "SELECT 3" ∧
    QueryResponseBuilder.build_command_complete_message StatementType.kStmtSelect
      18446744073709551615 = Except.ok "SELECT 18446744073709551615" :=
  ⟨(build_command_complete_message_select 3).1.trans (by decide), by decide⟩

/-- C12: for an INSERT statement, `build_command_complete_message` (of
`QueryResponseBuilder` and of `SendQueryResponseTask`) returns exactly `INSERT 0 1`
for every row count: the result does not depend on the `row_count` argument. -/
theorem build_command_complete_message_insert (row_count : Nat) :
    QueryResponseBuilder.build_command_complete_message StatementType.kStmtInsert row_count =
      Except.ok "INSERT 0 1" ∧
    SendQueryResponseTask.build_command_complete_message StatementType.kStmtInsert row_count =
      Except.ok "INSERT 0 1" :=
  ⟨rfl, rfl⟩

/-- C13: for every row count, `QueryResponseBuilder::build_command_complete_message`
returns exactly `UPDATE -1` for an UPDATE statement, `DELETE -1` for a DELETE
statement and `SELECT 0` for a CREATE statement. -/
theorem build_command_complete_message_update_delete_create (row_count : Nat) :
    QueryResponseBuilder.build_command_complete_message StatementType.kStmtUpdate row_count =
      Except.ok "UPDATE -1" ∧
    QueryResponseBuilder.build_command_complete_message StatementType.kStmtDelete row_count =
      Except.ok "DELETE -1" ∧
    QueryResponseBuilder.build_command_complete_message StatementType.kStmtCreate row_count =
      Except.ok "SELECT 0" :=
  ⟨rfl, rfl, rfl⟩

/-- C14 (counterexample): for the row count 7, the variant of
`SendQueryResponseTask` does not return `UPDATE -1` for an UPDATE statement, nor
`DELETE -1` for a DELETE statement. -/
theorem task_command_complete_not_minus_one :
    SendQueryResponseTask.build_command_complete_message StatementType.kStmtUpdate 7 ≠
      Except.ok "UPDATE -1" ∧
    SendQueryResponseTask.build_command_complete_message StatementType.kStmtDelete 7 ≠
      Except.ok "DELETE -1" := by
  decide

/-- C14 (amended): for every row count,
`SendQueryResponseTask::build_command_complete_message` returns exactly `UPDATE 0` for
an UPDATE statement and `DELETE 0` for a DELETE statement; the sentinel of this
variant is 0, where the one of `QueryResponseBuilder` is -1. -/
theorem task_command_complete_update_delete (row_count : Nat) :
    SendQueryResponseTask.build_command_complete_message StatementType.kStmtUpdate row_count =
      Except.ok "UPDATE 0" ∧
    SendQueryResponseTask.build_command_complete_message StatementType.kStmtDelete row_count =
      Except.ok "DELETE 0" :=
  ⟨rfl, rfl⟩

end opossum

namespace opossum

/-! ## The row walk of `QueryResponseBuilder` -/

/-- Entry `i` of the row of a consistent chunk at a valid offset is the stringified cell
of column `i`. -/
theorem stringified_row_getElem? {Cell : Type} (type_cast : Cell → String) (chunk : Chunk Cell)
    (column_count chunk_offset i : Nat) (hc : chunk.consistent column_count)
    (ho : chunk_offset < chunk.size) (hi : i < column_count) :
    ∃ column value, chunk.columns[i]? = some column ∧ column[chunk_offset]? = some value ∧
      (stringified_row type_cast chunk chunk_offset)[i]? = some (type_cast value) := by
  have hlen : i < chunk.columns.length := by rw [hc.1]; exact hi
  have hcol : chunk.columns[i]? = some chunk.columns[i] := List.getElem?_eq_getElem hlen
  have hsize : chunk_offset < chunk.columns[i].length := by
    rw [hc.2 _ (List.getElem_mem hlen)]
    exact ho
  have hval : chunk.columns[i][chunk_offset]? = some chunk.columns[i][chunk_offset] :=
    List.getElem?_eq_getElem hsize
  refine ⟨_, _, hcol, hval, ?_⟩
  simp only [stringified_row, List.getElem?_map, hcol, Option.map_some', hval]

/-- The row of a consistent chunk has one string per column. -/
theorem stringified_row_length {Cell : Type} (type_cast : Cell → String) (chunk : Chunk Cell)
    (column_count chunk_offset : Nat) (hc : chunk.consistent column_count) :
    (stringified_row type_cast chunk chunk_offset).length = column_count := by
  simp only [stringified_row, List.length_map]
  exact hc.1

/-- The loop that fills `row_strings`, run over the first `j` columns of a consistent
chunk at a valid offset: the first `j` entries are those of the row, the others are
as before. -/
theorem fill_row_strings_prefix {Cell : Type} (type_cast : Cell → String) (chunk : Chunk Cell)
    (chunk_offset : Nat) (row_strings : List String)
    (hc : chunk.consistent row_strings.length) (ho : chunk_offset < chunk.size) (j : Nat)
    (hj : j ≤ row_strings.length) :
    ∃ filled, (List.range j).foldlM (fun row_strings column_id => do
        let column ← vector_at chunk.columns column_id
        let value ← vector_at column chunk_offset
        pure (row_strings.set column_id (type_cast value))) row_strings = Except.ok filled ∧
      filled.length = row_strings.length ∧
      ∀ i, filled[i]? =
        if i < j then (stringified_row type_cast chunk chunk_offset)[i]? else row_strings[i]? := by
  induction j with
  | zero => exact ⟨row_strings, rfl, rfl, fun i => by simp⟩
  | succ j ih =>
    obtain ⟨filled, hfold, hlen, hget⟩ := ih (Nat.le_of_succ_le hj)
    obtain ⟨column, value, hcol, hval, hrow⟩ :=
      stringified_row_getElem? type_cast chunk row_strings.length chunk_offset j hc ho hj
    refine ⟨filled.set j (type_cast value), ?_, ?_, ?_⟩
    · rw [List.range_succ, List.foldlM_append, hfold]
      simp [vector_at, hcol, hval, bind, Except.bind, pure, Except.pure]
    · rw [List.length_set, hlen]
    · intro i
      rw [List.getElem?_set]
      by_cases hij : j = i
      · subst hij
        have h1 : j < filled.length := by rw [hlen]; exact hj
        simp [h1, hrow]
      · rw [if_neg hij, hget i]
        by_cases hlt : i < j
        · rw [if_pos hlt, if_pos (Nat.lt_succ_of_lt hlt)]
        · rw [if_neg hlt, if_neg (by omega)]

/-- The loop that fills `row_strings`, on a consistent chunk at a valid offset, leaves
the row of the chunk at that offset. -/
theorem fill_row_strings_eq {Cell : Type} (type_cast : Cell → String) (chunk : Chunk Cell)
    (chunk_offset : Nat) (row_strings : List String)
    (hc : chunk.consistent row_strings.length) (ho : chunk_offset < chunk.size) :
    fill_row_strings type_cast chunk chunk_offset row_strings =
      Except.ok (stringified_row type_cast chunk chunk_offset) := by
  obtain ⟨filled, hfold, hlen, hget⟩ :=
    fill_row_strings_prefix type_cast chunk chunk_offset row_strings hc ho row_strings.length
      (Nat.le_refl _)
  have hrow := stringified_row_length type_cast chunk row_strings.length chunk_offset hc
  have heq : filled = stringified_row type_cast chunk chunk_offset := by
    apply List.ext_getElem?
    intro i
    rw [hget i]
    by_cases hi : i < row_strings.length
    · rw [if_pos hi]
    · rw [if_neg hi, List.getElem?_eq_none (by omega), List.getElem?_eq_none (by omega)]
  rw [fill_row_strings, hfold, heq]

/-- Sending two lists of rows one after the other. -/
theorem send_all_append {σ : Type} (send_row : send_row_t σ) (rows rest : List (List String))
    (s : σ) :
    send_all send_row (rows ++ rest) s =
      match send_all send_row rows s with
      | (Except.ok (), s) => send_all send_row rest s
      | (Except.error failure, s) => (Except.error failure, s) := by
  induction rows generalizing s with
  | nil => rfl
  | cons row rows ih =>
    simp only [List.cons_append, send_all]
    rcases hsend : send_row row s with ⟨outcome, s1⟩
    cases outcome with
    | ok u => exact ih s1
    | error failure => rfl

end opossum

namespace opossum

/-- The walk over the rows of one consistent chunk from an offset on, with enough fuel:
it resolves to what sending the rows at the remaining offsets, in ascending order,
resolves to, and `row_strings` keeps its length. -/
theorem send_query_response_rows_eq {σ Cell : Type} (send_row : send_row_t σ)
    (type_cast : Cell → String) (chunk : Chunk Cell) (remaining : Nat) :
    ∀ (fuel current_chunk_offset : Nat) (row_strings : List String) (s : σ),
      chunk.consistent row_strings.length →
      current_chunk_offset + remaining = chunk.size → remaining < fuel →
      ∃ row_strings', row_strings'.length = row_strings.length ∧
        send_query_response_rows send_row type_cast chunk fuel current_chunk_offset row_strings s =
          some ((send_all send_row ((List.range' current_chunk_offset remaining).map
              (stringified_row type_cast chunk)) s).1, row_strings',
            (send_all send_row ((List.range' current_chunk_offset remaining).map
              (stringified_row type_cast chunk)) s).2) := by
  induction remaining with
  | zero =>
    intro fuel current_chunk_offset row_strings s _ hsize hfuel
    obtain ⟨fuel, rfl⟩ : ∃ f, fuel = f + 1 := ⟨fuel - 1, by omega⟩
    refine ⟨row_strings, rfl, ?_⟩
    simp only [send_query_response_rows, if_pos (show current_chunk_offset = chunk.size by omega)]
    rfl
  | succ remaining ih =>
    intro fuel current_chunk_offset row_strings s hc hsize hfuel
    obtain ⟨fuel, rfl⟩ : ∃ f, fuel = f + 1 := ⟨fuel - 1, by omega⟩
    have hfill := fill_row_strings_eq type_cast chunk current_chunk_offset row_strings hc
      (by omega)
    have hrow := stringified_row_length type_cast chunk row_strings.length current_chunk_offset hc
    simp only [send_query_response_rows,
      if_neg (show ¬ current_chunk_offset = chunk.size by omega), hfill, List.range'_succ,
      List.map_cons, send_all]
    rcases hsend : send_row (stringified_row type_cast chunk current_chunk_offset) s with
      ⟨outcome, s1⟩
    cases outcome with
    | error failure => exact ⟨_, hrow, rfl⟩
    | ok u =>
      obtain ⟨row_strings', hlen, heq⟩ := ih fuel (current_chunk_offset + 1)
        (stringified_row type_cast chunk current_chunk_offset) s1 (by rw [hrow]; exact hc)
        (by omega) (by omega)
      exact ⟨row_strings', by rw [hlen, hrow], heq⟩

/-- A chunk of a table has at most as many rows as the table. -/
theorem chunk_size_le_row_count {Cell : Type} (table : ResultTable Cell) (chunk : Chunk Cell)
    (h : chunk ∈ table.chunks) : chunk.size ≤ table.row_count := by
  unfold ResultTable.row_count
  exact List.single_le_sum (fun _ _ => Nat.zero_le _) _ (List.mem_map_of_mem _ h)

/-- The rows of the chunks from a chunk id on, in storage order. -/
theorem stringified_rows_drop {Cell : Type} (type_cast : Cell → String) (chunks : List (Chunk Cell))
    (current_chunk_id : Nat) (h : current_chunk_id < chunks.length) :
    (chunks.drop current_chunk_id).flatMap (fun chunk =>
        (List.range chunk.size).map (stringified_row type_cast chunk)) =
      (List.range chunks[current_chunk_id].size).map
          (stringified_row type_cast chunks[current_chunk_id]) ++
        (chunks.drop (current_chunk_id + 1)).flatMap (fun chunk =>
          (List.range chunk.size).map (stringified_row type_cast chunk)) := by
  rw [List.drop_eq_getElem_cons h, List.flatMap_cons]

/-- The walk over the chunks of a consistent table from a chunk id on, with enough
fuel: it resolves to what sending the rows of the remaining chunks, in storage order,
resolves to. -/
theorem send_query_response_chunks_eq {σ Cell : Type} (send_row : send_row_t σ)
    (type_cast : Cell → String) (table : ResultTable Cell) (hc : table.consistent)
    (remaining : Nat) :
    ∀ (fuel current_chunk_id : Nat) (row_strings : List String) (s : σ),
      row_strings.length = table.column_count →
      current_chunk_id + remaining = table.chunk_count →
      remaining + table.row_count + 1 < fuel →
      ∃ row_strings',
        send_query_response_chunks send_row type_cast table fuel current_chunk_id row_strings s =
          some ((send_all send_row ((table.chunks.drop current_chunk_id).flatMap (fun chunk =>
              (List.range chunk.size).map (stringified_row type_cast chunk))) s).1, row_strings',
            (send_all send_row ((table.chunks.drop current_chunk_id).flatMap (fun chunk =>
              (List.range chunk.size).map (stringified_row type_cast chunk))) s).2) := by
  induction remaining with
  | zero =>
    intro fuel current_chunk_id row_strings s _ hcount hfuel
    obtain ⟨fuel, rfl⟩ : ∃ f, fuel = f + 1 := ⟨fuel - 1, by omega⟩
    refine ⟨row_strings, ?_⟩
    have hid : current_chunk_id = table.chunk_count := by omega
    simp only [send_query_response_chunks, if_pos hid]
    rw [hid, ResultTable.chunk_count, List.drop_length]
    rfl
  | succ remaining ih =>
    intro fuel current_chunk_id row_strings s hlen hcount hfuel
    obtain ⟨fuel, rfl⟩ : ∃ f, fuel = f + 1 := ⟨fuel - 1, by omega⟩
    have hid : current_chunk_id < table.chunks.length := by
      unfold ResultTable.chunk_count at hcount
      omega
    have hmem : table.chunks[current_chunk_id] ∈ table.chunks := List.getElem_mem hid
    have hchunk : vector_at table.chunks current_chunk_id =
        Except.ok table.chunks[current_chunk_id] := by
      simp [vector_at, List.getElem?_eq_getElem hid]
    have hsize := chunk_size_le_row_count table _ hmem
    obtain ⟨row_strings1, hlen1, hrows⟩ := send_query_response_rows_eq send_row type_cast
      table.chunks[current_chunk_id] table.chunks[current_chunk_id].size fuel 0 row_strings s
      (by rw [hlen]; exact hc _ hmem) (by omega) (by omega)
    rw [← List.range_eq_range'] at hrows
    rw [stringified_rows_drop type_cast table.chunks current_chunk_id hid, send_all_append]
    simp only [send_query_response_chunks,
      if_neg (show ¬ current_chunk_id = table.chunk_count by omega), hchunk, hrows]
    rcases hsend : send_all send_row ((List.range table.chunks[current_chunk_id].size).map
        (stringified_row type_cast table.chunks[current_chunk_id])) s with ⟨outcome, s1⟩
    cases outcome with
    | error failure => exact ⟨_, rfl⟩
    | ok u =>
      obtain ⟨row_strings2, heq⟩ := ih fuel (current_chunk_id + 1) row_strings1 s1
        (by rw [hlen1, hlen]) (by omega) (by omega)
      exact ⟨row_strings2, heq⟩

/-- The function `send_query_response` on a consistent table, with enough fuel: it
resolves to the row count when sending the rows of the table in storage order
resolves to a value, and to the failure of the first send that fails otherwise. -/
theorem send_query_response_eq {σ Cell : Type} (send_row : send_row_t σ)
    (type_cast : Cell → String) (table : ResultTable Cell) (hc : table.consistent)
    (fuel : Nat) (hfuel : table.chunk_count + table.row_count + 2 ≤ fuel) (s : σ) :
    send_query_response send_row type_cast table fuel s =
      some (match send_all send_row (stringified_rows type_cast table) s with
        | (Except.ok (), s) => (Except.ok table.row_count, s)
        | (Except.error failure, s) => (Except.error failure, s)) := by
  obtain ⟨row_strings', heq⟩ := send_query_response_chunks_eq send_row type_cast table hc
    table.chunk_count fuel 0 (List.replicate table.column_count "") s (by simp) (by omega)
    (by omega)
  simp only [List.drop_zero] at heq
  simp only [send_query_response, heq, stringified_rows]
  rcases send_all send_row (table.chunks.flatMap (fun chunk =>
      (List.range chunk.size).map (stringified_row type_cast chunk))) s with ⟨outcome, s1⟩
  cases outcome <;> rfl

end opossum

namespace opossum

/-- A table has as many rows in storage order as its row count. -/
theorem stringified_rows_length {Cell : Type} (type_cast : Cell → String)
    (table : ResultTable Cell) :
    (stringified_rows type_cast table).length = table.row_count := by
  unfold stringified_rows ResultTable.row_count
  induction table.chunks with
  | nil => rfl
  | cons chunk chunks ih =>
    rw [List.flatMap_cons, List.length_append, ih]
    simp

/-- With a `send_row` that always succeeds, sending any rows resolves to a value. -/
theorem send_all_of_success {σ : Type} (send_row : send_row_t σ)
    (hsuccess : ∀ row s, (send_row row s).1 = Except.ok ()) (rows : List (List String)) (s : σ) :
    ∃ s1, send_all send_row rows s = (Except.ok (), s1) := by
  induction rows generalizing s with
  | nil => exact ⟨s, rfl⟩
  | cons row rows ih =>
    have h := hsuccess row s
    rcases hsend : send_row row s with ⟨outcome, s1⟩
    rw [hsend] at h
    simp only at h
    subst h
    obtain ⟨s2, h2⟩ := ih s1
    exact ⟨s2, by simp only [send_all, hsend, h2]⟩

/-- When sending rows with `send_row` resolves to a value, the recording `send_row`
resolves to a value too and has recorded exactly these rows, in order, each with a send
that succeeded. -/
theorem send_all_recording_of_ok {σ : Type} (send_row : send_row_t σ)
    (rows : List (List String)) :
    ∀ (s s1 : σ) (log : List (List String × Except Failure Unit)),
      send_all send_row rows s = (Except.ok (), s1) →
      send_all (recording_send_row send_row) rows (s, log) =
        (Except.ok (), (s1, log ++ rows.map (fun row => (row, Except.ok ())))) := by
  induction rows with
  | nil =>
    intro s s1 log h
    simp only [send_all, Prod.mk.injEq, true_and] at h
    simp [send_all, h]
  | cons row rows ih =>
    intro s s1 log h
    rcases hsend : send_row row s with ⟨outcome, s2⟩
    simp only [send_all, hsend] at h
    cases outcome with
    | error failure => simp at h
    | ok u =>
      simp only at h
      have h2 := ih s2 s1 (log ++ [(row, Except.ok ())]) h
      simp only [send_all, recording_send_row, hsend, h2, List.map_cons, List.append_assoc,
        List.singleton_append]

/-! ## Claims on the row walk of `QueryResponseBuilder` -/

/-- C15: for every consistent result table and every `send_row` that always succeeds,
`send_query_response` (with enough fuel for its recursion) calls `send_row` exactly on
the rows of the table in storage order (chunk after chunk, and inside a chunk by
ascending offset; an empty chunk has no rows), once each, and resolves to the row
count of the table. There are `row_count` such rows, and the row of a chunk at an
offset has exactly `column_count` strings, string `j` being the stringified cell of
column `j` at that offset. -/
theorem send_query_response_sends_every_row {σ Cell : Type} (send_row : send_row_t σ)
    (type_cast : Cell → String) (table : ResultTable Cell) (hc : table.consistent)
    (hsuccess : ∀ row s, (send_row row s).1 = Except.ok ())
    (fuel : Nat) (hfuel : table.chunk_count + table.row_count + 2 ≤ fuel) (s : σ) :
    (∃ s1, send_query_response (recording_send_row send_row) type_cast table fuel (s, []) =
      some (Except.ok table.row_count,
        (s1, (stringified_rows type_cast table).map (fun row => (row, Except.ok ()))))) ∧
    (stringified_rows type_cast table).length = table.row_count ∧
    (∀ chunk, chunk ∈ table.chunks → ∀ chunk_offset, chunk_offset < chunk.size →
      (stringified_row type_cast chunk chunk_offset).length = table.column_count ∧
      ∀ j, j < table.column_count → ∃ column value,
        chunk.columns[j]? = some column ∧ column[chunk_offset]? = some value ∧
        (stringified_row type_cast chunk chunk_offset)[j]? = some (type_cast value)) := by
  refine ⟨?_, stringified_rows_length type_cast table, ?_⟩
  · obtain ⟨s1, hall⟩ := send_all_of_success send_row hsuccess (stringified_rows type_cast table) s
    have hrec := send_all_recording_of_ok send_row (stringified_rows type_cast table) s s1 [] hall
    refine ⟨s1, ?_⟩
    rw [send_query_response_eq (recording_send_row send_row) type_cast table hc fuel hfuel, hrec]
    rfl
  · intro chunk hmem chunk_offset ho
    exact ⟨stringified_row_length type_cast chunk _ chunk_offset (hc chunk hmem),
      fun j hj => stringified_row_getElem? type_cast chunk _ chunk_offset j (hc chunk hmem) ho hj⟩

/-- C16: if in `send_query_response` (with enough fuel for its recursion, on a
consistent table) the sends of the first `k` rows in storage order succeed and the
send of the next row fails, then `send_row` has been called on exactly these `k + 1`
rows, the first `k` of them sent and the last one failed, no later row is attempted,
and the returned future resolves to that failure instead of a row count. -/
theorem send_query_response_stops_at_failed_send {σ Cell : Type} (send_row : send_row_t σ)
    (type_cast : Cell → String) (table : ResultTable Cell) (hc : table.consistent)
    (fuel : Nat) (hfuel : table.chunk_count + table.row_count + 2 ≤ fuel) (s s1 s2 : σ)
    (k : Nat) (row : List String) (failure : Failure)
    (hrow : (stringified_rows type_cast table)[k]? = some row)
    (hbefore : send_all send_row ((stringified_rows type_cast table).take k) s =
      (Except.ok (), s1))
    (hfail : send_row row s1 = (Except.error failure, s2)) :
    send_query_response (recording_send_row send_row) type_cast table fuel (s, []) =
      some (Except.error failure,
        (s2, ((stringified_rows type_cast table).take k).map (fun row => (row, Except.ok ())) ++
          [(row, Except.error failure)])) := by
  have hk : k < (stringified_rows type_cast table).length := by
    by_contra hge
    rw [List.getElem?_eq_none (by omega)] at hrow
    exact Option.noConfusion hrow
  have hrowk : (stringified_rows type_cast table)[k] = row := by
    rw [List.getElem?_eq_getElem hk] at hrow
    exact Option.some.inj hrow
  have hsplit : stringified_rows type_cast table =
      (stringified_rows type_cast table).take k ++
        row :: (stringified_rows type_cast table).drop (k + 1) := by
    rw [← hrowk, ← List.drop_eq_getElem_cons hk, List.take_append_drop]
  have hrec := send_all_recording_of_ok send_row ((stringified_rows type_cast table).take k)
    s s1 [] hbefore
  rw [send_query_response_eq (recording_send_row send_row) type_cast table hc fuel hfuel]
  conv => lhs; rw [hsplit]
  rw [send_all_append, hrec]
  simp only [send_all, recording_send_row, hfail, List.nil_append]

end opossum

namespace opossum

/-! ## The row walk of `SendQueryResponseTask` -/

/-- The loop that builds `row_strings`, on a consistent chunk at a valid offset, run
over the first `j` columns: it has built the first `j` strings of the row. -/
theorem build_row_strings_prefix {Cell : Type} (type_cast : Cell → String) (chunk : Chunk Cell)
    (num_columns chunk_offset : Nat) (hc : chunk.consistent num_columns)
    (ho : chunk_offset < chunk.size) (j : Nat) (hj : j ≤ num_columns) :
    (List.range j).foldlM (fun row_strings column_id => do
        let column ← vector_at chunk.columns column_id
        let value ← vector_at column chunk_offset
        pure (row_strings ++ [type_cast value])) [] =
      Except.ok ((stringified_row type_cast chunk chunk_offset).take j) := by
  induction j with
  | zero => rfl
  | succ j ih =>
    obtain ⟨column, value, hcol, hval, hrow⟩ :=
      stringified_row_getElem? type_cast chunk num_columns chunk_offset j hc ho hj
    rw [List.range_succ, List.foldlM_append, ih (Nat.le_of_succ_le hj), List.take_succ, hrow]
    simp [vector_at, hcol, hval, bind, Except.bind, pure, Except.pure]

/-- The loop that builds `row_strings`, on a consistent chunk at a valid offset, builds
the row of the chunk at that offset. -/
theorem build_row_strings_eq {Cell : Type} (type_cast : Cell → String) (chunk : Chunk Cell)
    (num_columns chunk_offset : Nat) (hc : chunk.consistent num_columns)
    (ho : chunk_offset < chunk.size) :
    SendQueryResponseTask.build_row_strings type_cast num_columns chunk chunk_offset =
      Except.ok (stringified_row type_cast chunk chunk_offset) := by
  rw [SendQueryResponseTask.build_row_strings,
    build_row_strings_prefix type_cast chunk num_columns chunk_offset hc ho num_columns
      (Nat.le_refl _),
    List.take_of_length_le
      (by rw [stringified_row_length type_cast chunk num_columns chunk_offset hc])]

/-- Passing two lists of rows to `send_data_row` one after the other. -/
theorem send_data_row_all_append {σ : Type} (send_data_row : send_data_row_t σ)
    (rows rest : List (List String)) (row_count : Nat) (s : σ) :
    send_data_row_all send_data_row (rows ++ rest) row_count s =
      match send_data_row_all send_data_row rows row_count s with
      | (Except.ok row_count, s) => send_data_row_all send_data_row rest row_count s
      | (Except.error failure, s) => (Except.error failure, s) := by
  induction rows generalizing row_count s with
  | nil => rfl
  | cons row rows ih =>
    simp only [List.cons_append, send_data_row_all]
    rcases hsend : send_data_row row s with ⟨outcome, s1⟩
    cases outcome with
    | ok future => exact ih _ s1
    | error failure => rfl

/-- The loop over the offsets of a consistent chunk passes the rows at these offsets to
`send_data_row`, in the order of the offsets. -/
theorem chunk_offset_loop_eq {σ Cell : Type} (send_data_row : send_data_row_t σ)
    (type_cast : Cell → String) (num_columns : Nat) (chunk : Chunk Cell)
    (hc : chunk.consistent num_columns) (offsets : List Nat) :
    ∀ (row_count : Nat) (s : σ), (∀ chunk_offset, chunk_offset ∈ offsets → chunk_offset < chunk.size) →
      SendQueryResponseTask.chunk_offset_loop send_data_row type_cast num_columns chunk offsets
          row_count s =
        send_data_row_all send_data_row (offsets.map (stringified_row type_cast chunk))
          row_count s := by
  induction offsets with
  | nil => intro row_count s _; rfl
  | cons chunk_offset offsets ih =>
    intro row_count s hlt
    have hbuild := build_row_strings_eq type_cast chunk num_columns chunk_offset hc
      (hlt chunk_offset (List.mem_cons_self _ _))
    simp only [SendQueryResponseTask.chunk_offset_loop, hbuild, List.map_cons, send_data_row_all]
    rcases hsend : send_data_row (stringified_row type_cast chunk chunk_offset) s with
      ⟨outcome, s1⟩
    cases outcome with
    | error failure => rfl
    | ok future =>
      exact ih _ s1 (fun o ho => hlt o (List.mem_cons_of_mem _ ho))

/-- The loop over the chunk ids from a chunk id on passes the rows of the remaining
chunks of a consistent table to `send_data_row`, in storage order. -/
theorem chunk_id_loop_eq {σ Cell : Type} (send_data_row : send_data_row_t σ)
    (type_cast : Cell → String) (table : ResultTable Cell) (hc : table.consistent)
    (remaining : Nat) :
    ∀ (chunk_id row_count : Nat) (s : σ), chunk_id + remaining = table.chunk_count →
      SendQueryResponseTask.chunk_id_loop send_data_row type_cast table.column_count table
          (List.range' chunk_id remaining) row_count s =
        send_data_row_all send_data_row ((table.chunks.drop chunk_id).flatMap (fun chunk =>
          (List.range chunk.size).map (stringified_row type_cast chunk))) row_count s := by
  induction remaining with
  | zero =>
    intro chunk_id row_count s hcount
    have hid : chunk_id = table.chunks.length := by
      unfold ResultTable.chunk_count at hcount
      omega
    rw [hid, List.drop_length]
    rfl
  | succ remaining ih =>
    intro chunk_id row_count s hcount
    have hid : chunk_id < table.chunks.length := by
      unfold ResultTable.chunk_count at hcount
      omega
    have hmem : table.chunks[chunk_id] ∈ table.chunks := List.getElem_mem hid
    have hchunk : vector_at table.chunks chunk_id = Except.ok table.chunks[chunk_id] := by
      simp [vector_at, List.getElem?_eq_getElem hid]
    have hloop := chunk_offset_loop_eq send_data_row type_cast table.column_count
      table.chunks[chunk_id] (hc _ hmem) (List.range table.chunks[chunk_id].size) row_count s
      (fun o ho => List.mem_range.mp ho)
    rw [stringified_rows_drop type_cast table.chunks chunk_id hid, send_data_row_all_append,
      ← hloop]
    simp only [List.range'_succ, SendQueryResponseTask.chunk_id_loop, hchunk]
    rcases SendQueryResponseTask.chunk_offset_loop send_data_row type_cast table.column_count
        table.chunks[chunk_id] (List.range table.chunks[chunk_id].size) row_count s with
      ⟨outcome, s1⟩
    cases outcome with
    | error failure => rfl
    | ok row_count1 => exact ih (chunk_id + 1) row_count1 s1 (by omega)

/-- The `try` block of `SendQueryResponseTask::_on_execute` on a consistent table passes
the rows of the table to `send_data_row`, in storage order. -/
theorem send_query_response_task_try_block_eq {σ Cell : Type}
    (send_data_row : send_data_row_t σ) (type_cast : Cell → String)
    (table : ResultTable Cell) (hc : table.consistent) (s : σ) :
    SendQueryResponseTask.try_block send_data_row type_cast table s =
      send_data_row_all send_data_row (stringified_rows type_cast table) 0 s := by
  have h := chunk_id_loop_eq send_data_row type_cast table hc table.chunk_count 0 0 s
    (Nat.zero_add _)
  rw [← List.range_eq_range', List.drop_zero] at h
  exact h

end opossum

namespace opossum

/-- With a `send_data_row` that never raises, every row is passed on and counted,
whatever the futures resolve to. -/
theorem send_data_row_all_of_no_raise {σ : Type} (send_data_row : send_data_row_t σ)
    (hreturns : ∀ row s, ∃ future, (send_data_row row s).1 = Except.ok future)
    (rows : List (List String)) :
    ∀ (row_count : Nat) (s : σ), row_count < UINT32_MOD →
      ∃ s1, send_data_row_all send_data_row rows row_count s =
        (Except.ok ((row_count + rows.length) % UINT32_MOD), s1) := by
  induction rows with
  | nil =>
    intro row_count s hlt
    exact ⟨s, by simp [send_data_row_all, Nat.mod_eq_of_lt hlt]⟩
  | cons row rows ih =>
    intro row_count s _
    obtain ⟨future, hfuture⟩ := hreturns row s
    rcases hsend : send_data_row row s with ⟨outcome, s1⟩
    rw [hsend] at hfuture
    simp only at hfuture
    subst hfuture
    obtain ⟨s2, h2⟩ := ih ((row_count + 1) % UINT32_MOD) s1 (Nat.mod_lt _ (by decide))
    refine ⟨s2, ?_⟩
    have hmod : ((row_count + 1) % UINT32_MOD + rows.length) % UINT32_MOD =
        (row_count + (rows.length + 1)) % UINT32_MOD := by
      simp only [UINT32_MOD]
      omega
    simp only [send_data_row_all, hsend, h2, List.length_cons, hmod]

/-- When no call of `send_data_row` on the rows raises, the recording `send_data_row`
does the same and has recorded exactly these rows, in order. -/
theorem send_data_row_all_recording {σ : Type} (send_data_row : send_data_row_t σ)
    (rows : List (List String)) :
    ∀ (row_count count : Nat) (s s1 : σ) (log : List (List String)),
      send_data_row_all send_data_row rows row_count s = (Except.ok count, s1) →
      send_data_row_all (recording_send_data_row send_data_row) rows row_count (s, log) =
        (Except.ok count, (s1, log ++ rows)) := by
  induction rows with
  | nil =>
    intro row_count count s s1 log h
    simp only [send_data_row_all, Prod.mk.injEq, Except.ok.injEq] at h
    simp [send_data_row_all, h.1, h.2]
  | cons row rows ih =>
    intro row_count count s s1 log h
    rcases hsend : send_data_row row s with ⟨outcome, s2⟩
    simp only [send_data_row_all, hsend] at h
    cases outcome with
    | error failure => simp at h
    | ok future =>
      simp only at h
      have h2 := ih _ count s2 s1 (log ++ [row]) h
      simp only [send_data_row_all, recording_send_data_row, hsend, h2, List.append_assoc,
        List.singleton_append]

end opossum

namespace opossum

/-! ## Witnesses for the row walk of `QueryResponseBuilder` -/

/-- Witness for C15: the table of three chunks, the second one empty, with a `send_row`
that always succeeds: the three rows are sent in storage order and the future
resolves to 3. -/
theorem send_query_response_sends_every_row_witness :
    send_query_response (recording_send_row send_row_counting) Nat.repr example_result_table 8
        (0, []) =
      some (Except.ok 3, (3, [(["1", "3"], Except.ok ()), (["2", "4"], Except.ok ()),
        (["5", "6"], Except.ok ())])) ∧
    ∃ s1, send_query_response (recording_send_row send_row_counting) Nat.repr
        example_result_table 8 (0, []) =
      some (Except.ok example_result_table.row_count,
        (s1, (stringified_rows Nat.repr example_result_table).map
          (fun row => (row, Except.ok ())))) :=
  ⟨by rfl,
    (send_query_response_sends_every_row send_row_counting Nat.repr example_result_table
      (by decide) (fun _ _ => rfl) 8 (by decide) 0).1⟩

/-- Witness for C16: on the same table, with a `send_row` whose second call fails: the
first row is sent, the send of the second row fails, the third row is never passed to
`send_row`, and the future resolves to the failure. -/
theorem send_query_response_stops_at_failed_send_witness :
    send_query_response (recording_send_row send_row_failing_second) Nat.repr
        example_result_table 8 (0, []) =
      some (Except.error (Failure.logic_error "connection closed"),
        (2, ((stringified_rows Nat.repr example_result_table).take 1).map
            (fun row => (row, Except.ok ())) ++
          [(["2", "4"], Except.error (Failure.logic_error "connection closed"))])) ∧
    ((stringified_rows Nat.repr example_result_table).take 1).map
        (fun row => (row, (Except.ok () : Except Failure Unit))) ++
      [(["2", "4"], Except.error (Failure.logic_error "connection closed"))] =
      [(["1", "3"], Except.ok ()),
        (["2", "4"], Except.error (Failure.logic_error "connection closed"))] :=
  ⟨send_query_response_stops_at_failed_send send_row_failing_second Nat.repr
      example_result_table (by decide) 8 (by decide) 0 1 2 1 ["2", "4"]
      (Failure.logic_error "connection closed") (by rfl) (by rfl) (by rfl),
    by rfl⟩

/-! ## Claims on the server tasks -/

/-- C17 (counterexample): on the table of three rows, with a `send_data_row` that never
raises and whose futures all resolve to a failure, `SendQueryResponseTask::_on_execute`
passes all three rows on and completes its promise with the row count 3, not with the
failure. -/
theorem on_execute_ignores_failed_future :
    (∀ row s, (send_data_row_failing_future row s).1 =
      Except.ok (Except.error (Failure.logic_error "connection closed"))) ∧
    SendQueryResponseTask._on_execute (recording_send_data_row send_data_row_failing_future)
        Nat.repr example_result_table ((), []) =
      { promise := [PromiseCall.set_value 3], escaped := none,
        state := ((), [["1", "3"], ["2", "4"], ["5", "6"]]) } :=
  ⟨fun _ _ => rfl, by rfl⟩

/-- C17 (amended): in `SendQueryResponseTask::_on_execute`, on a consistent result table,
a failure of the future that `send_data_row` returns is ignored: when no call of
`send_data_row` raises, every row is passed on, in storage order, and the promise is
completed with the row count (as an `unsigned int`), whatever the futures resolve to.
Only a failure that the call itself raises completes the promise with that failure and
not with a row count: when the calls on the first `k` rows return and the call on the
next row raises an exception, these `k + 1` rows are the ones passed on and the promise
is completed with that exception. -/
theorem on_execute_send_data_row_failures {σ Cell : Type} (send_data_row : send_data_row_t σ)
    (type_cast : Cell → String) (table : ResultTable Cell) (hc : table.consistent) (s : σ) :
    ((∀ row s, ∃ future, (send_data_row row s).1 = Except.ok future) →
      ∃ s1, SendQueryResponseTask._on_execute (recording_send_data_row send_data_row) type_cast
          table (s, []) =
        { promise := [PromiseCall.set_value (table.row_count % UINT32_MOD)], escaped := none,
          state := (s1, stringified_rows type_cast table) }) ∧
    (∀ (k count : Nat) (row : List String) (failure : Failure) (s1 s2 : σ),
      (stringified_rows type_cast table)[k]? = some row →
      send_data_row_all send_data_row ((stringified_rows type_cast table).take k) 0 s =
        (Except.ok count, s1) →
      send_data_row row s1 = (Except.error failure, s2) →
      failure.is_std_exception = true →
      SendQueryResponseTask._on_execute (recording_send_data_row send_data_row) type_cast
          table (s, []) =
        { promise := [PromiseCall.set_exception failure], escaped := none,
          state := (s2, (stringified_rows type_cast table).take k ++ [row]) }) := by
  constructor
  · intro hreturns
    obtain ⟨s1, hall⟩ := send_data_row_all_of_no_raise send_data_row hreturns
      (stringified_rows type_cast table) 0 s (by decide)
    have hrec := send_data_row_all_recording send_data_row (stringified_rows type_cast table)
      0 _ s s1 [] hall
    refine ⟨s1, ?_⟩
    simp only [SendQueryResponseTask._on_execute,
      send_query_response_task_try_block_eq _ type_cast table hc, hrec, Nat.zero_add,
      stringified_rows_length, List.nil_append]
  · intro k count row failure s1 s2 hrow hbefore hraise hstd
    have hk : k < (stringified_rows type_cast table).length := by
      by_contra hge
      rw [List.getElem?_eq_none (by omega)] at hrow
      exact Option.noConfusion hrow
    have hrowk : (stringified_rows type_cast table)[k] = row := by
      rw [List.getElem?_eq_getElem hk] at hrow
      exact Option.some.inj hrow
    have hsplit : stringified_rows type_cast table =
        (stringified_rows type_cast table).take k ++
          row :: (stringified_rows type_cast table).drop (k + 1) := by
      rw [← hrowk, ← List.drop_eq_getElem_cons hk, List.take_append_drop]
    have hrec := send_data_row_all_recording send_data_row
      ((stringified_rows type_cast table).take k) 0 count s s1 [] hbefore
    have htry : SendQueryResponseTask.try_block (recording_send_data_row send_data_row)
        type_cast table (s, []) =
        (Except.error failure, (s2, (stringified_rows type_cast table).take k ++ [row])) := by
      rw [send_query_response_task_try_block_eq _ type_cast table hc]
      conv => lhs; rw [hsplit]
      rw [send_data_row_all_append, hrec]
      simp only [send_data_row_all, recording_send_data_row, hraise, List.nil_append]
    simp only [SendQueryResponseTask._on_execute, htry, hstd, if_true, set_exception_current]

/-- Witness for C17 (amended): on the table of three rows, a `send_data_row` whose
futures all fail leaves the promise completed with 3, and a `send_data_row` whose
second call raises leaves it completed with the exception raised, after two rows. -/
theorem on_execute_send_data_row_failures_witness :
    (∃ s1, SendQueryResponseTask._on_execute
        (recording_send_data_row send_data_row_failing_future) Nat.repr example_result_table
        ((), []) =
      { promise := [PromiseCall.set_value (example_result_table.row_count % UINT32_MOD)],
        escaped := none, state := (s1, stringified_rows Nat.repr example_result_table) }) ∧
    SendQueryResponseTask._on_execute (recording_send_data_row send_data_row_raising_second)
        Nat.repr example_result_table (0, []) =
      { promise := [PromiseCall.set_exception (Failure.logic_error "connection closed")],
        escaped := none,
        state := (2, (stringified_rows Nat.repr example_result_table).take 1 ++ [["2", "4"]]) } :=
  ⟨(on_execute_send_data_row_failures send_data_row_failing_future Nat.repr
      example_result_table (by decide) ()).1 (fun _ _ => ⟨_, rfl⟩),
    (on_execute_send_data_row_failures send_data_row_raising_second Nat.repr
      example_result_table (by decide) 0).2 1 1 ["2", "4"]
      (Failure.logic_error "connection closed") 1 2 (by rfl) (by rfl) (by rfl) (by rfl)⟩

end opossum

namespace opossum

/-- C18 (amended): a run of `SendQueryResponseTask::_on_execute` or of
`LoadServerFileTask::_on_execute` makes at most one call on its promise, never both.
When the `try` block finishes normally the one call is `set_value` (with the row count,
or with nothing); when it raises an exception, which the handler
`catch (std::exception&)` receives, the one call is `set_exception`; and when it ends
in a failure that is not an exception, the handler does not receive it, the failure
leaves `_on_execute`, and no call is made on the promise. Exactly one call is made
precisely in the runs that no failure leaves. -/
theorem server_tasks_complete_promise_at_most_once {σ τ Cell T : Type}
    (send_data_row : send_data_row_t σ) (type_cast : Cell → String)
    (result_table : ResultTable Cell) (s : σ) (load_table : String → Nat → Except Failure T)
    (add_table : String → T → τ → Except Failure Unit × τ) (MAX_SIZE : Nat)
    (file_name table_name : String) (storage : τ) :
    ((∀ row_count s1,
        SendQueryResponseTask.try_block send_data_row type_cast result_table s =
          (Except.ok row_count, s1) →
        SendQueryResponseTask._on_execute send_data_row type_cast result_table s =
          { promise := [PromiseCall.set_value row_count], escaped := none, state := s1 }) ∧
      (∀ failure s1,
        SendQueryResponseTask.try_block send_data_row type_cast result_table s =
          (Except.error failure, s1) →
        failure.is_std_exception = true →
        SendQueryResponseTask._on_execute send_data_row type_cast result_table s =
          { promise := [PromiseCall.set_exception failure], escaped := none, state := s1 }) ∧
      (∀ failure s1,
        SendQueryResponseTask.try_block send_data_row type_cast result_table s =
          (Except.error failure, s1) →
        failure.is_std_exception = false →
        SendQueryResponseTask._on_execute send_data_row type_cast result_table s =
          { promise := [], escaped := some failure, state := s1 }) ∧
      (SendQueryResponseTask._on_execute send_data_row type_cast result_table s).promise.length
        ≤ 1 ∧
      ((SendQueryResponseTask._on_execute send_data_row type_cast result_table
          s).promise.length = 1 ↔
        (SendQueryResponseTask._on_execute send_data_row type_cast result_table s).escaped =
          none)) ∧
    ((∀ storage1,
        LoadServerFileTask.try_block load_table add_table MAX_SIZE file_name table_name storage =
          (Except.ok (), storage1) →
        LoadServerFileTask._on_execute load_table add_table MAX_SIZE file_name table_name
            storage =
          { promise := [PromiseCall.set_value ()], escaped := none, state := storage1 }) ∧
      (∀ failure storage1,
        LoadServerFileTask.try_block load_table add_table MAX_SIZE file_name table_name storage =
          (Except.error failure, storage1) →
        failure.is_std_exception = true →
        LoadServerFileTask._on_execute load_table add_table MAX_SIZE file_name table_name
            storage =
          { promise := [PromiseCall.set_exception Failure.std_exception], escaped := none,
            state := storage1 }) ∧
      (∀ failure storage1,
        LoadServerFileTask.try_block load_table add_table MAX_SIZE file_name table_name storage =
          (Except.error failure, storage1) →
        failure.is_std_exception = false →
        LoadServerFileTask._on_execute load_table add_table MAX_SIZE file_name table_name
            storage =
          { promise := [], escaped := some failure, state := storage1 }) ∧
      (LoadServerFileTask._on_execute load_table add_table MAX_SIZE file_name table_name
        storage).promise.length ≤ 1 ∧
      ((LoadServerFileTask._on_execute load_table add_table MAX_SIZE file_name table_name
          storage).promise.length = 1 ↔
        (LoadServerFileTask._on_execute load_table add_table MAX_SIZE file_name table_name
          storage).escaped = none)) := by
  refine ⟨⟨?_, ?_, ?_, ?_, ?_⟩, ⟨?_, ?_, ?_, ?_, ?_⟩⟩
  · intro row_count s1 h
    simp only [SendQueryResponseTask._on_execute, h]
  · intro failure s1 h hstd
    simp only [SendQueryResponseTask._on_execute, h, hstd, if_true, set_exception_current]
  · intro failure s1 h hstd
    simp [SendQueryResponseTask._on_execute, h, hstd]
  · unfold SendQueryResponseTask._on_execute
    rcases SendQueryResponseTask.try_block send_data_row type_cast result_table s with
      ⟨outcome, s1⟩
    cases outcome with
    | ok row_count => simp
    | error failure =>
      by_cases hstd : failure.is_std_exception = true
      · simp [hstd]
      · simp [hstd]
  · unfold SendQueryResponseTask._on_execute
    rcases SendQueryResponseTask.try_block send_data_row type_cast result_table s with
      ⟨outcome, s1⟩
    cases outcome with
    | ok row_count => simp
    | error failure =>
      by_cases hstd : failure.is_std_exception = true
      · simp [hstd]
      · simp [hstd]
  · intro storage1 h
    simp only [LoadServerFileTask._on_execute, h]
  · intro failure storage1 h hstd
    simp only [LoadServerFileTask._on_execute, h, hstd, if_true, set_exception_by_value]
  · intro failure storage1 h hstd
    simp [LoadServerFileTask._on_execute, h, hstd]
  · unfold LoadServerFileTask._on_execute
    rcases LoadServerFileTask.try_block load_table add_table MAX_SIZE file_name table_name
        storage with ⟨outcome, storage1⟩
    cases outcome with
    | ok u => simp
    | error failure =>
      by_cases hstd : failure.is_std_exception = true
      · simp [hstd]
      · simp [hstd]
  · unfold LoadServerFileTask._on_execute
    rcases LoadServerFileTask.try_block load_table add_table MAX_SIZE file_name table_name
        storage with ⟨outcome, storage1⟩
    cases outcome with
    | ok u => simp
    | error failure =>
      by_cases hstd : failure.is_std_exception = true
      · simp [hstd]
      · simp [hstd]

/-- Witness for C18 (amended): a run of each task that finishes normally, and a run of
`SendQueryResponseTask::_on_execute` in which the second call of `send_data_row` raises
an exception; each makes one call on its promise. -/
theorem server_tasks_complete_promise_at_most_once_witness :
    SendQueryResponseTask._on_execute send_data_row_failing_future Nat.repr
        example_result_table () =
      { promise := [PromiseCall.set_value 3], escaped := none, state := () } ∧
    SendQueryResponseTask._on_execute send_data_row_raising_second Nat.repr
        example_result_table 0 =
      { promise := [PromiseCall.set_exception (Failure.logic_error "connection closed")],
        escaped := none, state := 2 } ∧
    LoadServerFileTask._on_execute load_table_one_column add_table_by_name 100 "int.tbl" "foo"
        [] =
      { promise := [PromiseCall.set_value ()], escaped := none,
        state := [("foo", ⟨["a"], [DataType.Int]⟩)] } ∧
    (LoadServerFileTask._on_execute load_table_one_column add_table_by_name 100 "int.tbl" "foo"
        [("foo", ⟨[], []⟩)]).promise.length ≤ 1 :=
  ⟨(server_tasks_complete_promise_at_most_once send_data_row_failing_future Nat.repr
      example_result_table () load_table_one_column add_table_by_name 100 "int.tbl" "foo"
      []).1.1 3 () (by rfl),
    (server_tasks_complete_promise_at_most_once send_data_row_raising_second Nat.repr
      example_result_table 0 load_table_one_column add_table_by_name 100 "int.tbl" "foo"
      []).1.2.1 (Failure.logic_error "connection closed") 2 (by rfl) (by rfl),
    (server_tasks_complete_promise_at_most_once send_data_row_failing_future Nat.repr
      example_result_table () load_table_one_column add_table_by_name 100 "int.tbl" "foo"
      []).2.1 [("foo", ⟨["a"], [DataType.Int]⟩)] (by rfl),
    (server_tasks_complete_promise_at_most_once send_data_row_failing_future Nat.repr
      example_result_table () load_table_one_column add_table_by_name 100 "int.tbl" "foo"
      [("foo", ⟨[], []⟩)]).2.2.2.2.1⟩

/-- C18 (counterexample): runs that complete the promise by neither call. The file
that `load_table` reads ends it in `Fail`, and the second call of `send_data_row` ends
in `Fail`: the failure is not an exception, the handler `catch (std::exception&)` does
not receive it, and `_on_execute` is left with no call made on the promise (and, for
`LoadServerFileTask`, with no table added). -/
theorem on_execute_leaves_promise_incomplete :
    LoadServerFileTask._on_execute load_table_fatal add_table_by_name 100 "int.tbl" "foo" [] =
      { promise := [], escaped := some (Failure.fatal "Cannot read int.tbl"), state := [] } ∧
    (LoadServerFileTask._on_execute load_table_fatal add_table_by_name 100 "int.tbl" "foo"
      []).promise.length ≠ 1 ∧
    SendQueryResponseTask._on_execute (recording_send_data_row send_data_row_fatal_second)
        Nat.repr example_result_table (0, []) =
      { promise := [], escaped := some (Failure.fatal "Connection is gone"),
        state := (2, [["1", "3"], ["2", "4"]]) } ∧
    (SendQueryResponseTask._on_execute (recording_send_data_row send_data_row_fatal_second)
      Nat.repr example_result_table (0, [])).promise.length ≠ 1 := by
  refine ⟨by rfl, by decide, by rfl, ?_⟩
  have h : SendQueryResponseTask._on_execute
      (recording_send_data_row send_data_row_fatal_second) Nat.repr example_result_table
      (0, []) =
      { promise := [], escaped := some (Failure.fatal "Connection is gone"),
        state := (2, [["1", "3"], ["2", "4"]]) } := by rfl
  rw [h]
  decide

/-- C19 (the code at the failing input): `load_table` raises a `std::logic_error` with
the message `Could not find file int.tbl`. The promise of
`LoadServerFileTask::_on_execute` is completed with an exception and no value is
set, and the storage manager is left without a table; but the exception stored is an
object of the class `std::exception`, not the failure raised, and its message is not
the message of that failure. -/
theorem load_server_file_task_stores_sliced_exception :
    load_table_no_file "int.tbl" 100 =
      Except.error (Failure.logic_error "Could not find file int.tbl") ∧
    LoadServerFileTask._on_execute load_table_no_file add_table_by_name 100 "int.tbl" "foo" [] =
      { promise := [PromiseCall.set_exception Failure.std_exception], escaped := none,
        state := [] } ∧
    Failure.std_exception ≠ Failure.logic_error "Could not find file int.tbl" ∧
    Failure.what Failure.std_exception ≠
      Failure.what (Failure.logic_error "Could not find file int.tbl") := by
  refine ⟨by rfl, by rfl, by decide, by decide⟩

end opossum

namespace opossum

/-! ## The session state machine -/

/-- The failure path only adds calls. -/
theorem session_error_path_trace {Cell : Type} (failure : Failure) (trace : List SessionCall) :
    ∃ rest, (session_error_path failure trace : SessionState Cell × List SessionCall).2 =
      trace ++ rest :=
  ⟨_, rfl⟩

/-- A transition of the session only adds calls to the calls made so far. -/
theorem session_step_trace {Cell : Type} (env : SessionEnvironment Cell)
    (configuration : SessionState Cell × List SessionCall) :
    ∃ rest, (session_step env configuration).2 = configuration.2 ++ rest := by
  obtain ⟨state, trace⟩ := configuration
  cases state with
  | Start => exact ⟨[], by simp [session_step]⟩
  | AwaitingStartupHeader =>
    simp only [session_step]
    split
    · exact ⟨_, rfl⟩
    · split <;> exact ⟨_, rfl⟩
  | SslDenied => exact ⟨_, rfl⟩
  | AwaitingStartupContents remaining_length =>
    simp only [session_step]
    split
    · exact ⟨_, rfl⟩
    · exact ⟨_, by simp only [List.append_assoc]; rfl⟩
  | CommandLoop => exact ⟨[], by simp [session_step]⟩
  | AwaitingCommandHeader =>
    simp only [session_step]
    split
    · exact ⟨_, rfl⟩
    · split
      · exact ⟨_, rfl⟩
      · split <;> exact ⟨_, rfl⟩
  | AwaitingCommandContents payload_length =>
    simp only [session_step]
    split
    · exact ⟨_, by simp only [session_error_path, List.append_assoc]; rfl⟩
    · split <;> exact ⟨_, rfl⟩
  | Executing query =>
    simp only [session_step]
    split
    · exact ⟨_, by simp only [session_error_path, List.append_assoc]; rfl⟩
    · split
      · exact ⟨_, by simp only [session_error_path, List.append_assoc]; rfl⟩
      · exact ⟨_, by simp only [List.append_assoc]; rfl⟩
  | Responding statement_type result_table =>
    simp only [session_step]
    split
    · split
      · exact ⟨_, rfl⟩
      · exact ⟨[], by simp⟩
    · split
      · exact ⟨_, by simp only [session_error_path, List.append_assoc]; rfl⟩
      · split
        · exact ⟨_, by simp only [session_error_path, List.append_assoc]; rfl⟩
        · split
          · exact ⟨_, by simp only [session_error_path, List.append_assoc]; rfl⟩
          · split
            · exact ⟨_, by simp only [session_error_path, List.append_assoc]; rfl⟩
            · exact ⟨_, by simp only [List.append_assoc]; rfl⟩
  | Closed => exact ⟨[], by simp [session_step]⟩
  | Aborted failure => exact ⟨[], by simp [session_step]⟩
  | Unspecified => exact ⟨[], by simp [session_step]⟩

/-- A run of the session only adds calls to the calls made so far. -/
theorem session_run_trace {Cell : Type} (env : SessionEnvironment Cell) (fuel : Nat) :
    ∀ configuration : SessionState Cell × List SessionCall,
      ∃ rest, (session_run env fuel configuration).2 = configuration.2 ++ rest := by
  induction fuel with
  | zero => intro configuration; exact ⟨[], by simp [session_run]⟩
  | succ fuel ih =>
    intro configuration
    obtain ⟨rest1, h1⟩ := session_step_trace env configuration
    obtain ⟨rest2, h2⟩ := ih (session_step env configuration)
    exact ⟨rest1 ++ rest2, by rw [session_run, h2, h1, List.append_assoc]⟩

/-- A run of the session can be cut in two. -/
theorem session_run_add {Cell : Type} (env : SessionEnvironment Cell) (fuel more : Nat) :
    ∀ configuration : SessionState Cell × List SessionCall,
      session_run env (fuel + more) configuration =
        session_run env more (session_run env fuel configuration) := by
  induction fuel with
  | zero => intro configuration; simp [session_run]
  | succ fuel ih =>
    intro configuration
    rw [Nat.add_right_comm, session_run, ih]
    rfl

/-! ## Claims on the session -/

/-- C20: for every valid non-SSL startup, that is whenever the session awaits a startup
header after any calls `trace`, `receive_startup_packet_header` resolves to `n > 0` and
the read of the contents succeeds, the session calls
`receive_startup_packet_contents` with exactly `n`, then sends one authentication-ok,
then one ready-for-query, and is then at the command loop; in every longer run these
four calls are followed by the first `receive_packet_header`, with no other call in
between. A session started with `start()` awaits its first startup header with no
call made. -/
theorem session_startup_sequence {Cell : Type} (env : SessionEnvironment Cell)
    (trace : List SessionCall) (n : Nat)
    (hheader : env.receive_startup_packet_header
      (trace ++ [SessionCall.receive_startup_packet_header]) = Except.ok n)
    (hn : 0 < n)
    (hcontents : env.receive_startup_packet_contents
      (trace ++ [SessionCall.receive_startup_packet_header] ++
        [SessionCall.receive_startup_packet_contents n]) = Except.ok ()) :
    session_run env 3 (SessionState.AwaitingStartupHeader, trace) =
      (SessionState.AwaitingCommandHeader,
        trace ++ [SessionCall.receive_startup_packet_header,
          SessionCall.receive_startup_packet_contents n, SessionCall.send_auth,
          SessionCall.send_ready_for_query]) ∧
    ∀ fuel, 4 ≤ fuel → ∃ rest,
      (session_run env fuel (SessionState.AwaitingStartupHeader, trace)).2 =
        trace ++ [SessionCall.receive_startup_packet_header,
          SessionCall.receive_startup_packet_contents n, SessionCall.send_auth,
          SessionCall.send_ready_for_query] ++ SessionCall.receive_packet_header :: rest := by
  have h3 : session_run env 3 (SessionState.AwaitingStartupHeader, trace) =
      (SessionState.AwaitingCommandHeader,
        trace ++ [SessionCall.receive_startup_packet_header,
          SessionCall.receive_startup_packet_contents n, SessionCall.send_auth,
          SessionCall.send_ready_for_query]) := by
    have hstep1 : session_step env (SessionState.AwaitingStartupHeader, trace) =
        (SessionState.AwaitingStartupContents n,
          trace ++ [SessionCall.receive_startup_packet_header]) := by
      simp only [session_step, hheader, if_neg (Nat.pos_iff_ne_zero.mp hn)]
    have hstep2 : session_step env (SessionState.AwaitingStartupContents n,
        trace ++ [SessionCall.receive_startup_packet_header]) =
        (SessionState.CommandLoop,
          trace ++ [SessionCall.receive_startup_packet_header] ++
            [SessionCall.receive_startup_packet_contents n] ++
            [SessionCall.send_auth, SessionCall.send_ready_for_query]) := by
      simp only [session_step, hcontents]
    simp only [session_run, hstep1, hstep2]
    simp only [session_step, List.append_assoc, List.singleton_append, List.cons_append,
      List.nil_append]
  refine ⟨h3, ?_⟩
  intro fuel hfuel
  obtain ⟨more, rfl⟩ : ∃ more, fuel = 3 + (1 + more) := ⟨fuel - 4, by omega⟩
  rw [session_run_add, h3, session_run_add]
  obtain ⟨rest1, h1⟩ : ∃ rest1, (session_run env 1 ((SessionState.AwaitingCommandHeader,
      trace ++ [SessionCall.receive_startup_packet_header,
        SessionCall.receive_startup_packet_contents n, SessionCall.send_auth,
        SessionCall.send_ready_for_query]) : SessionState Cell × List SessionCall)).2 =
      trace ++ [SessionCall.receive_startup_packet_header,
        SessionCall.receive_startup_packet_contents n, SessionCall.send_auth,
        SessionCall.send_ready_for_query] ++ SessionCall.receive_packet_header :: rest1 := by
    simp only [session_run, session_step]
    split
    · exact ⟨[], rfl⟩
    · split
      · exact ⟨[], rfl⟩
      · split <;> exact ⟨[], rfl⟩
  obtain ⟨rest2, h2⟩ := session_run_trace env more (session_run env 1
    ((SessionState.AwaitingCommandHeader,
      trace ++ [SessionCall.receive_startup_packet_header,
        SessionCall.receive_startup_packet_contents n, SessionCall.send_auth,
        SessionCall.send_ready_for_query]) : SessionState Cell × List SessionCall))
  exact ⟨rest1 ++ rest2, by rw [h2, h1]; simp only [List.append_assoc, List.cons_append]⟩

/-- Witness for C20: the session of the test `SessionPerformsStartup`, started with
`start()`: the startup header announces 42 bytes, and the calls are the read of the
header, the read of 42 bytes of contents, authentication-ok, ready-for-query, and then
the first read of a command header. -/
theorem session_startup_sequence_witness :
    session_start example_session_environment 4 =
      (SessionState.AwaitingCommandHeader,
        [SessionCall.receive_startup_packet_header,
          SessionCall.receive_startup_packet_contents 42, SessionCall.send_auth,
          SessionCall.send_ready_for_query]) ∧
    (session_start example_session_environment 9).2 =
      [SessionCall.receive_startup_packet_header,
        SessionCall.receive_startup_packet_contents 42, SessionCall.send_auth,
        SessionCall.send_ready_for_query, SessionCall.receive_packet_header] :=
  ⟨(session_startup_sequence example_session_environment [] 42 (by rfl) (by decide)
      (by rfl)).1,
    by rfl⟩

end opossum

namespace opossum

/-! ## Undersized declared lengths -/

/-- C30: neither decoder rejects an undersized declared length, and the subtraction
wraps as an unsigned 32-bit one. For a header whose length field `L` is less than 4,
`handle_header` returns `payload_length = L + 2^32 - 4`, which is `(L - 4) mod 2^32` and
at least `2^32 - 4`; for a startup packet whose version is not the SSL sentinel and
whose length field `L` is less than 8, `handle_startup_package` returns
`L + 2^32 - 8`, which is `(L - 8) mod 2^32`. -/
theorem decoders_wrap_undersized_length (e : Endianness) :
    (∀ (t b0 b1 b2 b3 : Byte) (rest : ByteBuffer), big_endian_uint32 b0 b1 b2 b3 < 4 →
      handle_header e ⟨t :: b0 :: b1 :: b2 :: b3 :: rest, 0⟩ =
        some (⟨t, big_endian_uint32 b0 b1 b2 b3 + 2 ^ 32 - 4⟩,
          ⟨t :: b0 :: b1 :: b2 :: b3 :: rest, 0⟩) ∧
      ((big_endian_uint32 b0 b1 b2 b3 + 2 ^ 32 - 4 : Nat) : Int) =
        ((big_endian_uint32 b0 b1 b2 b3 : Int) - 4) % 2 ^ 32 ∧
      2 ^ 32 - 4 ≤ big_endian_uint32 b0 b1 b2 b3 + 2 ^ 32 - 4) ∧
    (∀ (b0 b1 b2 b3 b4 b5 b6 b7 : Byte) (rest : ByteBuffer),
      big_endian_uint32 b4 b5 b6 b7 ≠ SSL_REQUEST_VERSION →
      big_endian_uint32 b0 b1 b2 b3 < 8 →
      handle_startup_package e ⟨b0 :: b1 :: b2 :: b3 :: b4 :: b5 :: b6 :: b7 :: rest, 0⟩ =
        some (big_endian_uint32 b0 b1 b2 b3 + 2 ^ 32 - 8,
          ⟨b0 :: b1 :: b2 :: b3 :: b4 :: b5 :: b6 :: b7 :: rest, 0⟩) ∧
      ((big_endian_uint32 b0 b1 b2 b3 + 2 ^ 32 - 8 : Nat) : Int) =
        ((big_endian_uint32 b0 b1 b2 b3 : Int) - 8) % 2 ^ 32) := by
  constructor
  · intro t b0 b1 b2 b3 rest hlt
    have hmod : (big_endian_uint32 b0 b1 b2 b3 + (2 ^ 32 - 4)) % 2 ^ 32 =
        big_endian_uint32 b0 b1 b2 b3 + 2 ^ 32 - 4 := by omega
    refine ⟨?_, ?_, ?_⟩
    · rw [handle_header_cons, hmod]
    · omega
    · omega
  · intro b0 b1 b2 b3 b4 b5 b6 b7 rest hversion hlt
    have hmod : (big_endian_uint32 b0 b1 b2 b3 + (2 ^ 32 - 8)) % 2 ^ 32 =
        big_endian_uint32 b0 b1 b2 b3 + 2 ^ 32 - 8 := by omega
    refine ⟨?_, ?_⟩
    · rw [handle_startup_package_cons, if_neg (by intro h; exact hversion h), hmod]
    · omega

/-- Witness for C30: a termination header that declares the length 0 yields the payload
length `2^32 - 4`, and a startup packet of protocol 3.0 that declares the length 7
yields `2^32 - 1` bytes to read. -/
theorem decoders_wrap_undersized_length_witness :
    handle_header Endianness.little ⟨[88, 0, 0, 0, 0], 0⟩ =
      some (⟨88, 4294967292⟩, ⟨[88, 0, 0, 0, 0], 0⟩) ∧
    handle_startup_package Endianness.little ⟨[0, 0, 0, 7, 0, 3, 0, 0], 0⟩ =
      some (4294967295, ⟨[0, 0, 0, 7, 0, 3, 0, 0], 0⟩) :=
  ⟨((decoders_wrap_undersized_length Endianness.little).1 88 0 0 0 0 [] (by decide)).1,
    ((decoders_wrap_undersized_length Endianness.little).2 0 0 0 7 0 3 0 0 [] (by decide)
      (by decide)).1⟩

end opossum

namespace opossum

/-! ## Transitions of the session -/

/-- What one transition of the session adds to the calls made so far, by the state it
starts from and the state it reaches: an authentication-ok is only sent after a
successful read of the startup contents, a command header is only read in the state
that awaits one, the command loop is only entered or re-entered behind a
ready-for-query, and startup contents are only awaited behind a startup header that
announced a positive length. -/
theorem session_step_added {Cell : Type} (env : SessionEnvironment Cell)
    (state : SessionState Cell) (trace : List SessionCall) :
    ∃ added, (session_step env (state, trace)).2 = trace ++ added ∧
      (SessionCall.send_auth ∈ added → ∃ n, state = SessionState.AwaitingStartupContents n ∧
        added = [SessionCall.receive_startup_packet_contents n, SessionCall.send_auth,
          SessionCall.send_ready_for_query] ∧
        env.receive_startup_packet_contents
          (trace ++ [SessionCall.receive_startup_packet_contents n]) = Except.ok ()) ∧
      (SessionCall.receive_packet_header ∈ added →
        state = SessionState.AwaitingCommandHeader ∧
        added = [SessionCall.receive_packet_header]) ∧
      ((session_step env (state, trace)).1 = SessionState.AwaitingCommandHeader →
        (state = SessionState.CommandLoop ∧ added = []) ∨
        added.getLast? = some SessionCall.send_ready_for_query) ∧
      ((session_step env (state, trace)).1 = SessionState.CommandLoop →
        added.getLast? = some SessionCall.send_ready_for_query) ∧
      (∀ n, (session_step env (state, trace)).1 = SessionState.AwaitingStartupContents n →
        added = [SessionCall.receive_startup_packet_header] ∧
        env.receive_startup_packet_header
          (trace ++ [SessionCall.receive_startup_packet_header]) = Except.ok n ∧ n ≠ 0) := by
  cases state <;> simp only [session_step, session_error_path] <;> (repeat' split) <;>
    (try simp only [List.append_assoc, List.singleton_append, List.cons_append,
      List.nil_append]) <;>
    first
    | (refine ⟨_, rfl, ?_⟩; simp_all)
    | (refine ⟨[], (List.append_nil _).symm, ?_⟩; simp_all)

end opossum

namespace opossum

/-- An element of two lists put together lies in the first or in the second one. -/
theorem append_eq_append_cons {α : Type} {trace added pre post : List α} {x : α}
    (h : trace ++ added = pre ++ x :: post) :
    (∃ post', trace = pre ++ x :: post' ∧ post = post' ++ added) ∨
    (∃ pre', pre = trace ++ pre' ∧ added = pre' ++ x :: post) := by
  rcases List.append_eq_append_iff.mp h with ⟨pre', h1, h2⟩ | ⟨rest, h1, h2⟩
  · exact Or.inr ⟨pre', h1, h2⟩
  · cases rest with
    | nil =>
      refine Or.inr ⟨[], ?_, ?_⟩
      · simpa using h1.symm
      · simpa using h2.symm
    | cons y rest =>
      simp only [List.cons_append, List.cons.injEq] at h2
      refine Or.inl ⟨rest, ?_, h2.2⟩
      rw [h1, h2.1]

/-- A session that is closed stays closed and makes no more calls. -/
theorem session_run_closed {Cell : Type} (env : SessionEnvironment Cell) (fuel : Nat)
    (trace : List SessionCall) :
    session_run env fuel (SessionState.Closed, trace) = (SessionState.Closed, trace) := by
  induction fuel with
  | zero => rfl
  | succ fuel ih => rw [session_run]; exact ih

/-- A session that awaits a command header reads one next, in every run of at least one
transition. -/
theorem session_run_command_header {Cell : Type} (env : SessionEnvironment Cell)
    (trace : List SessionCall) (fuel : Nat) (hfuel : 1 ≤ fuel) :
    ∃ rest, (session_run env fuel (SessionState.AwaitingCommandHeader, trace)).2 =
      trace ++ SessionCall.receive_packet_header :: rest := by
  obtain ⟨more, rfl⟩ : ∃ more, fuel = 1 + more := ⟨fuel - 1, by omega⟩
  rw [session_run_add]
  obtain ⟨rest1, h1⟩ : ∃ rest1, (session_run env 1
      ((SessionState.AwaitingCommandHeader, trace) : SessionState Cell × List SessionCall)).2 =
      trace ++ SessionCall.receive_packet_header :: rest1 := by
    simp only [session_run, session_step]
    split
    · exact ⟨[], rfl⟩
    · split
      · exact ⟨[], rfl⟩
      · split <;> exact ⟨[], rfl⟩
  obtain ⟨rest2, h2⟩ := session_run_trace env more (session_run env 1
    ((SessionState.AwaitingCommandHeader, trace) : SessionState Cell × List SessionCall))
  exact ⟨rest1 ++ rest2, by rw [h2, h1]; simp only [List.append_assoc, List.cons_append]⟩

/-- A property of configurations that every transition keeps holds after every run. -/
theorem session_run_invariant {Cell : Type} (env : SessionEnvironment Cell)
    (P : SessionState Cell × List SessionCall → Prop)
    (hstep : ∀ configuration, P configuration → P (session_step env configuration))
    (fuel : Nat) :
    ∀ configuration, P configuration → P (session_run env fuel configuration) := by
  induction fuel with
  | zero => intro configuration h; exact h
  | succ fuel ih =>
    intro configuration h
    rw [session_run]
    exact ih _ (hstep _ h)

end opossum

namespace opossum

/-! ## Invariants of the session -/

/-- Every transition keeps: every authentication-ok directly follows a successful
startup, and startup contents are only awaited right after a startup header that
announced a positive length. -/
theorem session_step_auth_follows_startup {Cell : Type} (env : SessionEnvironment Cell)
    (configuration : SessionState Cell × List SessionCall)
    (h : auth_follows_startup env configuration.2 ∧
      ∀ n, configuration.1 = SessionState.AwaitingStartupContents n →
        n ≠ 0 ∧ ∃ pre, configuration.2 = pre ++ [SessionCall.receive_startup_packet_header] ∧
          env.receive_startup_packet_header
            (pre ++ [SessionCall.receive_startup_packet_header]) = Except.ok n) :
    auth_follows_startup env (session_step env configuration).2 ∧
      ∀ n, (session_step env configuration).1 = SessionState.AwaitingStartupContents n →
        n ≠ 0 ∧ ∃ pre, (session_step env configuration).2 =
            pre ++ [SessionCall.receive_startup_packet_header] ∧
          env.receive_startup_packet_header
            (pre ++ [SessionCall.receive_startup_packet_header]) = Except.ok n := by
  obtain ⟨state, trace⟩ := configuration
  obtain ⟨hauth, hstate⟩ := h
  obtain ⟨added, htrace, q1, _, _, _, q5⟩ := session_step_added env state trace
  constructor
  · intro pre post hsplit
    rw [htrace] at hsplit
    rcases append_eq_append_cons hsplit with ⟨post', h1, _⟩ | ⟨pre1, h1, h2⟩
    · exact hauth pre post' h1
    · have hmem : SessionCall.send_auth ∈ added := by
        rw [h2]
        exact List.mem_append_right _ (List.mem_cons_self _ _)
      obtain ⟨n, hs, hadded, hcontents⟩ := q1 hmem
      obtain ⟨hn, p, hp, hheader⟩ := hstate n hs
      have hpre1 : pre1 = [SessionCall.receive_startup_packet_contents n] := by
        rw [hadded] at h2
        match pre1, h2 with
        | [], h2 => simp at h2
        | [a], h2 =>
          simp only [List.cons_append, List.nil_append, List.cons.injEq] at h2
          rw [h2.1]
        | a :: b :: [], h2 => simp at h2
        | a :: b :: c :: rest, h2 => simp at h2
      simp only at hp
      refine ⟨p, n, hn, ?_, hheader, ?_⟩
      · rw [h1, hpre1, hp]
        simp
      · rw [hp] at hcontents
        simpa using hcontents
  · intro n hn
    obtain ⟨hadded, hheader, hne⟩ := q5 n hn
    exact ⟨hne, trace, by rw [htrace, hadded], hheader⟩

/-- Every transition keeps: every read of a command header directly follows a
ready-for-query, and the states of the command loop that are about to read a command
header are only reached right after a ready-for-query. -/
theorem session_step_ready_before_command_header {Cell : Type} (env : SessionEnvironment Cell)
    (configuration : SessionState Cell × List SessionCall)
    (h : ready_before_command_header configuration.2 ∧
      (configuration.1 = SessionState.AwaitingCommandHeader ∨
          configuration.1 = SessionState.CommandLoop →
        ∃ pre, configuration.2 = pre ++ [SessionCall.send_ready_for_query])) :
    ready_before_command_header (session_step env configuration).2 ∧
      ((session_step env configuration).1 = SessionState.AwaitingCommandHeader ∨
          (session_step env configuration).1 = SessionState.CommandLoop →
        ∃ pre, (session_step env configuration).2 =
          pre ++ [SessionCall.send_ready_for_query]) := by
  obtain ⟨state, trace⟩ := configuration
  obtain ⟨hready, hstate⟩ := h
  obtain ⟨added, htrace, _, q2, q3, q4, _⟩ := session_step_added env state trace
  constructor
  · intro pre post hsplit
    rw [htrace] at hsplit
    rcases append_eq_append_cons hsplit with ⟨post', h1, _⟩ | ⟨pre1, h1, h2⟩
    · exact hready pre post' h1
    · have hmem : SessionCall.receive_packet_header ∈ added := by
        rw [h2]
        exact List.mem_append_right _ (List.mem_cons_self _ _)
      obtain ⟨hs, hadded⟩ := q2 hmem
      have hpre1 : pre1 = [] := by
        rw [hadded] at h2
        match pre1, h2 with
        | [], _ => rfl
        | a :: rest, h2 => simp at h2
      obtain ⟨p, hp⟩ := hstate (Or.inl hs)
      exact ⟨p, by rw [h1, hpre1, List.append_nil]; exact hp⟩
  · intro hnext
    have hlast : added.getLast? = some SessionCall.send_ready_for_query →
        ∃ pre, (session_step env (state, trace)).2 =
          pre ++ [SessionCall.send_ready_for_query] := by
      intro hl
      obtain ⟨init, hinit⟩ := List.getLast?_eq_some_iff.mp hl
      exact ⟨trace ++ init, by rw [htrace, hinit, List.append_assoc]⟩
    rcases hnext with hnext | hnext
    · rcases q3 hnext with ⟨hs, hadded⟩ | hl
      · obtain ⟨p, hp⟩ := hstate (Or.inr hs)
        exact ⟨p, by rw [htrace, hadded, List.append_nil]; exact hp⟩
      · exact hlast hl
    · exact hlast (q4 hnext)

end opossum

namespace opossum

/-- A session that awaits a startup header reads one next, in every run of at least one
transition. -/
theorem session_run_startup_header {Cell : Type} (env : SessionEnvironment Cell)
    (trace : List SessionCall) (fuel : Nat) (hfuel : 1 ≤ fuel) :
    ∃ rest, (session_run env fuel (SessionState.AwaitingStartupHeader, trace)).2 =
      trace ++ SessionCall.receive_startup_packet_header :: rest := by
  obtain ⟨more, rfl⟩ : ∃ more, fuel = 1 + more := ⟨fuel - 1, by omega⟩
  rw [session_run_add]
  obtain ⟨rest1, h1⟩ : ∃ rest1, (session_run env 1
      ((SessionState.AwaitingStartupHeader, trace) : SessionState Cell × List SessionCall)).2 =
      trace ++ SessionCall.receive_startup_packet_header :: rest1 := by
    simp only [session_run, session_step]
    split
    · exact ⟨[], rfl⟩
    · split <;> exact ⟨[], rfl⟩
  obtain ⟨rest2, h2⟩ := session_run_trace env more (session_run env 1
    ((SessionState.AwaitingStartupHeader, trace) : SessionState Cell × List SessionCall))
  exact ⟨rest1 ++ rest2, by rw [h2, h1]; simp only [List.append_assoc, List.cons_append]⟩

/-! ## Claims on the startup and the end of a session -/

/-- C21: whenever the session awaits a startup header after any calls `trace` and
`receive_startup_packet_header` resolves to 0 (an SSL request), the session sends one
SSL denial and awaits a startup header again; in every longer run its next call is a
fresh `receive_startup_packet_header`, not `receive_startup_packet_contents`. And in
every run of a session from `start()`, every authentication-ok directly follows a read
of a startup header that resolved to a length `n` other than 0 and a successful read
of `n` bytes of startup contents, so after an SSL request it is sent only after a
later startup header. -/
theorem session_denies_ssl_request {Cell : Type} (env : SessionEnvironment Cell)
    (trace : List SessionCall)
    (hheader : env.receive_startup_packet_header
      (trace ++ [SessionCall.receive_startup_packet_header]) = Except.ok 0) :
    session_run env 2 (SessionState.AwaitingStartupHeader, trace) =
      (SessionState.AwaitingStartupHeader,
        trace ++ [SessionCall.receive_startup_packet_header, SessionCall.send_ssl_denied]) ∧
    (∀ fuel, 3 ≤ fuel → ∃ rest,
      (session_run env fuel (SessionState.AwaitingStartupHeader, trace)).2 =
        trace ++ [SessionCall.receive_startup_packet_header, SessionCall.send_ssl_denied,
          SessionCall.receive_startup_packet_header] ++ rest) ∧
    (∀ fuel, auth_follows_startup env (session_start env fuel).2) := by
  have h2 : session_run env 2 (SessionState.AwaitingStartupHeader, trace) =
      (SessionState.AwaitingStartupHeader,
        trace ++ [SessionCall.receive_startup_packet_header, SessionCall.send_ssl_denied]) := by
    have hstep1 : session_step env (SessionState.AwaitingStartupHeader, trace) =
        (SessionState.SslDenied, trace ++ [SessionCall.receive_startup_packet_header]) := by
      simp only [session_step, hheader, if_true]
    simp only [session_run, hstep1]
    simp only [session_step, List.append_assoc, List.singleton_append]
  refine ⟨h2, ?_, ?_⟩
  · intro fuel hfuel
    obtain ⟨more, rfl⟩ : ∃ more, fuel = 2 + more := ⟨fuel - 2, by omega⟩
    rw [session_run_add, h2]
    obtain ⟨rest, hrest⟩ := session_run_startup_header env
      (trace ++ [SessionCall.receive_startup_packet_header, SessionCall.send_ssl_denied]) more
      (by omega)
    exact ⟨rest, by rw [hrest]; simp only [List.append_assoc, List.cons_append,
      List.nil_append]⟩
  · intro fuel
    have hinv := session_run_invariant env
      (fun configuration => auth_follows_startup env configuration.2 ∧
        ∀ n, configuration.1 = SessionState.AwaitingStartupContents n →
          n ≠ 0 ∧ ∃ pre, configuration.2 = pre ++ [SessionCall.receive_startup_packet_header] ∧
            env.receive_startup_packet_header
              (pre ++ [SessionCall.receive_startup_packet_header]) = Except.ok n)
      (session_step_auth_follows_startup env) fuel (SessionState.Start, [])
      ⟨fun pre post h => by simp at h, fun n h => by simp at h⟩
    exact hinv.1

/-- Witness for C21: the session of the test `SessionDeniesSslRequestDuringStartup`,
started with `start()`: the first startup header is an SSL request, and the calls are
the read of the header, the SSL denial, a fresh read of a startup header, the read of
its 32 bytes of contents, authentication-ok, ready-for-query and the read of a command
header. -/
theorem session_denies_ssl_request_witness :
    (session_start (test_session_environment startup_header_ssl_first (Except.ok ())
        command_header_query_first (Except.ok example_query_packet)
        (Except.ok StatementType.kStmtSelect) (Except.ok example_result_table)) 7).2 =
      [SessionCall.receive_startup_packet_header, SessionCall.send_ssl_denied,
        SessionCall.receive_startup_packet_header,
        SessionCall.receive_startup_packet_contents 32, SessionCall.send_auth,
        SessionCall.send_ready_for_query, SessionCall.receive_packet_header] ∧
    session_run (test_session_environment startup_header_ssl_first (Except.ok ())
        command_header_query_first (Except.ok example_query_packet)
        (Except.ok StatementType.kStmtSelect) (Except.ok example_result_table)) 2
        (SessionState.AwaitingStartupHeader, []) =
      (SessionState.AwaitingStartupHeader,
        [] ++ [SessionCall.receive_startup_packet_header, SessionCall.send_ssl_denied]) :=
  ⟨by rfl,
    (session_denies_ssl_request (test_session_environment startup_header_ssl_first
      (Except.ok ()) command_header_query_first (Except.ok example_query_packet)
      (Except.ok StatementType.kStmtSelect) (Except.ok example_result_table)) []
      (by rfl)).1⟩

/-- C22: whenever the session awaits a command header after any calls `trace` and
`receive_packet_header` resolves to a header whose message type is Terminate, the
session is closed by that read and makes no further call of any kind, in a run of any
length; when no command header was read before, `receive_packet_header` has then been
called exactly once. -/
theorem session_terminates {Cell : Type} (env : SessionEnvironment Cell)
    (trace : List SessionCall) (header : RequestHeader)
    (hheader : env.receive_packet_header (trace ++ [SessionCall.receive_packet_header]) =
      Except.ok header)
    (hterminate : header.message_type = NetworkMessageType.TerminateCommand) :
    (∀ fuel, session_run env (fuel + 1) (SessionState.AwaitingCommandHeader, trace) =
      (SessionState.Closed, trace ++ [SessionCall.receive_packet_header])) ∧
    (SessionCall.receive_packet_header ∉ trace →
      ∀ fuel, (session_run env (fuel + 1) (SessionState.AwaitingCommandHeader, trace)).2.count
        SessionCall.receive_packet_header = 1) := by
  have hrun : ∀ fuel, session_run env (fuel + 1) (SessionState.AwaitingCommandHeader, trace) =
      (SessionState.Closed, trace ++ [SessionCall.receive_packet_header]) := by
    intro fuel
    have hstep : session_step env (SessionState.AwaitingCommandHeader, trace) =
        (SessionState.Closed, trace ++ [SessionCall.receive_packet_header]) := by
      simp only [session_step, hheader, hterminate, if_true]
    rw [session_run, hstep, session_run_closed]
  refine ⟨hrun, ?_⟩
  intro hnot fuel
  rw [hrun fuel]
  simp [List.count_eq_zero_of_not_mem hnot]

/-- Witness for C22: the session of the test `SessionShutsDownOnTerminationPacket`,
started with `start()`: the first command is a termination, the session is closed and
`receive_packet_header` is its last call. -/
theorem session_terminates_witness :
    session_start example_session_environment 50 =
      (SessionState.Closed,
        [SessionCall.receive_startup_packet_header,
          SessionCall.receive_startup_packet_contents 42, SessionCall.send_auth,
          SessionCall.send_ready_for_query, SessionCall.receive_packet_header]) ∧
    ∀ fuel, session_run example_session_environment (fuel + 1)
        (SessionState.AwaitingCommandHeader,
          [SessionCall.receive_startup_packet_header,
            SessionCall.receive_startup_packet_contents 42, SessionCall.send_auth,
            SessionCall.send_ready_for_query]) =
      (SessionState.Closed,
        [SessionCall.receive_startup_packet_header,
          SessionCall.receive_startup_packet_contents 42, SessionCall.send_auth,
          SessionCall.send_ready_for_query] ++ [SessionCall.receive_packet_header]) :=
  ⟨by rfl,
    (session_terminates example_session_environment
      [SessionCall.receive_startup_packet_header,
        SessionCall.receive_startup_packet_contents 42, SessionCall.send_auth,
        SessionCall.send_ready_for_query]
      { message_type := NetworkMessageType.TerminateCommand, payload_length := 0 }
      (by rfl) (by rfl)).1⟩

/-- C23: whenever the read of the startup contents fails, or the read of a command header
fails, the session is closed by that read, which is normal completion and no abort,
and makes no further call in a run of any length: no error response, no
authentication-ok and no ready-for-query is sent after the failure. -/
theorem session_closes_on_transport_failure {Cell : Type} (env : SessionEnvironment Cell)
    (trace : List SessionCall) :
    (∀ n failure,
      env.receive_startup_packet_contents
        (trace ++ [SessionCall.receive_startup_packet_contents n]) = Except.error failure →
      ∀ fuel, session_run env (fuel + 1) (SessionState.AwaitingStartupContents n, trace) =
        (SessionState.Closed, trace ++ [SessionCall.receive_startup_packet_contents n])) ∧
    (∀ failure,
      env.receive_packet_header (trace ++ [SessionCall.receive_packet_header]) =
        Except.error failure →
      ∀ fuel, session_run env (fuel + 1) (SessionState.AwaitingCommandHeader, trace) =
        (SessionState.Closed, trace ++ [SessionCall.receive_packet_header])) := by
  constructor
  · intro n failure hfail fuel
    have hstep : session_step env (SessionState.AwaitingStartupContents n, trace) =
        (SessionState.Closed, trace ++ [SessionCall.receive_startup_packet_contents n]) := by
      simp only [session_step, hfail]
    rw [session_run, hstep, session_run_closed]
  · intro failure hfail fuel
    have hstep : session_step env (SessionState.AwaitingCommandHeader, trace) =
        (SessionState.Closed, trace ++ [SessionCall.receive_packet_header]) := by
      simp only [session_step, hfail]
    rw [session_run, hstep, session_run_closed]

/-- Witness for C23: the sessions of the tests
`SessionHandlesConnectionErrorsDuringStartup` and
`SessionShutsDownOnErrorReceivingPacketHeader`, started with `start()`: the failed read
is the last call and the session is closed. -/
theorem session_closes_on_transport_failure_witness :
    session_start (test_session_environment (fun _ => Except.ok 32)
        (Except.error some_connection_problem) command_header_query_first
        (Except.ok example_query_packet) (Except.ok StatementType.kStmtSelect)
        (Except.ok example_result_table)) 50 =
      (SessionState.Closed, [SessionCall.receive_startup_packet_header] ++
        [SessionCall.receive_startup_packet_contents 32]) ∧
    session_start (test_session_environment (fun _ => Except.ok 32) (Except.ok ())
        (fun _ => Except.error some_connection_problem) (Except.ok example_query_packet)
        (Except.ok StatementType.kStmtSelect) (Except.ok example_result_table)) 50 =
      (SessionState.Closed,
        [SessionCall.receive_startup_packet_header,
          SessionCall.receive_startup_packet_contents 32, SessionCall.send_auth,
          SessionCall.send_ready_for_query] ++ [SessionCall.receive_packet_header]) :=
  ⟨(session_closes_on_transport_failure (test_session_environment (fun _ => Except.ok 32)
      (Except.error some_connection_problem) command_header_query_first
      (Except.ok example_query_packet) (Except.ok StatementType.kStmtSelect)
      (Except.ok example_result_table)) [SessionCall.receive_startup_packet_header]).1 32
      some_connection_problem (by rfl) 47,
    (session_closes_on_transport_failure (test_session_environment (fun _ => Except.ok 32)
      (Except.ok ()) (fun _ => Except.error some_connection_problem)
      (Except.ok example_query_packet) (Except.ok StatementType.kStmtSelect)
      (Except.ok example_result_table))
      [SessionCall.receive_startup_packet_header,
        SessionCall.receive_startup_packet_contents 32, SessionCall.send_auth,
        SessionCall.send_ready_for_query]).2 some_connection_problem (by rfl) 45⟩

end opossum

namespace opossum

/-! ## Claims on the command loop of a session -/

/-- C24: whenever the session awaits a command header after any calls `trace` and reads
the header of a simple query, a failure of the read of the contents, of the compile
task or of the execute task makes the session send exactly one error response with
the message text of the failure, then exactly one ready-for-query, and await a command
header again: the session is not closed, and (last part) a session that awaits a
command header calls `receive_packet_header` next. -/
theorem session_recovers_from_command_failure {Cell : Type} (env : SessionEnvironment Cell)
    (trace : List SessionCall) (header : RequestHeader)
    (hheader : env.receive_packet_header (trace ++ [SessionCall.receive_packet_header]) =
      Except.ok header)
    (hquery : header.message_type = NetworkMessageType.SimpleQueryCommand) :
    (∀ failure,
      env.receive_packet_contents (trace ++ [SessionCall.receive_packet_header] ++
        [SessionCall.receive_packet_contents header.payload_length]) = Except.error failure →
      session_run env 2 (SessionState.AwaitingCommandHeader, trace) =
        (SessionState.AwaitingCommandHeader,
          trace ++ [SessionCall.receive_packet_header,
            SessionCall.receive_packet_contents header.payload_length,
            SessionCall.send_error failure.what, SessionCall.send_ready_for_query])) ∧
    (∀ packet query packet' failure,
      env.receive_packet_contents (trace ++ [SessionCall.receive_packet_header] ++
        [SessionCall.receive_packet_contents header.payload_length]) = Except.ok packet →
      handle_query_packet packet header.payload_length = some (query, packet') →
      env.create_pipeline (trace ++ [SessionCall.receive_packet_header] ++
        [SessionCall.receive_packet_contents header.payload_length] ++
        [SessionCall.dispatch_create_pipeline query]) = Except.error failure →
      session_run env 3 (SessionState.AwaitingCommandHeader, trace) =
        (SessionState.AwaitingCommandHeader,
          trace ++ [SessionCall.receive_packet_header,
            SessionCall.receive_packet_contents header.payload_length,
            SessionCall.dispatch_create_pipeline query,
            SessionCall.send_error failure.what, SessionCall.send_ready_for_query])) ∧
    (∀ packet query packet' statement_type failure,
      env.receive_packet_contents (trace ++ [SessionCall.receive_packet_header] ++
        [SessionCall.receive_packet_contents header.payload_length]) = Except.ok packet →
      handle_query_packet packet header.payload_length = some (query, packet') →
      env.create_pipeline (trace ++ [SessionCall.receive_packet_header] ++
        [SessionCall.receive_packet_contents header.payload_length] ++
        [SessionCall.dispatch_create_pipeline query]) = Except.ok statement_type →
      env.execute_server_query (trace ++ [SessionCall.receive_packet_header] ++
        [SessionCall.receive_packet_contents header.payload_length] ++
        [SessionCall.dispatch_create_pipeline query] ++
        [SessionCall.dispatch_execute_server_query]) = Except.error failure →
      session_run env 3 (SessionState.AwaitingCommandHeader, trace) =
        (SessionState.AwaitingCommandHeader,
          trace ++ [SessionCall.receive_packet_header,
            SessionCall.receive_packet_contents header.payload_length,
            SessionCall.dispatch_create_pipeline query,
            SessionCall.dispatch_execute_server_query,
            SessionCall.send_error failure.what, SessionCall.send_ready_for_query])) ∧
    (∀ (calls : List SessionCall) (fuel : Nat), 1 ≤ fuel → ∃ rest,
      (session_run env fuel (SessionState.AwaitingCommandHeader, calls)).2 =
        calls ++ SessionCall.receive_packet_header :: rest) := by
  have hne : ¬ header.message_type = NetworkMessageType.TerminateCommand := by
    rw [hquery]
    decide
  have hstep1 : session_step env (SessionState.AwaitingCommandHeader, trace) =
      (SessionState.AwaitingCommandContents header.payload_length,
        trace ++ [SessionCall.receive_packet_header]) := by
    simp only [session_step, hheader]
    rw [if_neg hne, if_pos hquery]
  refine ⟨?_, ?_, ?_, fun calls fuel hfuel => session_run_command_header env calls fuel hfuel⟩
  · intro failure hcontents
    have hstep2 : session_step env (SessionState.AwaitingCommandContents header.payload_length,
        trace ++ [SessionCall.receive_packet_header]) =
        session_error_path failure (trace ++ [SessionCall.receive_packet_header] ++
          [SessionCall.receive_packet_contents header.payload_length]) := by
      simp only [session_step, hcontents]
    simp only [session_run, hstep1, hstep2]
    simp only [session_error_path, List.append_assoc, List.singleton_append, List.cons_append,
      List.nil_append]
  · intro packet query packet' failure hcontents htext hcompile
    have hstep2 : session_step env (SessionState.AwaitingCommandContents header.payload_length,
        trace ++ [SessionCall.receive_packet_header]) =
        (SessionState.Executing query, trace ++ [SessionCall.receive_packet_header] ++
          [SessionCall.receive_packet_contents header.payload_length]) := by
      simp only [session_step, hcontents, htext]
    have hstep3 : session_step env (SessionState.Executing query,
        trace ++ [SessionCall.receive_packet_header] ++
          [SessionCall.receive_packet_contents header.payload_length]) =
        session_error_path failure (trace ++ [SessionCall.receive_packet_header] ++
          [SessionCall.receive_packet_contents header.payload_length] ++
          [SessionCall.dispatch_create_pipeline query]) := by
      simp only [session_step, hcompile]
    simp only [session_run, hstep1, hstep2, hstep3]
    simp only [session_error_path, List.append_assoc, List.singleton_append, List.cons_append,
      List.nil_append]
  · intro packet query packet' statement_type failure hcontents htext hcompile hexecute
    have hstep2 : session_step env (SessionState.AwaitingCommandContents header.payload_length,
        trace ++ [SessionCall.receive_packet_header]) =
        (SessionState.Executing query, trace ++ [SessionCall.receive_packet_header] ++
          [SessionCall.receive_packet_contents header.payload_length]) := by
      simp only [session_step, hcontents, htext]
    have hstep3 : session_step env (SessionState.Executing query,
        trace ++ [SessionCall.receive_packet_header] ++
          [SessionCall.receive_packet_contents header.payload_length]) =
        session_error_path failure (trace ++ [SessionCall.receive_packet_header] ++
          [SessionCall.receive_packet_contents header.payload_length] ++
          [SessionCall.dispatch_create_pipeline query] ++
          [SessionCall.dispatch_execute_server_query]) := by
      simp only [session_step, hcompile, hexecute]
    simp only [session_run, hstep1, hstep2, hstep3]
    simp only [session_error_path, List.append_assoc, List.singleton_append, List.cons_append,
      List.nil_append]

/-- Witness for C24: the session of the test
`SessionRecoversFromErrorsDuringCommandProcessing`, started with `start()`: the read of
the contents of the first command fails, and the calls after the header are the read
of the contents, the error response with the message of the failure, ready-for-query,
and the read of the next command header. -/
theorem session_recovers_from_command_failure_witness :
    session_start (test_session_environment (fun _ => Except.ok 32) (Except.ok ())
        command_header_query_first (Except.error some_connection_problem)
        (Except.ok StatementType.kStmtSelect) (Except.ok example_result_table)) 50 =
      (SessionState.Closed,
        [SessionCall.receive_startup_packet_header,
          SessionCall.receive_startup_packet_contents 32, SessionCall.send_auth,
          SessionCall.send_ready_for_query, SessionCall.receive_packet_header,
          SessionCall.receive_packet_contents 4,
          SessionCall.send_error "Some connection problem",
          SessionCall.send_ready_for_query, SessionCall.receive_packet_header]) ∧
    session_run (test_session_environment (fun _ => Except.ok 32) (Except.ok ())
        command_header_query_first (Except.error some_connection_problem)
        (Except.ok StatementType.kStmtSelect) (Except.ok example_result_table)) 2
        (SessionState.AwaitingCommandHeader,
          [SessionCall.receive_startup_packet_header,
            SessionCall.receive_startup_packet_contents 32, SessionCall.send_auth,
            SessionCall.send_ready_for_query]) =
      (SessionState.AwaitingCommandHeader,
        [SessionCall.receive_startup_packet_header,
          SessionCall.receive_startup_packet_contents 32, SessionCall.send_auth,
          SessionCall.send_ready_for_query] ++
        [SessionCall.receive_packet_header, SessionCall.receive_packet_contents 4,
          SessionCall.send_error some_connection_problem.what,
          SessionCall.send_ready_for_query]) :=
  ⟨by rfl,
    (session_recovers_from_command_failure (test_session_environment (fun _ => Except.ok 32)
      (Except.ok ()) command_header_query_first (Except.error some_connection_problem)
      (Except.ok StatementType.kStmtSelect) (Except.ok example_result_table))
      [SessionCall.receive_startup_packet_header,
        SessionCall.receive_startup_packet_contents 32, SessionCall.send_auth,
        SessionCall.send_ready_for_query]
      { message_type := NetworkMessageType.SimpleQueryCommand, payload_length := 4 }
      (by rfl) (by rfl)).1 some_connection_problem (by rfl)⟩

end opossum

namespace opossum

/-- C25: whenever the session awaits a command header after any calls `trace`, reads
the header of a simple query, and every step of the command succeeds, its calls are,
in exactly this order: `receive_packet_contents` with the payload length of the header,
the dispatch of the compile task, the dispatch of the execute task, the send of the
row description of the result table, the dispatch of the row-streaming task, the send
of command-complete with the message for the statement kind and the row count, and the
send of ready-for-query; the session then awaits a command header, and in every longer
run `receive_packet_header` is the next call. The row walk of the row-streaming task,
on a consistent result table with sends that succeed, sends one data row per row of the
table, in storage order. -/
theorem session_executes_simple_query {Cell : Type} (env : SessionEnvironment Cell)
    (trace : List SessionCall) (header : RequestHeader) (packet packet' : InputPacket)
    (query : ByteBuffer) (statement_type : StatementType) (result_table : ResultTable Cell)
    (row_description : List ColumnDescription) (row_count : Nat) (message : String)
    (hheader : env.receive_packet_header (trace ++ [SessionCall.receive_packet_header]) =
      Except.ok header)
    (hquery : header.message_type = NetworkMessageType.SimpleQueryCommand)
    (hcontents : env.receive_packet_contents (trace ++ [SessionCall.receive_packet_header] ++
      [SessionCall.receive_packet_contents header.payload_length]) = Except.ok packet)
    (htext : handle_query_packet packet header.payload_length = some (query, packet'))
    (hcompile : env.create_pipeline (trace ++ [SessionCall.receive_packet_header] ++
      [SessionCall.receive_packet_contents header.payload_length] ++
      [SessionCall.dispatch_create_pipeline query]) = Except.ok statement_type)
    (hexecute : env.execute_server_query (trace ++ [SessionCall.receive_packet_header] ++
      [SessionCall.receive_packet_contents header.payload_length] ++
      [SessionCall.dispatch_create_pipeline query] ++
      [SessionCall.dispatch_execute_server_query]) = Except.ok result_table)
    (hdescription : QueryResponseBuilder.build_row_description result_table.toTable =
      Except.ok row_description)
    (hsend_description : env.send_row_description (trace ++
      [SessionCall.receive_packet_header] ++
      [SessionCall.receive_packet_contents header.payload_length] ++
      [SessionCall.dispatch_create_pipeline query] ++
      [SessionCall.dispatch_execute_server_query] ++
      [SessionCall.send_row_description row_description]) = Except.ok ())
    (hrows : env.send_query_response (trace ++ [SessionCall.receive_packet_header] ++
      [SessionCall.receive_packet_contents header.payload_length] ++
      [SessionCall.dispatch_create_pipeline query] ++
      [SessionCall.dispatch_execute_server_query] ++
      [SessionCall.send_row_description row_description] ++
      [SessionCall.dispatch_send_query_response]) = Except.ok row_count)
    (hmessage : QueryResponseBuilder.build_command_complete_message statement_type row_count =
      Except.ok message)
    (hcomplete : env.send_command_complete (trace ++ [SessionCall.receive_packet_header] ++
      [SessionCall.receive_packet_contents header.payload_length] ++
      [SessionCall.dispatch_create_pipeline query] ++
      [SessionCall.dispatch_execute_server_query] ++
      [SessionCall.send_row_description row_description] ++
      [SessionCall.dispatch_send_query_response] ++
      [SessionCall.send_command_complete message]) = Except.ok ()) :
    session_run env 4 (SessionState.AwaitingCommandHeader, trace) =
      (SessionState.AwaitingCommandHeader,
        trace ++ [SessionCall.receive_packet_header,
          SessionCall.receive_packet_contents header.payload_length,
          SessionCall.dispatch_create_pipeline query,
          SessionCall.dispatch_execute_server_query,
          SessionCall.send_row_description row_description,
          SessionCall.dispatch_send_query_response,
          SessionCall.send_command_complete message,
          SessionCall.send_ready_for_query]) ∧
    (∀ fuel, 5 ≤ fuel → ∃ rest,
      (session_run env fuel (SessionState.AwaitingCommandHeader, trace)).2 =
        trace ++ [SessionCall.receive_packet_header,
          SessionCall.receive_packet_contents header.payload_length,
          SessionCall.dispatch_create_pipeline query,
          SessionCall.dispatch_execute_server_query,
          SessionCall.send_row_description row_description,
          SessionCall.dispatch_send_query_response,
          SessionCall.send_command_complete message,
          SessionCall.send_ready_for_query] ++ SessionCall.receive_packet_header :: rest) ∧
    (∀ (σ : Type) (send_row : send_row_t σ) (type_cast : Cell → String) (s : σ) (fuel : Nat),
      result_table.consistent → (∀ row s, (send_row row s).1 = Except.ok ()) →
      result_table.chunk_count + result_table.row_count + 2 ≤ fuel →
      ∃ s1, send_query_response (recording_send_row send_row) type_cast result_table fuel
          (s, []) =
        some (Except.ok result_table.row_count,
          (s1, (stringified_rows type_cast result_table).map
            (fun row => (row, Except.ok ()))))) := by
  have hne : ¬ header.message_type = NetworkMessageType.TerminateCommand := by
    rw [hquery]
    decide
  have hstep1 : session_step env (SessionState.AwaitingCommandHeader, trace) =
      (SessionState.AwaitingCommandContents header.payload_length,
        trace ++ [SessionCall.receive_packet_header]) := by
    simp only [session_step, hheader]
    rw [if_neg hne, if_pos hquery]
  have hstep2 : session_step env (SessionState.AwaitingCommandContents header.payload_length,
      trace ++ [SessionCall.receive_packet_header]) =
      (SessionState.Executing query, trace ++ [SessionCall.receive_packet_header] ++
        [SessionCall.receive_packet_contents header.payload_length]) := by
    simp only [session_step, hcontents, htext]
  have hstep3 : session_step env (SessionState.Executing query,
      trace ++ [SessionCall.receive_packet_header] ++
        [SessionCall.receive_packet_contents header.payload_length]) =
      (SessionState.Responding statement_type result_table,
        trace ++ [SessionCall.receive_packet_header] ++
          [SessionCall.receive_packet_contents header.payload_length] ++
          [SessionCall.dispatch_create_pipeline query] ++
          [SessionCall.dispatch_execute_server_query]) := by
    simp only [session_step, hcompile, hexecute]
  have hstep4 : session_step env (SessionState.Responding statement_type result_table,
      trace ++ [SessionCall.receive_packet_header] ++
        [SessionCall.receive_packet_contents header.payload_length] ++
        [SessionCall.dispatch_create_pipeline query] ++
        [SessionCall.dispatch_execute_server_query]) =
      (SessionState.AwaitingCommandHeader,
        trace ++ [SessionCall.receive_packet_header] ++
          [SessionCall.receive_packet_contents header.payload_length] ++
          [SessionCall.dispatch_create_pipeline query] ++
          [SessionCall.dispatch_execute_server_query] ++
          [SessionCall.send_row_description row_description] ++
          [SessionCall.dispatch_send_query_response] ++
          [SessionCall.send_command_complete message] ++
          [SessionCall.send_ready_for_query]) := by
    simp only [session_step, hdescription, hsend_description, hrows, hmessage, hcomplete]
  have h4 : session_run env 4 (SessionState.AwaitingCommandHeader, trace) =
      (SessionState.AwaitingCommandHeader,
        trace ++ [SessionCall.receive_packet_header,
          SessionCall.receive_packet_contents header.payload_length,
          SessionCall.dispatch_create_pipeline query,
          SessionCall.dispatch_execute_server_query,
          SessionCall.send_row_description row_description,
          SessionCall.dispatch_send_query_response,
          SessionCall.send_command_complete message,
          SessionCall.send_ready_for_query]) := by
    simp only [session_run, hstep1, hstep2, hstep3, hstep4]
    simp only [List.append_assoc, List.singleton_append, List.cons_append, List.nil_append]
  refine ⟨h4, ?_, ?_⟩
  · intro fuel hfuel
    obtain ⟨more, rfl⟩ : ∃ more, fuel = 4 + more := ⟨fuel - 4, by omega⟩
    rw [session_run_add, h4]
    exact session_run_command_header env _ more (by omega)
  · intro σ send_row type_cast s fuel hc hsuccess hfuel
    obtain ⟨s1, hall⟩ := send_all_of_success send_row hsuccess
      (stringified_rows type_cast result_table) s
    have hrec := send_all_recording_of_ok send_row (stringified_rows type_cast result_table)
      s s1 [] hall
    refine ⟨s1, ?_⟩
    rw [send_query_response_eq (recording_send_row send_row) type_cast result_table hc fuel
      hfuel, hrec]
    rfl

/-- Witness for C25: the session of the test `SessionExecutesSimpleQueryCommand`,
started with `start()`: the first command is a simple query on the table of three rows
and the second one a termination. -/
theorem session_executes_simple_query_witness :
    session_start (test_session_environment (fun _ => Except.ok 32) (Except.ok ())
        command_header_query_first (Except.ok example_query_packet)
        (Except.ok StatementType.kStmtSelect) (Except.ok example_result_table)) 50 =
      (SessionState.Closed,
        [SessionCall.receive_startup_packet_header,
          SessionCall.receive_startup_packet_contents 32, SessionCall.send_auth,
          SessionCall.send_ready_for_query, SessionCall.receive_packet_header,
          SessionCall.receive_packet_contents 4,
          SessionCall.dispatch_create_pipeline [83, 81, 76, 59],
          SessionCall.dispatch_execute_server_query,
          SessionCall.send_row_description [⟨"a", 23, 4⟩, ⟨"b", 23, 4⟩],
          SessionCall.dispatch_send_query_response,
          SessionCall.send_command_complete "SELECT 3",
          SessionCall.send_ready_for_query, SessionCall.receive_packet_header]) ∧
    session_run (test_session_environment (fun _ => Except.ok 32) (Except.ok ())
        command_header_query_first (Except.ok example_query_packet)
        (Except.ok StatementType.kStmtSelect) (Except.ok example_result_table)) 4
        (SessionState.AwaitingCommandHeader,
          [SessionCall.receive_startup_packet_header,
            SessionCall.receive_startup_packet_contents 32, SessionCall.send_auth,
            SessionCall.send_ready_for_query]) =
      (SessionState.AwaitingCommandHeader,
        [SessionCall.receive_startup_packet_header,
          SessionCall.receive_startup_packet_contents 32, SessionCall.send_auth,
          SessionCall.send_ready_for_query] ++
        [SessionCall.receive_packet_header, SessionCall.receive_packet_contents 4,
          SessionCall.dispatch_create_pipeline [83, 81, 76, 59],
          SessionCall.dispatch_execute_server_query,
          SessionCall.send_row_description [⟨"a", 23, 4⟩, ⟨"b", 23, 4⟩],
          SessionCall.dispatch_send_query_response,
          SessionCall.send_command_complete "SELECT 3",
          SessionCall.send_ready_for_query]) :=
  ⟨by rfl,
    (session_executes_simple_query (test_session_environment (fun _ => Except.ok 32)
      (Except.ok ()) command_header_query_first (Except.ok example_query_packet)
      (Except.ok StatementType.kStmtSelect) (Except.ok example_result_table))
      [SessionCall.receive_startup_packet_header,
        SessionCall.receive_startup_packet_contents 32, SessionCall.send_auth,
        SessionCall.send_ready_for_query]
      { message_type := NetworkMessageType.SimpleQueryCommand, payload_length := 4 }
      example_query_packet { data := [83, 81, 76, 59], offset := 4 } [83, 81, 76, 59]
      StatementType.kStmtSelect example_result_table [⟨"a", 23, 4⟩, ⟨"b", 23, 4⟩] 3 "SELECT 3"
      (by rfl) (by rfl) (by rfl) (by rfl) (by rfl) (by rfl) (by rfl) (by rfl) (by rfl)
      (by rfl) (by rfl)).1⟩

/-- C26: no pipelining. In every run of a session from `start()`, every call of
`receive_packet_header` directly follows a ready-for-query: the ready-for-query that
ends the startup or the response to the command before, successful or error, sent
after every other message of that response. And a transition of the session only reads
a command header when the session awaits one, never from a state in which a command is
in flight (its contents awaited, executing or responding). -/
theorem session_no_pipelining {Cell : Type} (env : SessionEnvironment Cell) :
    (∀ fuel, ready_before_command_header (session_start env fuel).2) ∧
    (∀ (state : SessionState Cell) (trace added : List SessionCall),
      (session_step env (state, trace)).2 = trace ++ added →
      SessionCall.receive_packet_header ∈ added →
      state = SessionState.AwaitingCommandHeader ∧
        added = [SessionCall.receive_packet_header]) := by
  constructor
  · intro fuel
    have hinv := session_run_invariant env
      (fun configuration => ready_before_command_header configuration.2 ∧
        (configuration.1 = SessionState.AwaitingCommandHeader ∨
            configuration.1 = SessionState.CommandLoop →
          ∃ pre, configuration.2 = pre ++ [SessionCall.send_ready_for_query]))
      (session_step_ready_before_command_header env) fuel (SessionState.Start, [])
      ⟨fun pre post h => by simp at h, fun h => by simp at h⟩
    exact hinv.1
  · intro state trace added htrace hmem
    obtain ⟨added', htrace', _, q2, _, _, _⟩ := session_step_added env state trace
    have heq : added' = added := by
      rw [htrace] at htrace'
      exact (List.append_cancel_left htrace').symm
    rw [heq] at q2
    exact q2 hmem

/-- Witness for C26: in the session of the test `SessionExecutesSimpleQueryCommand`
every read of a command header directly follows a ready-for-query. -/
theorem session_no_pipelining_witness :
    ready_before_command_header
      (session_start (test_session_environment (fun _ => Except.ok 32) (Except.ok ())
        command_header_query_first (Except.ok example_query_packet)
        (Except.ok StatementType.kStmtSelect) (Except.ok example_result_table)) 50).2 :=
  (session_no_pipelining (test_session_environment (fun _ => Except.ok 32) (Except.ok ())
    command_header_query_first (Except.ok example_query_packet)
    (Except.ok StatementType.kStmtSelect) (Except.ok example_result_table))).1 50

end opossum

namespace opossum

/-! ## Unknown statement kinds, and the agreement of the two row-description builders -/

/-- The two loops of `build_row_description` run the same iteration: for every table,
every list built so far and every column id. Both read the type of the column first,
both end in `Fail` on a type outside the five before the name is read, and both read
the name afterwards. -/
theorem build_row_description_step_agree (table : Table) (result : List ColumnDescription)
    (column_id : Nat) :
    QueryResponseBuilder.build_row_description_step table result column_id =
      SendQueryResponseTask.build_row_description_step table result column_id := by
  unfold QueryResponseBuilder.build_row_description_step
    SendQueryResponseTask.build_row_description_step
  rcases vector_at table.column_types column_id with failure | column_type
  · rfl
  · cases column_type <;> rfl

/-- C31: for every statement kind outside SELECT, INSERT, UPDATE, DELETE and CREATE and
every row count, `build_command_complete_message` of `QueryResponseBuilder` and of
`SendQueryResponseTask` returns no text: each one raises the `std::logic_error` with
the message of the `default:` label, which is an exception a handler
`catch (std::exception&)` receives, and not the fatal failure of `Fail`. -/
theorem build_command_complete_message_unknown_kind (statement_type : StatementType)
    (row_count : Nat)
    (hselect : statement_type ≠ StatementType.kStmtSelect)
    (hinsert : statement_type ≠ StatementType.kStmtInsert)
    (hupdate : statement_type ≠ StatementType.kStmtUpdate)
    (hdelete : statement_type ≠ StatementType.kStmtDelete)
    (hcreate : statement_type ≠ StatementType.kStmtCreate) :
    ∃ failure : Failure,
      QueryResponseBuilder.build_command_complete_message statement_type row_count =
          Except.error failure ∧
        SendQueryResponseTask.build_command_complete_message statement_type row_count =
          Except.error failure ∧
        failure = Failure.logic_error
          "Unknown statement type. Server doesn't know how to complete query." ∧
        failure.is_std_exception = true ∧
        (∀ msg, failure ≠ Failure.fatal msg) ∧
        (∀ text, QueryResponseBuilder.build_command_complete_message statement_type row_count ≠
          Except.ok text) ∧
        (∀ text, SendQueryResponseTask.build_command_complete_message statement_type row_count ≠
          Except.ok text) := by
  cases statement_type with
  | kStmtSelect => exact absurd rfl hselect
  | kStmtInsert => exact absurd rfl hinsert
  | kStmtUpdate => exact absurd rfl hupdate
  | kStmtDelete => exact absurd rfl hdelete
  | kStmtCreate => exact absurd rfl hcreate
  | kStmtOther n =>
    refine ⟨_, rfl, rfl, rfl, rfl, ?_, ?_, ?_⟩
    · intro msg h
      cases h
    · intro text h
      cases h
    · intro text h
      cases h

/-- The statement of C31 at a statement kind outside the five, with row count 7. -/
theorem build_command_complete_message_unknown_kind_witness :
    ∃ failure : Failure,
      QueryResponseBuilder.build_command_complete_message (StatementType.kStmtOther 9) 7 =
          Except.error failure ∧
        SendQueryResponseTask.build_command_complete_message (StatementType.kStmtOther 9) 7 =
          Except.error failure ∧
        failure = Failure.logic_error
          "Unknown statement type. Server doesn't know how to complete query." ∧
        failure.is_std_exception = true ∧
        (∀ msg, failure ≠ Failure.fatal msg) ∧
        (∀ text, QueryResponseBuilder.build_command_complete_message
          (StatementType.kStmtOther 9) 7 ≠ Except.ok text) ∧
        (∀ text, SendQueryResponseTask.build_command_complete_message
          (StatementType.kStmtOther 9) 7 ≠ Except.ok text) :=
  build_command_complete_message_unknown_kind (StatementType.kStmtOther 9) 7
    (by decide) (by decide) (by decide) (by decide) (by decide)

/-- C32: the two row-description builders agree for every table: `build_row_description`
of `QueryResponseBuilder` and of `SendQueryResponseTask` give the same outcome, so they
return the same list of (name, type_oid, type_size) descriptions when one returns a
list, and one ends in a failure exactly when the other ends in the same failure. -/
theorem build_row_description_builders_agree (table : Table) :
    QueryResponseBuilder.build_row_description table =
        SendQueryResponseTask.build_row_description table ∧
      (∀ descriptions, QueryResponseBuilder.build_row_description table = Except.ok descriptions ↔
        SendQueryResponseTask.build_row_description table = Except.ok descriptions) ∧
      (∀ failure, QueryResponseBuilder.build_row_description table = Except.error failure ↔
        SendQueryResponseTask.build_row_description table = Except.error failure) := by
  have h : QueryResponseBuilder.build_row_description table =
      SendQueryResponseTask.build_row_description table := by
    unfold QueryResponseBuilder.build_row_description SendQueryResponseTask.build_row_description
    congr 1
    funext result column_id
    exact build_row_description_step_agree table result column_id
  exact ⟨h, fun _ => by rw [h], fun _ => by rw [h]⟩

end opossum

namespace opossum

/-! ## The two row walks side by side, and the end of the recursion -/

/-- With sends that succeed, too little fuel for the offsets that remain in a chunk
leaves the recursion of `send_query_response_rows` unfinished: one step is spent on
every offset before the base case. -/
theorem send_query_response_rows_unfinished {σ Cell : Type} (send_row : send_row_t σ)
    (hsuccess : ∀ row s, (send_row row s).1 = Except.ok ())
    (type_cast : Cell → String) (chunk : Chunk Cell) :
    ∀ (fuel remaining current_chunk_offset : Nat) (row_strings : List String) (s : σ),
      chunk.consistent row_strings.length →
      current_chunk_offset + remaining = chunk.size → fuel ≤ remaining →
      send_query_response_rows send_row type_cast chunk fuel current_chunk_offset row_strings s =
        none := by
  intro fuel
  induction fuel with
  | zero =>
    intro remaining current_chunk_offset row_strings s _ _ _
    rfl
  | succ fuel ih =>
    intro remaining current_chunk_offset row_strings s hc hsize hfuel
    obtain ⟨filled, hfill, hlen⟩ : ∃ filled,
        fill_row_strings type_cast chunk current_chunk_offset row_strings = Except.ok filled ∧
          filled.length = row_strings.length := by
      refine ⟨_, fill_row_strings_eq type_cast chunk current_chunk_offset row_strings hc
        (by omega), ?_⟩
      rw [stringified_row_length type_cast chunk _ current_chunk_offset hc]
    have hsend := hsuccess filled s
    rcases hs : send_row filled s with ⟨outcome, s1⟩
    rw [hs] at hsend
    simp only at hsend
    subst hsend
    simp only [send_query_response_rows,
      if_neg (show ¬ current_chunk_offset = chunk.size by omega), hfill, hs]
    exact ih (remaining - 1) (current_chunk_offset + 1) filled s1 (by rw [hlen]; exact hc)
      (by omega) (by omega)

/-- With sends that succeed, on a consistent table, too little fuel for the chunks that
remain leaves the recursion of `send_query_response_chunks` unfinished: one step is
spent on every chunk before the base case. -/
theorem send_query_response_chunks_unfinished {σ Cell : Type} (send_row : send_row_t σ)
    (hsuccess : ∀ row s, (send_row row s).1 = Except.ok ())
    (type_cast : Cell → String) (table : ResultTable Cell) (hc : table.consistent) :
    ∀ (fuel remaining current_chunk_id : Nat) (row_strings : List String) (s : σ),
      row_strings.length = table.column_count →
      current_chunk_id + remaining = table.chunk_count → fuel ≤ remaining →
      send_query_response_chunks send_row type_cast table fuel current_chunk_id row_strings s =
        none := by
  intro fuel
  induction fuel with
  | zero =>
    intro remaining current_chunk_id row_strings s _ _ _
    rfl
  | succ fuel ih =>
    intro remaining current_chunk_id row_strings s hlen hsize hfuel
    have hlt : current_chunk_id < table.chunks.length := by
      unfold ResultTable.chunk_count at hsize
      omega
    have hchunk : vector_at table.chunks current_chunk_id =
        Except.ok table.chunks[current_chunk_id] := by
      simp [vector_at, List.getElem?_eq_getElem hlt]
    have hcc : table.chunks[current_chunk_id].consistent row_strings.length := by
      rw [hlen]
      exact hc _ (List.getElem_mem hlt)
    simp only [send_query_response_chunks,
      if_neg (show ¬ current_chunk_id = table.chunk_count by omega), hchunk]
    by_cases hrows : fuel ≤ table.chunks[current_chunk_id].size
    · rw [send_query_response_rows_unfinished send_row hsuccess type_cast _ fuel
        table.chunks[current_chunk_id].size 0 row_strings s hcc (Nat.zero_add _) hrows]
    · obtain ⟨row_strings1, hlen1, heq⟩ := send_query_response_rows_eq send_row type_cast
        table.chunks[current_chunk_id] table.chunks[current_chunk_id].size fuel 0 row_strings s
        hcc (Nat.zero_add _) (by omega)
      obtain ⟨s1, hall⟩ := send_all_of_success send_row hsuccess
        ((List.range' 0 table.chunks[current_chunk_id].size).map
          (stringified_row type_cast table.chunks[current_chunk_id])) s
      rw [heq, hall]
      exact ih (remaining - 1) (current_chunk_id + 1) row_strings1 s1 (by rw [hlen1, hlen])
        (by omega) (by omega)

end opossum

namespace opossum

/-- C33: the walk by continuations and the walk by nested loops visit the same rows.
For every consistent result table of fewer than 2^32 rows, when every send succeeds,
`send_query_response` (with enough fuel for its recursion) passes to `send_row` the same
sequence of rows as `SendQueryResponseTask::_on_execute` passes to `send_data_row`, the
rows of the table in storage order, and the row count each of them reports is the
number of rows sent. -/
theorem row_walks_send_same_rows {σ τ Cell : Type} (send_row : send_row_t σ)
    (send_data_row : send_data_row_t τ) (type_cast : Cell → String)
    (table : ResultTable Cell) (hc : table.consistent)
    (hrows : table.row_count < 2 ^ 32)
    (hsend_row : ∀ row s, (send_row row s).1 = Except.ok ())
    (hsend_data_row : ∀ row t, (send_data_row row t).1 = Except.ok (Except.ok ()))
    (fuel : Nat) (hfuel : table.chunk_count + table.row_count + 2 ≤ fuel) (s : σ) (t : τ) :
    ∃ (rows : List (List String)) (s1 : σ) (t1 : τ),
      send_query_response (recording_send_row send_row) type_cast table fuel (s, []) =
          some (Except.ok rows.length, (s1, rows.map (fun row => (row, Except.ok ())))) ∧
        SendQueryResponseTask._on_execute (recording_send_data_row send_data_row) type_cast
            table (t, []) =
          { promise := [PromiseCall.set_value rows.length], escaped := none,
            state := (t1, rows) } ∧
        rows = stringified_rows type_cast table := by
  obtain ⟨s1, hall⟩ := send_all_of_success send_row hsend_row (stringified_rows type_cast table) s
  have hrec := send_all_recording_of_ok send_row (stringified_rows type_cast table) s s1 [] hall
  obtain ⟨t1, htask⟩ := send_data_row_all_of_no_raise send_data_row
    (fun row t => ⟨_, hsend_data_row row t⟩) (stringified_rows type_cast table) 0 t (by decide)
  have hrect := send_data_row_all_recording send_data_row (stringified_rows type_cast table)
    0 _ t t1 [] htask
  have hmod : (0 + (stringified_rows type_cast table).length) % UINT32_MOD =
      (stringified_rows type_cast table).length := by
    rw [stringified_rows_length, Nat.zero_add]
    exact Nat.mod_eq_of_lt (by simpa [UINT32_MOD] using hrows)
  rw [hmod] at hrect
  refine ⟨stringified_rows type_cast table, s1, t1, ?_, ?_, rfl⟩
  · rw [send_query_response_eq (recording_send_row send_row) type_cast table hc fuel hfuel, hrec,
      stringified_rows_length]
    rfl
  · simp only [SendQueryResponseTask._on_execute,
      send_query_response_task_try_block_eq _ type_cast table hc, hrect, List.nil_append]

/-- Witness for C33: the table of three chunks, the second one empty, with sends that
succeed: both walks pass on the rows (1, 3), (2, 4), (5, 6) and both report 3. -/
theorem row_walks_send_same_rows_witness :
    (send_query_response (recording_send_row send_row_counting) Nat.repr example_result_table 8
        (0, []) =
      some (Except.ok 3, (3, [(["1", "3"], Except.ok ()), (["2", "4"], Except.ok ()),
        (["5", "6"], Except.ok ())])) ∧
    SendQueryResponseTask._on_execute (recording_send_data_row send_data_row_counting) Nat.repr
        example_result_table (0, []) =
      { promise := [PromiseCall.set_value 3], escaped := none,
        state := (3, [["1", "3"], ["2", "4"], ["5", "6"]]) }) ∧
    ∃ (rows : List (List String)) (s1 : Nat) (t1 : Nat),
      send_query_response (recording_send_row send_row_counting) Nat.repr example_result_table 8
          (0, []) =
          some (Except.ok rows.length, (s1, rows.map (fun row => (row, Except.ok ())))) ∧
        SendQueryResponseTask._on_execute (recording_send_data_row send_data_row_counting)
            Nat.repr example_result_table (0, []) =
          { promise := [PromiseCall.set_value rows.length], escaped := none,
            state := (t1, rows) } ∧
        rows = stringified_rows Nat.repr example_result_table :=
  ⟨⟨by rfl, by rfl⟩,
    row_walks_send_same_rows send_row_counting send_data_row_counting Nat.repr
      example_result_table (by decide) (by decide) (fun _ _ => rfl) (fun _ _ => rfl) 8
      (by decide) 0 0⟩

/-- C34: the recursion of the row walk ends, after one step for every offset and for
every chunk. On a chunk consistent with `row_strings`, `send_query_response_rows`
started at offset 0 resolves for every `send_row` once it has fuel for `chunk.size() + 1`
steps, and with sends that succeed it resolves to a value (no access past the bound
that the test `current_chunk_offset == chunk.size()` guards) and is unfinished on any
fuel up to `chunk.size()`: the base case is reached after exactly `chunk.size()` steps.
On a consistent table, `send_query_response_chunks` started at chunk 0 resolves for
every `send_row` once it has fuel for its own `chunk_count + 1` steps and those of the
walks over the rows, and with sends that succeed it resolves to a value and is
unfinished on any fuel up to `chunk_count`. -/
theorem row_walk_recursion_ends {σ Cell : Type} (send_row : send_row_t σ)
    (type_cast : Cell → String) (table : ResultTable Cell) (hc : table.consistent)
    (row_strings : List String) (hlen : row_strings.length = table.column_count) (s : σ) :
    (∀ chunk, chunk ∈ table.chunks →
      (∀ fuel, chunk.size < fuel →
        (send_query_response_rows send_row type_cast chunk fuel 0 row_strings s).isSome = true) ∧
      ((∀ row s, (send_row row s).1 = Except.ok ()) →
        (∀ fuel, chunk.size < fuel → ∃ row_strings1 s1,
          send_query_response_rows send_row type_cast chunk fuel 0 row_strings s =
            some (Except.ok (), row_strings1, s1)) ∧
        (∀ fuel, fuel ≤ chunk.size →
          send_query_response_rows send_row type_cast chunk fuel 0 row_strings s = none))) ∧
    (∀ fuel, table.chunk_count + table.row_count + 1 < fuel →
      (send_query_response_chunks send_row type_cast table fuel 0 row_strings s).isSome = true) ∧
    ((∀ row s, (send_row row s).1 = Except.ok ()) →
      (∀ fuel, table.chunk_count + table.row_count + 1 < fuel → ∃ row_strings1 s1,
        send_query_response_chunks send_row type_cast table fuel 0 row_strings s =
          some (Except.ok (), row_strings1, s1)) ∧
      (∀ fuel, fuel ≤ table.chunk_count →
        send_query_response_chunks send_row type_cast table fuel 0 row_strings s = none)) := by
  refine ⟨?_, ?_, ?_⟩
  · intro chunk hmem
    have hcc : chunk.consistent row_strings.length := by
      rw [hlen]
      exact hc chunk hmem
    refine ⟨?_, ?_⟩
    · intro fuel hfuel
      obtain ⟨row_strings1, _, heq⟩ := send_query_response_rows_eq send_row type_cast chunk
        chunk.size fuel 0 row_strings s hcc (Nat.zero_add _) hfuel
      rw [heq]
      rfl
    · intro hsuccess
      refine ⟨?_, ?_⟩
      · intro fuel hfuel
        obtain ⟨row_strings1, _, heq⟩ := send_query_response_rows_eq send_row type_cast chunk
          chunk.size fuel 0 row_strings s hcc (Nat.zero_add _) hfuel
        obtain ⟨s1, hall⟩ := send_all_of_success send_row hsuccess
          ((List.range' 0 chunk.size).map (stringified_row type_cast chunk)) s
        exact ⟨row_strings1, s1, by rw [heq, hall]⟩
      · intro fuel hfuel
        exact send_query_response_rows_unfinished send_row hsuccess type_cast chunk fuel
          chunk.size 0 row_strings s hcc (Nat.zero_add _) hfuel
  · intro fuel hfuel
    obtain ⟨row_strings1, heq⟩ := send_query_response_chunks_eq send_row type_cast table hc
      table.chunk_count fuel 0 row_strings s hlen (Nat.zero_add _) hfuel
    rw [heq]
    rfl
  · intro hsuccess
    refine ⟨?_, ?_⟩
    · intro fuel hfuel
      obtain ⟨row_strings1, heq⟩ := send_query_response_chunks_eq send_row type_cast table hc
        table.chunk_count fuel 0 row_strings s hlen (Nat.zero_add _) hfuel
      obtain ⟨s1, hall⟩ := send_all_of_success send_row hsuccess
        ((table.chunks.drop 0).flatMap (fun chunk =>
          (List.range chunk.size).map (stringified_row type_cast chunk))) s
      exact ⟨row_strings1, s1, by rw [heq, hall]⟩
    · intro fuel hfuel
      exact send_query_response_chunks_unfinished send_row hsuccess type_cast table hc fuel
        table.chunk_count 0 row_strings s hlen (Nat.zero_add _) hfuel

/-- Witness for C34: the table of three chunks (2, 0 and 1 rows), with sends that
succeed. The walk over the first chunk is unfinished on fuel 2 and resolves on fuel 3;
the walk over the chunks is unfinished on fuel 3 and resolves on fuel 8. -/
theorem row_walk_recursion_ends_witness :
    send_query_response_rows send_row_counting Nat.repr (⟨[[1, 2], [3, 4]], 2⟩ : Chunk Nat) 2 0
        ["", ""] 0 = none ∧
    send_query_response_rows send_row_counting Nat.repr (⟨[[1, 2], [3, 4]], 2⟩ : Chunk Nat) 3 0
        ["", ""] 0 = some (Except.ok (), ["2", "4"], 2) ∧
    send_query_response_chunks send_row_counting Nat.repr example_result_table 3 0
        ["", ""] 0 = none ∧
    send_query_response_chunks send_row_counting Nat.repr example_result_table 8 0
        ["", ""] 0 = some (Except.ok (), ["5", "6"], 3) ∧
    ((∀ fuel, example_result_table.chunk_count + example_result_table.row_count + 1 < fuel →
        ∃ row_strings1 s1,
          send_query_response_chunks send_row_counting Nat.repr example_result_table fuel 0
            ["", ""] 0 = some (Except.ok (), row_strings1, s1)) ∧
      (∀ fuel, fuel ≤ example_result_table.chunk_count →
        send_query_response_chunks send_row_counting Nat.repr example_result_table fuel 0
          ["", ""] 0 = none)) :=
  ⟨by rfl, by rfl, by rfl, by rfl,
    (row_walk_recursion_ends send_row_counting Nat.repr example_result_table (by decide)
      ["", ""] rfl 0).2.2 (fun _ _ => rfl)⟩

end opossum

namespace opossum

/-! ## Dictionary columns: values, NULL and materialisation -/

/-- A `DebugAssert` whose condition holds passes, in every build. -/
theorem DebugAssert_of_holds (c : StorageConstants) (msg : String) :
    DebugAssert c true msg = Except.ok () := by
  simp [DebugAssert, pure, Except.pure]

/-- A valid chunk offset of a dictionary column has a value id in the attribute
vector, which `get` reads. -/
theorem attribute_vector_get_of_lt {T : Type} (column : DictionaryColumn T) (chunk_offset : Nat)
    (hoffset : chunk_offset < column.size) :
    ∃ value_id, column._attribute_vector[chunk_offset]? = some value_id ∧
      value_id ∈ column._attribute_vector ∧
      column._attribute_vector.get chunk_offset = Except.ok value_id := by
  have hlt : chunk_offset < column._attribute_vector.length := hoffset
  refine ⟨column._attribute_vector[chunk_offset], List.getElem?_eq_getElem hlt,
    List.getElem_mem hlt, ?_⟩
  simp [BaseNsVector.get, vector_at, List.getElem?_eq_getElem hlt]

/-- The method `is_null`, given the value id at the chunk offset. -/
theorem is_null_eq {T : Type} (c : StorageConstants) (column : DictionaryColumn T)
    (chunk_offset value_id : Nat)
    (hget : column._attribute_vector.get chunk_offset = Except.ok value_id) :
    column.is_null c chunk_offset = Except.ok (value_id == c.NULL_VALUE_ID) := by
  simp [DictionaryColumn.is_null, hget, bind, Except.bind, pure, Except.pure]

/-- The method `operator[]`, given the value id at a valid chunk offset. -/
theorem subscript_eq {T : Type} (c : StorageConstants) (column : DictionaryColumn T)
    (chunk_offset value_id : Nat) (hinvalid : chunk_offset ≠ c.INVALID_CHUNK_OFFSET)
    (hget : column._attribute_vector.get chunk_offset = Except.ok value_id) :
    column.subscript c chunk_offset =
      if value_id = c.NULL_VALUE_ID then Except.ok AllTypeVariant.NULL_VALUE
      else (vector_at column._dictionary value_id).map AllTypeVariant.value := by
  have hassert : (chunk_offset != c.INVALID_CHUNK_OFFSET) = true := by simpa using hinvalid
  simp only [DictionaryColumn.subscript, hassert, DebugAssert_of_holds, hget, bind, Except.bind,
    pure, Except.pure]
  split
  · rfl
  · rcases vector_at column._dictionary value_id with failure | value <;> rfl

end opossum

namespace opossum

/-- The loop of `materialize_values` over the first `k` chunk offsets: the entries of
these offsets are set, the others are still `std::nullopt`. -/
theorem materialize_values_prefix {T : Type} (c : StorageConstants)
    (column : DictionaryColumn T) (hvalid : column.value_ids_valid c) :
    ∀ k, k ≤ column.size →
      (List.range k).foldlM (column.materialize_values_step c)
          (List.replicate column._attribute_vector.size none) =
        Except.ok ((List.range column.size).map
          (fun i => if i < k then spec_materialized_entry c column i else none)) := by
  intro k
  induction k with
  | zero =>
    intro _
    simp only [List.range_zero, List.foldlM_nil, pure, Except.pure, Nat.not_lt_zero, if_false]
    congr 1
    simp [DictionaryColumn.size, BaseNsVector.size, List.map_const']
  | succ k ih =>
    intro hk
    obtain ⟨value_id, hsome, hmem, hget⟩ := attribute_vector_get_of_lt column k (by omega)
    rw [List.range_succ, List.foldlM_append, ih (by omega)]
    simp only [bind, Except.bind, List.foldlM_cons, List.foldlM_nil, pure, Except.pure]
    simp only [DictionaryColumn.materialize_values_step, is_null_eq c column k value_id hget,
      hget, bind, Except.bind, pure, Except.pure]
    by_cases hnull : value_id = c.NULL_VALUE_ID
    · have hb : (value_id == c.NULL_VALUE_ID) = true := by simpa using hnull
      simp only [hb, if_true]
      congr 1
      apply List.map_congr_left
      intro i _
      by_cases hik : i < k
      · rw [if_pos hik, if_pos (by omega)]
      · rw [if_neg hik]
        by_cases hi : i = k
        · subst hi
          simp [spec_materialized_entry, hsome, hnull]
        · rw [if_neg (by omega)]
    · have hb : (value_id == c.NULL_VALUE_ID) = false := by simpa using hnull
      have hlt : value_id < column._dictionary.length := by
        rcases hvalid value_id hmem with h | h
        · exact absurd h hnull
        · exact h
      have hentry : vector_at column._dictionary value_id =
          Except.ok column._dictionary[value_id] := by
        simp [vector_at, List.getElem?_eq_getElem hlt]
      have hlen : k < ((List.range column.size).map
          (fun i => if i < k then spec_materialized_entry c column i else none)).length := by
        simp only [List.length_map, List.length_range]
        omega
      simp only [hb, hentry, if_pos hlen, Bool.false_eq_true, if_false]
      congr 1
      apply List.ext_getElem?
      intro i
      rw [List.getElem?_set]
      by_cases hi : k = i
      · subst hi
        rw [if_pos rfl, if_pos hlen]
        simp only [List.getElem?_map, List.getElem?_range (show k < column.size by omega),
          Option.map_some', Nat.lt_succ_self, if_true]
        simp [spec_materialized_entry, hsome, hnull, List.getElem?_eq_getElem hlt]
      · rw [if_neg hi]
        simp only [List.getElem?_map]
        by_cases hisize : i < column.size
        · simp only [List.getElem?_range hisize, Option.map_some']
          by_cases hik : i < k
          · rw [if_pos hik, if_pos (by omega)]
          · rw [if_neg hik, if_neg (by omega)]
        · simp [List.getElem?_eq_none (show (List.range column.size).length ≤ i by
            simp only [List.length_range]; omega)]

end opossum

namespace opossum

/-! ## Dictionary columns: the binary searches -/

/-- The binary search on a range that `test` partitions (an entry that passes `test`
has only such entries before it): started with the positions before `first` passing
and those from `first + len` on failing, it ends at the position where the entries
that pass `test` end. -/
theorem std_binary_search_partition_point {T : Type} (test : T → Bool) (range : List T)
    (hpartitioned : ∀ (i j : Nat) (x y : T), i ≤ j → range[i]? = some x → range[j]? = some y →
      test y = true → test x = true) :
    ∀ fuel first len : Nat, len ≤ fuel → first + len ≤ range.length →
      (∀ (j : Nat) (x : T), j < first → range[j]? = some x → test x = true) →
      (∀ (j : Nat) (x : T), first + len ≤ j → range[j]? = some x → test x = false) →
      std_binary_search test range fuel first len ≤ range.length ∧
      (∀ (j : Nat) (x : T), j < std_binary_search test range fuel first len → range[j]? = some x →
        test x = true) ∧
      (∀ (j : Nat) (x : T), std_binary_search test range fuel first len ≤ j → range[j]? = some x →
        test x = false) := by
  intro fuel
  induction fuel with
  | zero =>
    intro first len hlen hbound hbefore hafter
    have h0 : len = 0 := by omega
    subst h0
    exact ⟨hbound, hbefore, hafter⟩
  | succ fuel ih =>
    intro first len hlen hbound hbefore hafter
    by_cases h0 : len = 0
    · subst h0
      simp only [std_binary_search, if_true]
      exact ⟨hbound, hbefore, hafter⟩
    · have hmiddle : first + len / 2 < range.length := by omega
      have hentry : range[first + len / 2]? = some range[first + len / 2] :=
        List.getElem?_eq_getElem hmiddle
      simp only [std_binary_search, if_neg h0, hentry]
      by_cases htest : test range[first + len / 2] = true
      · rw [if_pos htest]
        refine ih (first + len / 2 + 1) (len - len / 2 - 1) (by omega) (by omega) ?_ ?_
        · intro j x hj hx
          exact hpartitioned j (first + len / 2) x _ (by omega) hx hentry htest
        · intro j x hj hx
          exact hafter j x (by omega) hx
      · rw [if_neg htest]
        refine ih first (len / 2) (by omega) (by omega) hbefore ?_
        intro j x hj hx
        cases hx1 : test x with
        | false => rfl
        | true =>
          exact absurd (hpartitioned (first + len / 2) j _ x hj hentry hx hx1) htest

/-- The position `std::lower_bound` returns on a dictionary sorted ascending: the
entries before it are less than `value`, the entries from it on are not. -/
theorem std_lower_bound_position {T : Type} [LinearOrder T] (range : List T)
    (hsorted : range.Sorted (fun a b => a ≤ b)) (value : T) :
    std_lower_bound range value ≤ range.length ∧
    (∀ (j : Nat) (x : T), j < std_lower_bound range value → range[j]? = some x → x < value) ∧
    (∀ (j : Nat) (x : T), std_lower_bound range value ≤ j → range[j]? = some x → value ≤ x) := by
  have h := std_binary_search_partition_point (fun entry => decide (entry < value)) range
    (by
      intro i j x y hij hx hy hlt
      have hxy : x ≤ y := by
        rcases Nat.eq_or_lt_of_le hij with heq | hlt2
        · subst heq
          rw [hx] at hy
          cases hy
          exact le_refl _
        · obtain ⟨hi, hxi⟩ := List.getElem?_eq_some_iff.mp hx
          obtain ⟨hj, hyj⟩ := List.getElem?_eq_some_iff.mp hy
          rw [← hxi, ← hyj]
          exact (List.pairwise_iff_getElem.mp hsorted) i j hi hj hlt2
      simp only [decide_eq_true_eq] at hlt ⊢
      exact lt_of_le_of_lt hxy hlt)
    range.length 0 range.length (Nat.le_refl _) (by omega)
    (fun j x hj _ => absurd hj (Nat.not_lt_zero j))
    (fun j x hj hx => by
      have := (List.getElem?_eq_some_iff.mp hx).1
      omega)
  refine ⟨h.1, ?_, ?_⟩
  · intro j x hj hx
    simpa using h.2.1 j x hj hx
  · intro j x hj hx
    simpa using h.2.2 j x hj hx

/-- The position `std::upper_bound` returns on a dictionary sorted ascending: the
entries before it are not greater than `value`, the entries from it on are. -/
theorem std_upper_bound_position {T : Type} [LinearOrder T] (range : List T)
    (hsorted : range.Sorted (fun a b => a ≤ b)) (value : T) :
    std_upper_bound range value ≤ range.length ∧
    (∀ (j : Nat) (x : T), j < std_upper_bound range value → range[j]? = some x → x ≤ value) ∧
    (∀ (j : Nat) (x : T), std_upper_bound range value ≤ j → range[j]? = some x → value < x) := by
  have h := std_binary_search_partition_point (fun entry => !decide (value < entry)) range
    (by
      intro i j x y hij hx hy hlt
      have hxy : x ≤ y := by
        rcases Nat.eq_or_lt_of_le hij with heq | hlt2
        · subst heq
          rw [hx] at hy
          cases hy
          exact le_refl _
        · obtain ⟨hi, hxi⟩ := List.getElem?_eq_some_iff.mp hx
          obtain ⟨hj, hyj⟩ := List.getElem?_eq_some_iff.mp hy
          rw [← hxi, ← hyj]
          exact (List.pairwise_iff_getElem.mp hsorted) i j hi hj hlt2
      simp only [Bool.not_eq_true', decide_eq_false_iff_not, not_lt] at hlt ⊢
      exact le_trans hxy hlt)
    range.length 0 range.length (Nat.le_refl _) (by omega)
    (fun j x hj _ => absurd hj (Nat.not_lt_zero j))
    (fun j x hj hx => by
      have := (List.getElem?_eq_some_iff.mp hx).1
      omega)
  refine ⟨h.1, ?_, ?_⟩
  · intro j x hj hx
    simpa using h.2.1 j x hj hx
  · intro j x hj hx
    simpa using h.2.2 j x hj hx

/-- The value id that `lower_bound` and `upper_bound` make of a position of the
search, when the dictionary has at most `INVALID_VALUE_ID` entries and
`INVALID_VALUE_ID` is a `uint32_t`: `INVALID_VALUE_ID` for the end of the dictionary,
the position itself otherwise. -/
theorem value_id_of_position (INVALID_VALUE_ID size position : Nat)
    (hposition : position ≤ size) (hsize : size ≤ INVALID_VALUE_ID)
    (huint : INVALID_VALUE_ID < UINT32_MOD) :
    ((if position = size then INVALID_VALUE_ID else to_uint32_t position) = INVALID_VALUE_ID ↔
      position = size) ∧
    (position ≠ size →
      (if position = size then INVALID_VALUE_ID else to_uint32_t position) = position) := by
  have hmod : position ≠ size → to_uint32_t position = position := by
    intro hne
    unfold to_uint32_t
    exact Nat.mod_eq_of_lt (by omega)
  refine ⟨?_, ?_⟩
  · by_cases h : position = size
    · simp [h]
    · rw [if_neg h, hmod h]
      constructor
      · intro heq
        omega
      · intro heq
        exact absurd heq h
  · intro h
    rw [if_neg h, hmod h]

end opossum

namespace opossum

/-- C37: for every dictionary column whose dictionary is sorted ascending (and has at
most `INVALID_VALUE_ID` entries, `INVALID_VALUE_ID` being a `uint32_t`) and every value
`v`, `lower_bound(v)` is `INVALID_VALUE_ID` exactly when every dictionary entry is less
than `v`, which includes the empty dictionary, and is otherwise the smallest index `i`
with `dictionary[i] >= v`: the entry at it is not less than `v`, and every entry at a
smaller index is. -/
theorem lower_bound_smallest_index {T : Type} [LinearOrder T] (c : StorageConstants)
    (column : DictionaryColumn T) (hsorted : column._dictionary.Sorted (fun a b => a ≤ b))
    (hsize : column._dictionary.length ≤ c.INVALID_VALUE_ID)
    (huint : c.INVALID_VALUE_ID < UINT32_MOD) (value : T) :
    (column.lower_bound c value = c.INVALID_VALUE_ID ↔
      ∀ entry, entry ∈ column._dictionary → entry < value) ∧
    (column.lower_bound c value ≠ c.INVALID_VALUE_ID →
      (∃ entry, column._dictionary[column.lower_bound c value]? = some entry ∧ value ≤ entry) ∧
      ∀ (j : Nat) (entry : T), j < column.lower_bound c value →
        column._dictionary[j]? = some entry → entry < value) := by
  obtain ⟨hle, hbefore, hafter⟩ := std_lower_bound_position column._dictionary hsorted value
  obtain ⟨hiff, hvalue⟩ := value_id_of_position c.INVALID_VALUE_ID column._dictionary.length
    (std_lower_bound column._dictionary value) hle hsize huint
  have hend : std_lower_bound column._dictionary value = column._dictionary.length ↔
      ∀ entry, entry ∈ column._dictionary → entry < value := by
    constructor
    · intro heq entry hmem
      obtain ⟨j, hj, hentry⟩ := List.getElem_of_mem hmem
      exact hbefore j entry (by omega) (by rw [List.getElem?_eq_getElem hj, hentry])
    · intro hall
      by_contra hne
      have hlt : std_lower_bound column._dictionary value < column._dictionary.length := by
        omega
      have h1 := hafter _ _ (Nat.le_refl _) (List.getElem?_eq_getElem hlt)
      exact absurd (hall _ (List.getElem_mem hlt)) (not_lt_of_le h1)
  simp only [DictionaryColumn.lower_bound]
  refine ⟨hiff.trans hend, ?_⟩
  intro hvalid
  have hne : std_lower_bound column._dictionary value ≠ column._dictionary.length :=
    fun h => hvalid (hiff.mpr h)
  rw [hvalue hne]
  have hlt : std_lower_bound column._dictionary value < column._dictionary.length := by omega
  exact ⟨⟨_, List.getElem?_eq_getElem hlt,
    hafter _ _ (Nat.le_refl _) (List.getElem?_eq_getElem hlt)⟩, hbefore⟩

/-- Witness for C37: the dictionary 10, 20, 30: the lower bound of 20 is index 1, that
of 25 is index 2, and that of 31 is `INVALID_VALUE_ID`. -/
theorem lower_bound_smallest_index_witness :
    (example_dictionary_column.lower_bound example_storage_constants 20 = 1 ∧
      example_dictionary_column.lower_bound example_storage_constants 25 = 2 ∧
      example_dictionary_column.lower_bound example_storage_constants 31 = 4294967295) ∧
    (example_dictionary_column.lower_bound example_storage_constants 25 ≠
        example_storage_constants.INVALID_VALUE_ID →
      (∃ entry, example_dictionary_column._dictionary[
          example_dictionary_column.lower_bound example_storage_constants 25]? = some entry ∧
        25 ≤ entry) ∧
      ∀ (j : Nat) (entry : Int),
        j < example_dictionary_column.lower_bound example_storage_constants 25 →
        example_dictionary_column._dictionary[j]? = some entry → entry < 25) :=
  ⟨⟨by rfl, by rfl, by rfl⟩,
    (lower_bound_smallest_index example_storage_constants example_dictionary_column
      (by decide) (by decide) (by decide) 25).2⟩

/-- C38: for every dictionary column whose dictionary is sorted ascending (and has at
most `INVALID_VALUE_ID` entries, `INVALID_VALUE_ID` being a `uint32_t`) and every value
`v`, `upper_bound(v)` is `INVALID_VALUE_ID` exactly when no dictionary entry is greater
than `v`, and is otherwise the smallest index `i` with `dictionary[i] > v`; and when
`lower_bound(v)` and `upper_bound(v)` are both valid indices, `lower_bound(v)` is at
most `upper_bound(v)`, with equality exactly when `v` is not in the dictionary. -/
theorem upper_bound_smallest_index {T : Type} [LinearOrder T] (c : StorageConstants)
    (column : DictionaryColumn T) (hsorted : column._dictionary.Sorted (fun a b => a ≤ b))
    (hsize : column._dictionary.length ≤ c.INVALID_VALUE_ID)
    (huint : c.INVALID_VALUE_ID < UINT32_MOD) (value : T) :
    (column.upper_bound c value = c.INVALID_VALUE_ID ↔
      ∀ entry, entry ∈ column._dictionary → ¬ value < entry) ∧
    (column.upper_bound c value ≠ c.INVALID_VALUE_ID →
      (∃ entry, column._dictionary[column.upper_bound c value]? = some entry ∧ value < entry) ∧
      ∀ (j : Nat) (entry : T), j < column.upper_bound c value →
        column._dictionary[j]? = some entry → ¬ value < entry) ∧
    (column.lower_bound c value ≠ c.INVALID_VALUE_ID →
      column.upper_bound c value ≠ c.INVALID_VALUE_ID →
      column.lower_bound c value ≤ column.upper_bound c value ∧
      (column.lower_bound c value = column.upper_bound c value ↔
        value ∉ column._dictionary)) := by
  obtain ⟨hle, hbefore, hafter⟩ := std_upper_bound_position column._dictionary hsorted value
  obtain ⟨hiff, hvalue⟩ := value_id_of_position c.INVALID_VALUE_ID column._dictionary.length
    (std_upper_bound column._dictionary value) hle hsize huint
  obtain ⟨hle1, hbefore1, hafter1⟩ := std_lower_bound_position column._dictionary hsorted value
  obtain ⟨hiff1, hvalue1⟩ := value_id_of_position c.INVALID_VALUE_ID column._dictionary.length
    (std_lower_bound column._dictionary value) hle1 hsize huint
  have hend : std_upper_bound column._dictionary value = column._dictionary.length ↔
      ∀ entry, entry ∈ column._dictionary → ¬ value < entry := by
    constructor
    · intro heq entry hmem
      obtain ⟨j, hj, hentry⟩ := List.getElem_of_mem hmem
      exact not_lt_of_le
        (hbefore j entry (by omega) (by rw [List.getElem?_eq_getElem hj, hentry]))
    · intro hall
      by_contra hne
      have hlt : std_upper_bound column._dictionary value < column._dictionary.length := by
        omega
      have h1 := hafter _ _ (Nat.le_refl _) (List.getElem?_eq_getElem hlt)
      exact absurd h1 (hall _ (List.getElem_mem hlt))
  simp only [DictionaryColumn.upper_bound, DictionaryColumn.lower_bound]
  refine ⟨hiff.trans hend, ?_, ?_⟩
  · intro hvalid
    have hne : std_upper_bound column._dictionary value ≠ column._dictionary.length :=
      fun h => hvalid (hiff.mpr h)
    rw [hvalue hne]
    have hlt : std_upper_bound column._dictionary value < column._dictionary.length := by omega
    exact ⟨⟨_, List.getElem?_eq_getElem hlt,
      hafter _ _ (Nat.le_refl _) (List.getElem?_eq_getElem hlt)⟩,
      fun j entry hj hentry => not_lt_of_le (hbefore j entry hj hentry)⟩
  · intro hvalid1 hvalid
    have hne : std_upper_bound column._dictionary value ≠ column._dictionary.length :=
      fun h => hvalid (hiff.mpr h)
    have hne1 : std_lower_bound column._dictionary value ≠ column._dictionary.length :=
      fun h => hvalid1 (hiff1.mpr h)
    rw [hvalue hne, hvalue1 hne1]
    have hlt : std_upper_bound column._dictionary value < column._dictionary.length := by omega
    have hlt1 : std_lower_bound column._dictionary value < column._dictionary.length := by omega
    have hle2 : std_lower_bound column._dictionary value ≤
        std_upper_bound column._dictionary value := by
      by_contra hgt
      have h1 := hbefore1 _ _ (Nat.lt_of_not_le hgt) (List.getElem?_eq_getElem hlt)
      have h2 := hafter _ _ (Nat.le_refl _) (List.getElem?_eq_getElem hlt)
      exact absurd h1 (not_lt_of_lt h2)
    refine ⟨hle2, ?_, ?_⟩
    · intro heq hmem
      obtain ⟨j, hj, hentry⟩ := List.getElem_of_mem hmem
      have hget : column._dictionary[j]? = some value := by
        rw [List.getElem?_eq_getElem hj, hentry]
      by_cases hjl : j < std_lower_bound column._dictionary value
      · exact absurd (hbefore1 j value hjl hget) (lt_irrefl _)
      · exact absurd (hafter j value (by omega) hget) (lt_irrefl _)
    · intro hnot
      by_contra hne2
      have hlt2 : std_lower_bound column._dictionary value <
          std_upper_bound column._dictionary value := by omega
      have h1 := hafter1 _ _ (Nat.le_refl _) (List.getElem?_eq_getElem hlt1)
      have h2 := hbefore _ _ hlt2 (List.getElem?_eq_getElem hlt1)
      have heq : column._dictionary[std_lower_bound column._dictionary value] = value :=
        le_antisymm h2 h1
      exact hnot (heq ▸ List.getElem_mem hlt1)

/-- Witness for C38: the dictionary 10, 20, 30: the upper bound of 20 is index 2, one
past its lower bound 1; the bounds of 25, which is not in the dictionary, are both
index 2; and the upper bound of 30 is `INVALID_VALUE_ID`. -/
theorem upper_bound_smallest_index_witness :
    (example_dictionary_column.upper_bound example_storage_constants 20 = 2 ∧
      example_dictionary_column.lower_bound example_storage_constants 20 = 1 ∧
      example_dictionary_column.upper_bound example_storage_constants 25 = 2 ∧
      example_dictionary_column.lower_bound example_storage_constants 25 = 2 ∧
      example_dictionary_column.upper_bound example_storage_constants 30 = 4294967295) ∧
    (example_dictionary_column.lower_bound example_storage_constants 20 ≠
        example_storage_constants.INVALID_VALUE_ID →
      example_dictionary_column.upper_bound example_storage_constants 20 ≠
        example_storage_constants.INVALID_VALUE_ID →
      example_dictionary_column.lower_bound example_storage_constants 20 ≤
        example_dictionary_column.upper_bound example_storage_constants 20 ∧
      (example_dictionary_column.lower_bound example_storage_constants 20 =
          example_dictionary_column.upper_bound example_storage_constants 20 ↔
        (20 : Int) ∉ example_dictionary_column._dictionary)) :=
  ⟨⟨by rfl, by rfl, by rfl, by rfl, by rfl⟩,
    (upper_bound_smallest_index example_storage_constants example_dictionary_column
      (by decide) (by decide) (by decide) 20).2.2⟩

end opossum

namespace opossum

/-! ## Dictionary columns: copying a value, and the null value id -/

/-- C40 (what the code does): the null checks of a dictionary column do not use the
null value id the column is constructed with. For every column, `is_null(i)` holds
exactly when the value id at `i` equals the constant `NULL_VALUE_ID`, whatever
`null_value_id()` returns. On the column constructed with the null value id 2 over the
dictionary 10, 20 and the value ids 0, 2, 1, with `NULL_VALUE_ID` the largest
`uint32_t`: the value id at chunk offset 1 equals `null_value_id()`, yet `is_null(1)` is
false, `operator[](1)` and `get(1)` read the dictionary out of bounds, and the copy into
a nullable column raises `std::out_of_range` after the flag false was appended. -/
theorem is_null_ignores_null_value_id :
    (∀ (T : Type) (c : StorageConstants) (column : DictionaryColumn T)
      (chunk_offset value_id : Nat),
      column._attribute_vector[chunk_offset]? = some value_id →
      ∃ null, column.is_null c chunk_offset = Except.ok null ∧
        (null = true ↔ value_id = c.NULL_VALUE_ID)) ∧
    example_dictionary_column_own_null_value_id.null_value_id = 2 ∧
    example_dictionary_column_own_null_value_id._attribute_vector[1]? = some 2 ∧
    example_dictionary_column_own_null_value_id.is_null example_storage_constants 1 =
      Except.ok false ∧
    example_dictionary_column_own_null_value_id.subscript example_storage_constants 1 =
      Except.error Failure.out_of_bounds ∧
    example_dictionary_column_own_null_value_id.get example_storage_constants 1 =
      Except.error Failure.out_of_bounds ∧
    example_dictionary_column_own_null_value_id.copy_value_to_value_column
        example_storage_constants { _values := [], _null_values := some [] } 1 =
      (Except.error (Failure.logic_error "std::out_of_range"),
        { _values := [], _null_values := some [false] }) := by
  refine ⟨?_, by rfl, by rfl, by rfl, by rfl, by rfl, by rfl⟩
  intro T c column chunk_offset value_id hsome
  have hget : column._attribute_vector.get chunk_offset = Except.ok value_id := by
    simp [BaseNsVector.get, vector_at, hsome]
  exact ⟨_, is_null_eq c column _ _ hget, by simp⟩

end opossum
